import Mathlib

/-!
# Gateway: LLM service, key pool and usage accounting

A shallow embedding of `internal/llms` (service.go, types.go and the three
provider clients) together with `internal/types`, `internal/metrics`, the middleware of
`internal/auth` and the query route of `main.go`.

* Go `int`, `uint`, `int64` are `Int` / `Nat`: no arithmetic is performed on them.
* Go `float64` is `F64`, an executable IEEE 754 binary64 model (round to nearest even).
* `time.Time` is `Time` (an integer instant), `time.Duration` is `Duration`.
* The GORM database is `DB`, the two tables being lists of rows; every database call
  takes the error the database reports for it (`none` when it goes through).
* Everything a request does to the outside world is appended to `World.trace`.
* A panic is an outcome of its own: `metrics.RecordTokenUsage` returns the value of the
  panic of `Counter.Add`, `Service.Query` ends in `QueryResult.panic`, and `HandleQuery`,
  run by the engine of `gin.Default()`, is answered by the recovery (500, no payload).
* A loop over a Go map runs in an order of its own, a `GoMap.RangeOrder`.
* An outbound request goes to the parsed form of the URL string it was made from.
-/

set_option autoImplicit false
set_option maxRecDepth 100000
set_option exponentiation.threshold 4096
set_option linter.unusedVariables false

namespace Gateway

/-! ## float64 -/

/-- IEEE 754 binary64 value. `fin neg m e` is `(-1)^neg * m * 2^e`; values built by
`F64.round` are canonical: `m < 2^53`, `-1074 ≤ e ≤ 971`, and `2^52 ≤ m` unless `e = -1074`. -/
inductive F64 where
  | nan : F64
  | inf (neg : Bool) : F64
  | fin (neg : Bool) (m : Nat) (e : Int) : F64
  deriving DecidableEq, Repr

namespace F64

/-- Position of the highest set bit: `floor (log2 n)` for `n > 0`, by halving. -/
def log2Aux : Nat → Nat → Nat
  | 0, _ => 0
  | fuel + 1, n => if n < 2 then 0 else log2Aux fuel (n / 2) + 1

/-- The integer `floor (log2 n)` for `n > 0` (and `0` for `n = 0`). -/
def log2 (n : Nat) : Nat := log2Aux n n

/-- Round the non-negative rational `n / d` (`d > 0`) to the nearest binary64 value,
ties to even, with gradual underflow and overflow to infinity. -/
def round (neg : Bool) (n d : Nat) : F64 :=
  if n = 0 then fin neg 0 (-1074) else
  let l : Int := (log2 n : Int) - (log2 d : Int)
  let ge : Bool := if 0 ≤ l then decide (d * 2 ^ l.toNat ≤ n) else decide (d ≤ n * 2 ^ (-l).toNat)
  let fl : Int := if ge then l else l - 1
  let e : Int := max (fl - 52) (-1074)
  let N : Nat := n * 2 ^ (-e).toNat
  let D : Nat := d * 2 ^ e.toNat
  let q : Nat := N / D
  let r : Nat := N % D
  let m : Nat := if 2 * r < D then q else if D < 2 * r then q + 1 else if q % 2 = 0 then q else q + 1
  let m1 : Nat := if m = 2 ^ 53 then 2 ^ 52 else m
  let e1 : Int := if m = 2 ^ 53 then e + 1 else e
  if 971 < e1 then inf neg else fin neg m1 e1

/-- Round `n * 2^k` to binary64. -/
def roundScaled (neg : Bool) (n : Nat) (k : Int) : F64 :=
  round neg (n * 2 ^ k.toNat) (2 ^ (-k).toNat)

/-- Conversion `float64(i)` of a Go integer. -/
def ofInt (i : Int) : F64 := round (decide (i < 0)) i.natAbs 1

/-- The float64 nearest to the decimal constant `n / d`, as the Go compiler converts a
floating-point literal. -/
def ofRatio (n d : Nat) : F64 := round false n d

/-- IEEE multiplication `x * y`. -/
def mul : F64 → F64 → F64
  | nan, _ => nan
  | _, nan => nan
  | inf s, inf t => inf (xor s t)
  | inf s, fin t m _ => if m = 0 then nan else inf (xor s t)
  | fin s m _, inf t => if m = 0 then nan else inf (xor s t)
  | fin s m e, fin t k f => roundScaled (xor s t) (m * k) (e + f)

/-- IEEE division `x / y`. -/
def div : F64 → F64 → F64
  | nan, _ => nan
  | _, nan => nan
  | inf _, inf _ => nan
  | inf s, fin t _ _ => inf (xor s t)
  | fin s _ _, inf t => fin (xor s t) 0 (-1074)
  | fin s m e, fin t k f =>
    if k = 0 then (if m = 0 then nan else inf (xor s t))
    else round (xor s t) (m * 2 ^ (e - f).toNat) (k * 2 ^ (f - e).toNat)

/-- Go `x == 0` on float64: true for `+0` and `-0`. -/
def isZero : F64 → Bool
  | fin _ 0 _ => true
  | _ => false

/-- Neither NaN nor an infinity. -/
def isFinite : F64 → Bool
  | fin _ _ _ => true
  | _ => false

end F64


/-! ## Go maps -/

/-- A Go `map[K]V` as an association list; the first binding of a key is the live one. -/
abbrev GoMap (K V : Type) := List (K × V)

namespace GoMap

variable {K V : Type} [DecidableEq K]

/-- Read `m[k]` with the comma-ok form. -/
def get? (m : GoMap K V) (k : K) : Option V :=
  (m.find? (fun kv => decide (kv.1 = k))).map Prod.snd

/-- Assignment `m[k] = v`: any previous binding of `k` is dropped. -/
def set (m : GoMap K V) (k : K) (v : V) : GoMap K V :=
  m.filter (fun kv => !decide (kv.1 = k)) ++ [(k, v)]

/-- An order in which `range` may visit the entries of a map. Go leaves the order
unspecified and it varies from one loop to the next: a loop runs with one rearrangement of
the entries. -/
structure RangeOrder (α : Type) where
  apply : List α → List α
  perm : ∀ l, (apply l).Perm l

/-- The values met by `for _, v := range m`, in the order of the loop. -/
def values (m : GoMap K V) (order : RangeOrder V) : List V := order.apply (m.map Prod.snd)

/-- The loop that visits the entries in the order of their insertion. -/
def RangeOrder.insertion {α : Type} : RangeOrder α := ⟨id, fun l => List.Perm.refl l⟩

/-- The loop that visits the entries in the reverse order of their insertion. -/
def RangeOrder.reversed {α : Type} : RangeOrder α := ⟨List.reverse, fun l => List.reverse_perm l⟩

end GoMap

/-! ## internal/types and internal/llms/types.go -/

namespace types

/-- Provider tag, `type Provider string`. -/
abbrev Provider := String

/-- Constant `ProviderGroq`. -/
def ProviderGroq : Provider := "groq"
/-- Constant `ProviderGoogle`. -/
def ProviderGoogle : Provider := "google"
/-- Constant `ProviderOpenAI`. -/
def ProviderOpenAI : Provider := "openai"

/-- Token accounting of one request. -/
structure TokenUsage where
  PromptTokens : Int
  CompletionTokens : Int
  TotalTokens : Int
  deriving DecidableEq, Repr

/-- The three counts are non-negative. -/
def TokenUsage.NonNegative (u : TokenUsage) : Prop :=
  0 ≤ u.PromptTokens ∧ 0 ≤ u.CompletionTokens ∧ 0 ≤ u.TotalTokens

instance TokenUsage.decidableNonNegative (u : TokenUsage) : Decidable u.NonNegative :=
  inferInstanceAs (Decidable (0 ≤ u.PromptTokens ∧ 0 ≤ u.CompletionTokens ∧ 0 ≤ u.TotalTokens))

end types

/-- Instants of `time.Time`, totally ordered. -/
abbrev Time := Int
/-- Lengths of time, `time.Duration`. -/
abbrev Duration := Int

namespace llms

/-- A model of a provider. -/
structure Model where
  ID : String
  Provider : types.Provider
  Name : String
  Description : String
  MaxTokens : Int
  CostPer1K : F64
  deriving DecidableEq, Repr

/-- A query to an LLM (`Request`; `QueryRequest`, the request body, has the same fields).
`Metadata` is `none` for a nil map. -/
structure Request where
  Provider : types.Provider
  Model : String
  Prompt : String
  MaxTokens : Int
  Temperature : F64
  Stop : List String
  Stream : Bool
  Metadata : Option (GoMap String String)
  deriving DecidableEq, Repr

/-- A normalized response. -/
structure Response where
  ID : String
  Provider : types.Provider
  Model : String
  Text : String
  Usage : types.TokenUsage
  FinishReason : String
  Metadata : Option (GoMap String String)
  Latency : Duration
  deriving DecidableEq, Repr

/-- A row of table `api_keys`. Of the embedded `gorm.Model` only the primary key `ID` is kept;
the rows of a `DB` are the live ones (`deleted_at IS NULL`), the only ones GORM queries see. -/
structure APIKey where
  ID : Nat
  Provider : types.Provider
  Key : String
  Description : String
  IsActive : Bool
  LastUsed : Time
  deriving DecidableEq, Repr

/-- A row of table `key_usages` (the columns of `gorm.Model` are assigned by the database
and are left out). -/
structure KeyUsage where
  APIKeyID : Nat
  RequestCount : Int
  TokenCount : Int
  Cost : F64
  Timestamp : Time
  deriving DecidableEq, Repr

/-- The interface `LLMClient`. `Query` is what the call answers for a request and a
credential: the context, its cancellation included, is part of that answer. -/
structure LLMClient where
  Query : Request → String → Except String Response
  GetModels : List Model
  GetProvider : types.Provider

/-- The database behind `*gorm.DB`: the key store and the usage ledger. -/
structure DB where
  api_keys : List APIKey
  key_usages : List KeyUsage
  deriving DecidableEq, Repr

/-- What a request does to the outside world, in order of occurrence. -/
inductive Effect where
  | clientQuery (req : Request) (apiKey : String) : Effect
  | llmLatency (provider : types.Provider) (model : String) (elapsed : Duration) : Effect
  | llmTokens (provider : types.Provider) (model : String) (kind : String) (count : F64) : Effect
  | llmError (provider : types.Provider) (model : String) : Effect
  | recordAPIKeyUsage (keyID : Nat) (usage : types.TokenUsage) (cost : F64) : Effect
  | updateAPIKeyLastUsed (keyID : Nat) : Effect
  | ginError (err : String) : Effect
  | apiError (endpoint : String) (method : String) (status : Nat) : Effect
  deriving DecidableEq, Repr

/-- The mutable world of the service: the database and the trace of effects. -/
structure World where
  db : DB
  trace : List Effect
  deriving DecidableEq, Repr

/-- Append one effect to the trace. -/
def World.emit (w : World) (e : Effect) : World := { w with trace := w.trace ++ [e] }

end llms

/-! ## internal/metrics -/

namespace metrics

open llms

/-! The label values handed to `WithLabelValues` are Lean strings, hence valid UTF-8, and
their number is the number of labels of the vector: `WithLabelValues` returns. -/

/-- Observation `llm_request_latency_seconds{provider, model}`; the value kept is the
duration whose `Seconds()` the caller passes. -/
def RecordLLMLatency (provider : types.Provider) (model : String) (duration : Duration)
    (w : World) : World :=
  w.emit (.llmLatency provider model duration)

/-- One addition `llmTokens.WithLabelValues(provider, model, kind).Add(float64(count))`.
`Counter.Add` of the Prometheus client panics on a negative value ("counter cannot decrease
in value") and adds it otherwise. The second component is the value of the panic, if any. -/
def addTokens (provider : types.Provider) (model kind : String) (count : Int) (w : World) :
    World × Option String :=
  if count < 0 then (w, some "counter cannot decrease in value")
  else (w.emit (.llmTokens provider model kind (F64.ofInt count)), none)

/-- Three additions to `llm_tokens_total{provider, model, type}`, for the prompt, the
completion and the total count in that order. A panic of one addition ends the function:
the additions before it are made, the ones after it are not. The second component is the
value of the panic, if any. -/
def RecordTokenUsage (provider : types.Provider) (model : String) (usage : types.TokenUsage)
    (w : World) : World × Option String :=
  match addTokens provider model "prompt" usage.PromptTokens w with
  | (w1, some p) => (w1, some p)
  | (w1, none) =>
  match addTokens provider model "completion" usage.CompletionTokens w1 with
  | (w2, some p) => (w2, some p)
  | (w2, none) => addTokens provider model "total" usage.TotalTokens w2

/-- Increment of `llm_request_errors_total{provider, model}`. -/
def RecordLLMError (provider : types.Provider) (model : String) (w : World) : World :=
  w.emit (.llmError provider model)

/-- Increment of `api_request_errors_total{endpoint, method, status}`. -/
def RecordAPIError (endpoint method : String) (status : Nat) (w : World) : World :=
  w.emit (.apiError endpoint method status)

end metrics

/-! ## internal/llms/service.go -/

namespace llms

/-- The registry part of `Service` (the database handle is the `World`). -/
structure Service where
  clients : GoMap types.Provider LLMClient
  models : GoMap String Model

/-- A fresh service with two empty maps. -/
def NewService : Service := { clients := [], models := [] }

/-- The loop `for _, model := range client.GetModels() { s.models[model.ID] = model }`. -/
def registerModels (models : GoMap String Model) : List Model → GoMap String Model
  | [] => models
  | model :: rest => registerModels (models.set model.ID model) rest

/-- Register a client under its provider tag and index its models by id. -/
def Service.RegisterClient (s : Service) (client : LLMClient) : Service :=
  { clients := s.clients.set client.GetProvider client
    models := registerModels s.models client.GetModels }

/-- The client registered for a provider. -/
def Service.GetClient (s : Service) (provider : types.Provider) : Except String LLMClient :=
  match s.clients.get? provider with
  | none => .error ("provider " ++ provider ++ " not supported")
  | some client => .ok client

/-- Model information by id (`none` is the `false` of the comma-ok pair). -/
def Service.GetModel (s : Service) (id : String) : Option Model := s.models.get? id

/-- All indexed models, collected by a loop over the map. -/
def Service.ListModels (s : Service) (order : GoMap.RangeOrder Model) : List Model :=
  s.models.values order

/-- The order `ORDER BY last_used ASC` of the query, completed by the primary key as
`First` does (`ORDER BY last_used ASC, id`). -/
def keyOrder (a b : APIKey) : Prop :=
  a.LastUsed < b.LastUsed ∨ (a.LastUsed = b.LastUsed ∧ a.ID ≤ b.ID)

instance keyOrderDecidable : DecidableRel keyOrder := fun a b =>
  inferInstanceAs (Decidable (a.LastUsed < b.LastUsed ∨ (a.LastUsed = b.LastUsed ∧ a.ID ≤ b.ID)))

/-- The rows selected by `WHERE provider = ? AND is_active = ?` with arguments `provider, true`,
in the order of the query. -/
def activeKeys (db : DB) (provider : types.Provider) : List APIKey :=
  (db.api_keys.filter (fun k => decide (k.Provider = provider) && k.IsActive)).insertionSort keyOrder

/-- An active API key of a provider, the least recently used one. `dbErr` is the error the
database reports for the query, if any; no row is `record not found`. -/
def GetAPIKey (db : DB) (dbErr : Option String) (provider : types.Provider) : Except String APIKey :=
  match dbErr with
  | some e => .error e
  | none =>
    match (activeKeys db provider).head? with
    | none => .error "record not found"
    | some key => .ok key

/-- Record the usage of a key: one row inserted in the ledger, unless the database
reports `dbErr`. -/
def RecordAPIKeyUsage (keyID : Nat) (usage : types.TokenUsage) (cost : F64) (now : Time)
    (dbErr : Option String) (w : World) : World × Option String :=
  let w1 := w.emit (.recordAPIKeyUsage keyID usage cost)
  let keyUsage : KeyUsage :=
    { APIKeyID := keyID, RequestCount := 1, TokenCount := usage.TotalTokens, Cost := cost,
      Timestamp := now }
  match dbErr with
  | some e => (w1, some e)
  | none => ({ w1 with db := { w1.db with key_usages := w1.db.key_usages ++ [keyUsage] } }, none)

/-- Set `last_used` of the rows with the given id to `now`, unless the database
reports `dbErr`. -/
def UpdateAPIKeyLastUsed (keyID : Nat) (now : Time) (dbErr : Option String) (w : World) :
    World × Option String :=
  let w1 := w.emit (.updateAPIKeyLastUsed keyID)
  match dbErr with
  | some e => (w1, some e)
  | none =>
    let rows := w1.db.api_keys.map (fun k => if k.ID = keyID then { k with LastUsed := now } else k)
    ({ w1 with db := { w1.db with api_keys := rows } }, none)

/-- Modelled from the spec: deactivation of a credential is an external administrative
action (`UPDATE api_keys SET is_active = false WHERE id = ?`); no function of the
repository performs it. -/
def DB.deactivate (db : DB) (keyID : Nat) : DB :=
  let rows := db.api_keys.map (fun k => if k.ID = keyID then { k with IsActive := false } else k)
  { db with api_keys := rows }

/-- The request body `QueryRequest` as decoded from JSON. -/
structure QueryRequest where
  Provider : types.Provider
  Model : String
  Prompt : String
  MaxTokens : Int
  Temperature : F64
  Stop : List String
  Stream : Bool
  Metadata : Option (GoMap String String)
  deriving DecidableEq, Repr

/-- The message of the validator for a field that fails `binding:"required"`. -/
def requiredError (field : String) : String :=
  "Key: 'QueryRequest." ++ field ++ "' Error:Field validation for '" ++ field ++
    "' failed on the 'required' tag"

/-- Gin's `c.ShouldBindJSON(&req)`: `decoded` is the outcome of JSON decoding, after which
the three fields tagged `binding:"required"` must be non-zero. -/
def ShouldBindJSON (decoded : Except String QueryRequest) : Except String QueryRequest :=
  match decoded with
  | .error e => .error e
  | .ok req =>
    let missing :=
      (if req.Provider = "" then [requiredError "Provider"] else []) ++
      (if req.Model = "" then [requiredError "Model"] else []) ++
      (if req.Prompt = "" then [requiredError "Prompt"] else [])
    if missing.isEmpty then .ok req else .error ("\n".intercalate missing)

/-- What the surroundings supply to one call of `HandleQuery`: the decoded body, the
values the auth gate left in the context, the clock and the errors of the database. -/
structure Env where
  decoded : Except String QueryRequest
  organization_id : String
  project_id : String
  user_id : String
  getKeyErr : Option String
  elapsed : Duration
  recordNow : Time
  recordErr : Option String
  updateNow : Time
  updateErr : Option String

/-- The payload of an answer: `gin.H{"error": msg}` or a response written by `c.JSON`, or
no payload at all, as in the answer of `c.AbortWithStatus`. -/
inductive Body where
  | error (msg : String) : Body
  | response (resp : Response) : Body
  | empty : Body
  deriving DecidableEq, Repr

/-- The answer a caller receives: status and payload. -/
structure GinResponse where
  status : Nat
  body : Body
  deriving DecidableEq, Repr

/-- The request forwarded to the client: the fields of the body, with `project_id` and
`user_id` written into the metadata (a nil map is made first). -/
def llmRequest (req : QueryRequest) (project_id user_id : String) : Request :=
  let metadata : GoMap String String := match req.Metadata with
    | none => []
    | some m => m
  { Provider := req.Provider, Model := req.Model, Prompt := req.Prompt,
    MaxTokens := req.MaxTokens, Temperature := req.Temperature, Stop := req.Stop,
    Stream := req.Stream,
    Metadata := some ((metadata.set "project_id" project_id).set "user_id" user_id) }

/-- The cost of a response: `float64(resp.Usage.TotalTokens) * model.CostPer1K / 1000`. -/
def cost (model : Model) (usage : types.TokenUsage) : F64 :=
  F64.div (F64.mul (F64.ofInt usage.TotalTokens) model.CostPer1K) (F64.ofInt 1000)

/-- A failure of an accounting step is put on the context with `c.Error(err)`. -/
def logError (r : World × Option String) : World :=
  match r.2 with
  | some e => r.1.emit (.ginError e)
  | none => r.1

/-- What a call of `Service.Query` gives its caller: the pair `(resp, nil)`, the pair
`(nil, err)`, or a panic that unwinds through the call. -/
inductive QueryResult where
  | ok (resp : Response) : QueryResult
  | error (err : String) : QueryResult
  | panic (value : String) : QueryResult
  deriving DecidableEq, Repr

/-- Handler of `POST /v1/llm/query`, as run by the engine of `main.go`. That engine is
`gin.Default()`, whose `Recovery` middleware answers a panic of a handler with
`c.AbortWithStatus(500)`: status 500 and no payload. -/
def Service.HandleQuery (s : Service) (env : Env) (w : World) : World × GinResponse :=
  match ShouldBindJSON env.decoded with
  | .error e => (w, ⟨400, .error e⟩)
  | .ok req =>
  match s.GetClient req.Provider with
  | .error e => (w, ⟨400, .error e⟩)
  | .ok client =>
  match s.GetModel req.Model with
  | none => (w, ⟨400, .error "invalid model"⟩)
  | some model =>
  match GetAPIKey w.db env.getKeyErr req.Provider with
  | .error _ => (w, ⟨500, .error "no API key available"⟩)
  | .ok apiKey =>
  let llmReq := llmRequest req env.project_id env.user_id
  let w0 := w.emit (.clientQuery llmReq apiKey.Key)
  match client.Query llmReq apiKey.Key with
  | .error e => (metrics.RecordLLMError req.Provider req.Model w0, ⟨500, .error e⟩)
  | .ok resp =>
    let w1 := metrics.RecordLLMLatency req.Provider req.Model env.elapsed w0
    match metrics.RecordTokenUsage req.Provider req.Model resp.Usage w1 with
    | (w2, some _) => (w2, ⟨500, .empty⟩)
    | (w2, none) =>
    let w3 := logError
      (RecordAPIKeyUsage apiKey.ID resp.Usage (cost model resp.Usage) env.recordNow env.recordErr w2)
    let w4 := logError (UpdateAPIKeyLastUsed apiKey.ID env.updateNow env.updateErr w3)
    (w4, ⟨200, .response resp⟩)

/-- The programmatic entry point `Service.Query(ctx, orgID, projectID, req)`. -/
def Service.Query (s : Service) (orgID projectID : String) (req : Request)
    (getKeyErr : Option String) (elapsed : Duration) (w : World) :
    World × QueryResult :=
  match GetAPIKey w.db getKeyErr req.Provider with
  | .error e => (w, .error ("failed to get API key: " ++ e))
  | .ok apiKey =>
  match s.GetClient req.Provider with
  | .error e => (w, .error e)
  | .ok client =>
  let w0 := w.emit (.clientQuery req apiKey.Key)
  match client.Query req apiKey.Key with
  | .error e =>
    (metrics.RecordLLMError req.Provider req.Model w0, .error ("failed to query LLM: " ++ e))
  | .ok resp =>
    let w1 := metrics.RecordLLMLatency req.Provider req.Model elapsed w0
    match metrics.RecordTokenUsage req.Provider req.Model resp.Usage w1 with
    | (w2, some p) => (w2, .panic p)
    | (w2, none) => (w2, .ok resp)

/-- The service after registering the clients of a list, first to last. -/
def registerAll (s : Service) : List LLMClient → Service
  | [] => s
  | client :: rest => registerAll (s.RegisterClient client) rest

end llms

/-! ## The provider clients -/

/-- A JSON value as `json.Marshal` writes it; the keys of an object are in the sorted
order in which a Go map is marshalled. -/
inductive JSON where
  | str (s : String) : JSON
  | int (i : Int) : JSON
  | num (x : F64) : JSON
  | arr (items : List JSON) : JSON
  | obj (fields : List (String × JSON)) : JSON

/-- The value under a key of a JSON object, if any. -/
def JSON.field? : JSON → String → Option JSON
  | .obj fields, key => (fields.find? (fun kv => decide (kv.1 = key))).map Prod.snd
  | _, _ => none

/-- The keys of a JSON object. -/
def JSON.keys : JSON → List String
  | .obj fields => fields.map Prod.fst
  | _ => []

/-! ### net/url -/

namespace url

/-- Go's `strings.Cut(s, sep)` for a separator of one character, on the characters of
the string: the text before the first separator and the text after it, `none` when the
separator does not occur. -/
def cut (sep : Char) : List Char → List Char × Option (List Char)
  | [] => ([], none)
  | c :: cs => if c = sep then ([], some cs) else (c :: (cut sep cs).1, (cut sep cs).2)

/-- The pieces of a text between the occurrences of a separator. -/
def fields (sep : Char) : List Char → List (List Char)
  | [] => [[]]
  | c :: cs =>
    if c = sep then [] :: fields sep cs
    else
      match fields sep cs with
      | [] => [[c]]
      | f :: fs => (c :: f) :: fs

/-- The fields of `url.URL` that the request line and the query parameters are made of. -/
structure URL where
  Scheme : String
  Host : String
  Path : String
  RawQuery : String
  Fragment : String
  deriving DecidableEq, Repr

/-- Go's `url.Parse` on a URL that starts with a scheme and `//`, as the URLs of the three
clients do: the fragment is what follows the first `#`, the scheme what precedes the first
`:`, the query what follows the first `?` of the rest, the host what stands between `//`
and the next `/`, and the path starts at that `/`. Percent-decoding is left out, and so is
the rejection of a malformed URL (the error of `http.NewRequestWithContext`, which
`Net.NewRequestErr` stands for). -/
def Parse (rawURL : String) : URL :=
  let u := cut '#' rawURL.toList
  let scheme := cut ':' u.1
  let query := cut '?' (scheme.2.getD [])
  let host := cut '/' (query.1.drop 2)
  { Scheme := String.mk scheme.1, Host := String.mk host.1,
    Path := match host.2 with
      | some path => String.mk ('/' :: path)
      | none => "",
    RawQuery := String.mk (query.2.getD []), Fragment := String.mk (u.2.getD []) }

/-- Go's `url.ParseQuery`: the pairs of a query string, in order. The pairs stand between
the `&`; an empty one is skipped and one with a `;` is dropped; each is cut at its first
`=`. Percent-decoding is left out. -/
def ParseQuery (query : String) : List (String × String) :=
  (fields '&' query.toList).filterMap (fun kv =>
    if kv = [] ∨ ';' ∈ kv then none
    else some (String.mk (cut '=' kv).1, String.mk ((cut '=' kv).2.getD [])))

/-- The values `u.Query()[key]` of a query parameter, in order; `u.Query().Get(key)` is the
first of them. -/
def URL.Query (u : URL) (key : String) : List String :=
  ((ParseQuery u.RawQuery).filter (fun kv => decide (kv.1 = key))).map Prod.snd

/-- The string is made of the characters that are written in a URL as they are and have no
meaning in it, the unreserved ones: letters, digits, `-`, `.`, `_` and `~`. -/
def unreserved (s : String) : Prop :=
  ∀ c ∈ s.toList, c.isAlphanum = true ∨ c = '-' ∨ c = '.' ∨ c = '_' ∨ c = '~'

instance decidableUnreserved (s : String) : Decidable (unreserved s) :=
  inferInstanceAs
    (Decidable (∀ c ∈ s.toList, c.isAlphanum = true ∨ c = '-' ∨ c = '.' ∨ c = '_' ∨ c = '~'))

end url

/-- An outbound `*http.Request`. `URL` is the string given to
`http.NewRequestWithContext`, which parses it: the request goes to `ParsedURL`. -/
structure HTTPRequest where
  Method : String
  URL : String
  Header : GoMap String String
  Body : JSON

/-- The field `URL` of the `*http.Request`, the parsed form of the string it was made
from. -/
def HTTPRequest.ParsedURL (r : HTTPRequest) : url.URL := url.Parse r.URL

/-- The outcome of `httpClient.Do` followed by the JSON decoding of the body into the
result struct of type `R`. -/
inductive Upstream (R : Type) where
  | sendFailed (err : String) : Upstream R
  | parseFailed (err : String) : Upstream R
  | decoded (result : R) : Upstream R

/-- The surroundings of one `Query` call of a client: the URL check of
`http.NewRequestWithContext`, the HTTP client with the JSON decoder, and the clock. -/
structure Net (R : Type) where
  NewRequestErr : String → Option String
  Do : HTTPRequest → Upstream R
  elapsed : Duration
  unixNano : Int

/-- The error of `json.Marshal` on a float64 that JSON cannot carry. -/
def marshalFloatErr : F64 → Option String
  | .nan => some "json: unsupported value: NaN"
  | .inf false => some "json: unsupported value: +Inf"
  | .inf true => some "json: unsupported value: -Inf"
  | .fin _ _ _ => none

/-- The token accounting struct of a decoded payload. -/
structure WireUsage where
  PromptTokens : Int
  CompletionTokens : Int
  TotalTokens : Int
  deriving DecidableEq, Repr

/-- One element of `choices` in a chat-completions payload (`Content` is `message.content`). -/
structure Choice where
  Content : String
  FinishReason : String
  deriving DecidableEq, Repr

/-- The struct a chat-completions payload is decoded into (Groq and OpenAI). -/
structure ChatResult where
  ID : String
  Choices : List Choice
  Usage : WireUsage
  deriving DecidableEq, Repr

/-- The JSON body of a chat-completions request. -/
def chatBody (req : llms.Request) : JSON :=
  .obj ([("max_tokens", JSON.int req.MaxTokens),
         ("messages", JSON.arr [JSON.obj [("content", JSON.str req.Prompt), ("role", JSON.str "user")]]),
         ("model", JSON.str req.Model)] ++
        (if req.Stop.length > 0 then [("stop", JSON.arr (req.Stop.map JSON.str))] else []) ++
        [("temperature", JSON.num req.Temperature)])

/-- The translation of a decoded chat-completions payload into a response. -/
def chatResponse (req : llms.Request) (result : ChatResult) (elapsed : Duration) :
    Except String llms.Response :=
  match result.Choices with
  | [] => .error "no choices in response"
  | choice :: _ =>
    .ok { ID := result.ID, Provider := req.Provider, Model := req.Model, Text := choice.Content,
          Usage := { PromptTokens := result.Usage.PromptTokens,
                     CompletionTokens := result.Usage.CompletionTokens,
                     TotalTokens := result.Usage.TotalTokens },
          FinishReason := choice.FinishReason, Metadata := req.Metadata, Latency := elapsed }

/-- Marshal the body, build the request, send it and decode the answer: the part of
`Query` that ends with the decoded payload. -/
def roundTrip {R : Type} (net : Net R) (temperature : F64) (httpReq : HTTPRequest) :
    Except String R :=
  match marshalFloatErr temperature with
  | some e => .error ("failed to marshal request: " ++ e)
  | none =>
  match net.NewRequestErr httpReq.URL with
  | some e => .error ("failed to create request: " ++ e)
  | none =>
  match net.Do httpReq with
  | .sendFailed e => .error ("failed to send request: " ++ e)
  | .parseFailed e => .error ("failed to parse response: " ++ e)
  | .decoded result => .ok result

namespace groq

/-- The Groq client (its `*http.Client` is the `Net` of a call). -/
structure Client where
  models : List llms.Model

/-- The client with the catalogue of `NewClient`. -/
def NewClient : Client :=
  { models :=
      [ { ID := "llama2-70b-4096", Provider := types.ProviderGroq, Name := "Llama2 70B",
          Description := "High-performance Llama2 70B model", MaxTokens := 4096,
          CostPer1K := F64.ofRatio 7 10000 },
        { ID := "mixtral-8x7b-32768", Provider := types.ProviderGroq, Name := "Mixtral 8x7B",
          Description := "High-performance Mixtral 8x7B model", MaxTokens := 32768,
          CostPer1K := F64.ofRatio 27 100000 } ] }

/-- The outbound request of `Query`. -/
def httpRequest (req : llms.Request) (apiKey : String) : HTTPRequest :=
  { Method := "POST", URL := "https://api.groq.com/openai/v1/chat/completions",
    Header := (GoMap.set [] "Content-Type" "application/json").set "Authorization" ("Bearer " ++ apiKey),
    Body := chatBody req }

/-- Method `Query` of the Groq client. -/
def Client.Query (c : Client) (net : Net ChatResult) (req : llms.Request) (apiKey : String) :
    Except String llms.Response :=
  match roundTrip net req.Temperature (httpRequest req apiKey) with
  | .error e => .error e
  | .ok result => chatResponse req result net.elapsed

/-- Method `GetModels`. -/
def Client.GetModels (c : Client) : List llms.Model := c.models

/-- Method `GetProvider`. -/
def Client.GetProvider (c : Client) : types.Provider := types.ProviderGroq

/-- The Groq client as a value of the interface `LLMClient`, which its three methods
implement; `net` is the surroundings of its calls. -/
def Client.asLLMClient (c : Client) (net : Net ChatResult) : llms.LLMClient :=
  { Query := c.Query net, GetModels := c.GetModels, GetProvider := c.GetProvider }

end groq

namespace openai

/-- The OpenAI client; `apiKey` is read from the environment by `NewClient`. -/
structure Client where
  apiKey : String
  models : List llms.Model

/-- The client with the catalogue of `NewClient`; `env` is `os.Getenv("OPENAI_API_KEY")`. -/
def NewClient (env : String) : Client :=
  { apiKey := env
    models :=
      [ { ID := "gpt-4", Provider := types.ProviderOpenAI, Name := "GPT-4",
          Description := "OpenAI's most capable model", MaxTokens := 8192,
          CostPer1K := F64.ofRatio 3 100 },
        { ID := "gpt-3.5-turbo", Provider := types.ProviderOpenAI, Name := "GPT-3.5 Turbo",
          Description := "OpenAI's fastest model", MaxTokens := 4096,
          CostPer1K := F64.ofRatio 2 1000 } ] }

/-- The outbound request of `Query`. -/
def httpRequest (c : Client) (req : llms.Request) : HTTPRequest :=
  { Method := "POST", URL := "https://api.openai.com/v1/chat/completions",
    Header := (GoMap.set [] "Content-Type" "application/json").set "Authorization" ("Bearer " ++ c.apiKey),
    Body := chatBody req }

/-- Method `Query` of the OpenAI client: it takes no credential argument, so it is not the
method `Query` of the interface `LLMClient` and the client is not a value of that
interface. -/
def Client.Query (c : Client) (net : Net ChatResult) (req : llms.Request) :
    Except String llms.Response :=
  match roundTrip net req.Temperature (httpRequest c req) with
  | .error e => .error e
  | .ok result => chatResponse req result net.elapsed

/-- Method `GetModels`. -/
def Client.GetModels (c : Client) : List llms.Model := c.models

/-- Method `GetProvider`. -/
def Client.GetProvider (c : Client) : types.Provider := types.ProviderOpenAI

end openai

namespace google

/-- One element of `candidates`: the texts of `content.parts` and the finish reason. -/
structure Candidate where
  Parts : List String
  FinishReason : String
  deriving DecidableEq, Repr

/-- The struct a generate-content payload is decoded into; `TokenCount` is
`promptFeedback.tokenCount`. -/
structure Result where
  Candidates : List Candidate
  TokenCount : WireUsage
  deriving DecidableEq, Repr

/-- The Google AI Studio client. -/
structure Client where
  models : List llms.Model

/-- The client with the catalogue of `NewClient`. -/
def NewClient : Client :=
  { models :=
      [ { ID := "gemini-pro", Provider := types.ProviderGoogle, Name := "Gemini Pro",
          Description := "Google's most capable model for text generation", MaxTokens := 32768,
          CostPer1K := F64.ofRatio 25 100000 },
        { ID := "gemini-pro-vision", Provider := types.ProviderGoogle, Name := "Gemini Pro Vision",
          Description := "Google's model for text and image generation", MaxTokens := 32768,
          CostPer1K := F64.ofRatio 25 100000 } ] }

/-- The JSON body of a generate-content request. -/
def requestBody (req : llms.Request) : JSON :=
  .obj [("contents", JSON.arr [JSON.obj [("parts", JSON.arr [JSON.obj [("text", JSON.str req.Prompt)]])]]),
        ("generationConfig", JSON.obj
          ([("maxOutputTokens", JSON.int req.MaxTokens)] ++
           (if req.Stop.length > 0 then [("stopSequences", JSON.arr (req.Stop.map JSON.str))] else []) ++
           [("temperature", JSON.num req.Temperature)]))]

/-- The outbound request of `Query`. The URL is written with `fmt.Sprintf`, the model
and the credential being put in as they are, without escaping. -/
def httpRequest (req : llms.Request) (apiKey : String) : HTTPRequest :=
  { Method := "POST",
    URL := "https://generativelanguage.googleapis.com/v1beta/models/" ++ req.Model ++
      ":generateContent?key=" ++ apiKey,
    Header := GoMap.set [] "Content-Type" "application/json",
    Body := requestBody req }

/-- The translation of a decoded generate-content payload into a response. -/
def response (req : llms.Request) (result : Result) (elapsed : Duration) (unixNano : Int) :
    Except String llms.Response :=
  match result.Candidates with
  | [] => .error "no content in response"
  | candidate :: _ =>
    match candidate.Parts with
    | [] => .error "no content in response"
    | text :: _ =>
      .ok { ID := "gemini-" ++ toString unixNano, Provider := req.Provider, Model := req.Model,
            Text := text,
            Usage := { PromptTokens := result.TokenCount.PromptTokens,
                       CompletionTokens := result.TokenCount.CompletionTokens,
                       TotalTokens := result.TokenCount.TotalTokens },
            FinishReason := candidate.FinishReason, Metadata := req.Metadata, Latency := elapsed }

/-- Method `Query` of the Google client. -/
def Client.Query (c : Client) (net : Net Result) (req : llms.Request) (apiKey : String) :
    Except String llms.Response :=
  match roundTrip net req.Temperature (httpRequest req apiKey) with
  | .error e => .error e
  | .ok result => response req result net.elapsed net.unixNano

/-- Method `GetModels`. -/
def Client.GetModels (c : Client) : List llms.Model := c.models

/-- Method `GetProvider`. -/
def Client.GetProvider (c : Client) : types.Provider := types.ProviderGoogle

/-- The Google client as a value of the interface `LLMClient`, which its three methods
implement; `net` is the surroundings of its calls. -/
def Client.asLLMClient (c : Client) (net : Net Result) : llms.LLMClient :=
  { Query := c.Query net, GetModels := c.GetModels, GetProvider := c.GetProvider }

end google

/-! ## internal/auth and the query route of main.go -/

namespace strings

/-- The pieces of a string between the occurrences of a separator character, scanning
left to right; `cur` holds the current piece in reverse. -/
def splitAux (sep : Char) : List Char → List Char → List String
  | [], cur => [String.mk cur.reverse]
  | c :: cs, cur =>
    if c = sep then String.mk cur.reverse :: splitAux sep cs [] else splitAux sep cs (c :: cur)

/-- Go's `strings.Split(s, sep)` for a separator of one character. -/
def Split (s : String) (sep : Char) : List String := splitAux sep s.toList []

end strings

namespace auth

/-- The JWT claims answered by Clerk. -/
structure ClerkClaims where
  Subject : String
  OrganizationID : String
  ProjectID : String
  deriving DecidableEq, Repr

/-- What `client.Do` and the decoding of the body give for a verify request. -/
inductive ClerkAnswer where
  | sendFailed (err : String) : ClerkAnswer
  | answered (StatusCode : Nat) (Status : String) (claims : Except String ClerkClaims) :
      ClerkAnswer

/-- The auth service. -/
structure Service where
  clerkSecretKey : String

/-- Verify a token with Clerk; `clerk` answers the request made with the secret key in
`Authorization` and the token in `X-Token` (the fixed URL always parses, so creating the
request does not fail). -/
def Service.verifyClerkToken (s : Service) (clerk : String → String → ClerkAnswer)
    (token : String) : Except String ClerkClaims :=
  match clerk s.clerkSecretKey token with
  | .sendFailed e => .error ("failed to verify token: " ++ e)
  | .answered code status claims =>
    if code ≠ 200 then .error ("token verification failed: " ++ status)
    else
      match claims with
      | .error e => .error ("failed to parse claims: " ++ e)
      | .ok c => .ok c

/-- The part of `gin.Context` the auth gate and the handler use: the keys set with
`c.Set`, the abort flag and the answer written with `c.JSON`. -/
structure Context where
  keys : GoMap String String
  aborted : Bool
  written : Option llms.GinResponse
  deriving DecidableEq, Repr

/-- Gin's `c.Set(key, value)`. -/
def Context.Set (c : Context) (key value : String) : Context :=
  { c with keys := c.keys.set key value }

/-- Gin's `c.GetString(key)`: the empty string when the key is not set. -/
def Context.GetString (c : Context) (key : String) : String :=
  match c.keys.get? key with
  | some v => v
  | none => ""

/-- The three steps of a rejection: the error metric, the 401 answer, the abort. -/
def reject (msg : String) (c : Context) (w : llms.World) : Context × llms.World :=
  ({ c with written := some ⟨401, .error msg⟩, aborted := true },
    metrics.RecordAPIError "auth" "GET" 401 w)

/-- The middleware returned by `AuthMiddleware`. `ENV` is `os.Getenv("ENV")`, `authHeader`
is `c.GetHeader("Authorization")`, `next` is what `c.Next()` runs. -/
def Service.AuthMiddleware (s : Service) (ENV authHeader : String)
    (clerk : String → String → ClerkAnswer)
    (next : Context → llms.World → Context × llms.World) (c : Context) (w : llms.World) :
    Context × llms.World :=
  if ENV = "development" then
    next (((c.Set "user_id" "dev-user-123").Set "organization_id" "dev-org-123").Set
      "project_id" "dev-project-123") w
  else if authHeader = "" then reject "missing authorization header" c w
  else
    let parts := strings.Split authHeader ' '
    if parts.length ≠ 2 ∨ parts.getD 0 "" ≠ "Bearer" then
      reject "invalid authorization header format" c w
    else
      match s.verifyClerkToken clerk (parts.getD 1 "") with
      | .error _ => reject "invalid token" c w
      | .ok claims =>
        next (((c.Set "user_id" claims.Subject).Set "organization_id" claims.OrganizationID).Set
          "project_id" claims.ProjectID) w

/-- The handler `llmService.HandleQuery` on a context: it reads the identifiers with
`c.GetString` and writes its answer. The answer without payload is the one of the recovery
from a panic, which also aborts the context. -/
def queryHandler (s : llms.Service) (env : llms.Env) (c : Context) (w : llms.World) :
    Context × llms.World :=
  let out := s.HandleQuery
    { env with organization_id := c.GetString "organization_id",
               project_id := c.GetString "project_id", user_id := c.GetString "user_id" } w
  ({ c with written := some out.2,
            aborted := c.aborted || decide (out.2.body = llms.Body.empty) }, out.1)

/-- The chain `authService.AuthMiddleware(), llmService.HandleQuery` that `setupRoutes`
registers for `POST /v1/llm/query`, run on a fresh context. -/
def queryRoute (a : Service) (s : llms.Service) (ENV authHeader : String)
    (clerk : String → String → ClerkAnswer) (env : llms.Env) (w : llms.World) :
    Context × llms.World :=
  a.AuthMiddleware ENV authHeader clerk (queryHandler s env)
    { keys := [], aborted := false, written := none } w

end auth

/-! ## Example data -/

namespace llms

/-- The key store of the examples: two active Groq keys used at instants 10 and 20, an
active OpenAI key used at 5 and an inactive Groq key used at 1. -/
def exampleKeys : List APIKey :=
  [ { ID := 2, Provider := "groq", Key := "gsk-b", Description := "", IsActive := true, LastUsed := 20 },
    { ID := 1, Provider := "groq", Key := "gsk-a", Description := "", IsActive := true, LastUsed := 10 },
    { ID := 3, Provider := "openai", Key := "sk-c", Description := "", IsActive := true, LastUsed := 5 },
    { ID := 4, Provider := "groq", Key := "gsk-d", Description := "", IsActive := false, LastUsed := 1 } ]

/-- A successful answer of the upstream, with usage 10 + 5 = 15 tokens. -/
def exampleResponse : Response :=
  { ID := "chatcmpl-1", Provider := "groq", Model := "llama2-70b-4096", Text := "hello",
    Usage := { PromptTokens := 10, CompletionTokens := 5, TotalTokens := 15 },
    FinishReason := "stop", Metadata := none, Latency := 7 }

/-- A Groq client whose upstream call always has the given outcome. -/
def exampleClient (answer : Except String Response) : LLMClient :=
  { Query := fun _ _ => answer, GetModels := groq.NewClient.models,
    GetProvider := types.ProviderGroq }

/-- The service with that client registered. -/
def exampleService (answer : Except String Response) : Service :=
  NewService.RegisterClient (exampleClient answer)

/-- A request body for a model of the Groq catalogue. -/
def exampleRequest : QueryRequest :=
  { Provider := "groq", Model := "llama2-70b-4096", Prompt := "hi", MaxTokens := 16,
    Temperature := F64.ofRatio 1 2, Stop := [], Stream := false, Metadata := none }

/-- The surroundings of the example request, with the given outcomes of the two
accounting writes. -/
def exampleEnv (recordErr updateErr : Option String) : Env :=
  { decoded := .ok exampleRequest, organization_id := "org-1", project_id := "proj-1",
    user_id := "user-1",
    getKeyErr := none, elapsed := 7, recordNow := 30, recordErr := recordErr,
    updateNow := 31, updateErr := updateErr }

/-- The world before the example request: `exampleKeys`, an empty ledger, an empty trace. -/
def exampleWorld : World := { db := { api_keys := exampleKeys, key_usages := [] }, trace := [] }

/-- The example request with a model identifier that no catalogue lists. -/
def unknownModelRequest : QueryRequest := { exampleRequest with Model := "no-such-model" }

/-- The same request in the programmatic form taken by `Service.Query`. -/
def unknownModelQuery : Request :=
  { Provider := "groq", Model := "no-such-model", Prompt := "hi", MaxTokens := 16,
    Temperature := F64.ofRatio 1 2, Stop := [], Stream := false, Metadata := none }

/-- A world whose key store holds no Groq key that is active. -/
def noGroqKeyWorld : World :=
  { db := { api_keys :=
              [ { ID := 3, Provider := "openai", Key := "sk-c", Description := "",
                  IsActive := true, LastUsed := 5 },
                { ID := 4, Provider := "groq", Key := "gsk-d", Description := "",
                  IsActive := false, LastUsed := 1 } ],
            key_usages := [] },
    trace := [] }

/-- A model whose rate is the float64 `+Inf`. -/
def infiniteRateModel : Model :=
  { ID := "m", Provider := "groq", Name := "", Description := "", MaxTokens := 0,
    CostPer1K := F64.inf false }

/-- The model `gpt-4` of the OpenAI catalogue, at 0.03 per 1000 tokens. -/
def gpt4 : Model :=
  { ID := "gpt-4", Provider := types.ProviderOpenAI, Name := "GPT-4",
    Description := "OpenAI's most capable model", MaxTokens := 8192,
    CostPer1K := F64.ofRatio 3 100 }

/-- A response of the upstream for `gpt-4` that used 1000 tokens. -/
def gpt4Response : Response :=
  { ID := "chatcmpl-2", Provider := "openai", Model := "gpt-4", Text := "hello",
    Usage := { PromptTokens := 600, CompletionTokens := 400, TotalTokens := 1000 },
    FinishReason := "stop", Metadata := none, Latency := 9 }

/-- A client tagged `openai` that lists `gpt4` and always answers `gpt4Response`. -/
def gpt4Client : LLMClient :=
  { Query := fun _ _ => .ok gpt4Response, GetModels := [gpt4],
    GetProvider := types.ProviderOpenAI }

/-- A request body for `gpt-4`. -/
def gpt4Request : QueryRequest :=
  { Provider := "openai", Model := "gpt-4", Prompt := "hi", MaxTokens := 16,
    Temperature := F64.ofRatio 1 2, Stop := [], Stream := false, Metadata := none }

/-- The surroundings of the `gpt-4` request, the database reporting no error. -/
def gpt4Env : Env :=
  { decoded := .ok gpt4Request, organization_id := "org-1", project_id := "proj-1",
    user_id := "user-1",
    getKeyErr := none, elapsed := 9, recordNow := 30, recordErr := none,
    updateNow := 31, updateErr := none }

/-- The Groq client of `groq.NewClient` behind the interface, with a fixed answer. -/
def groqCatalogueClient : LLMClient := exampleClient (.ok exampleResponse)

/-- A client tagged `openai` whose one model reuses the identifier `llama2-70b-4096`. -/
def collidingClient : LLMClient :=
  { Query := fun _ _ => .ok gpt4Response,
    GetModels :=
      [ { ID := "llama2-70b-4096", Provider := types.ProviderOpenAI, Name := "Llama2 hosted",
          Description := "", MaxTokens := 4096, CostPer1K := F64.ofRatio 1 1000 } ],
    GetProvider := types.ProviderOpenAI }

/-- The first model of the Groq catalogue. -/
def llama2 : Model :=
  { ID := "llama2-70b-4096", Provider := types.ProviderGroq, Name := "Llama2 70B",
    Description := "High-performance Llama2 70B model", MaxTokens := 4096,
    CostPer1K := F64.ofRatio 7 10000 }

end llms

/-- A request as a client receives it. -/
def exampleQuery : llms.Request :=
  { Provider := "groq", Model := "llama2-70b-4096", Prompt := "hi", MaxTokens := 16,
    Temperature := F64.ofRatio 1 2, Stop := [], Stream := false, Metadata := none }

/-- A request with caller metadata for a model that no catalogue lists. -/
def metadataQuery : llms.Request :=
  { Provider := "groq", Model := "no-such-model", Prompt := "hi", MaxTokens := 16,
    Temperature := F64.ofRatio 1 2, Stop := [], Stream := false,
    Metadata := some [("trace", "t-1")] }

/-- Surroundings in which every request is built and sent and the payload decodes to
`result`. -/
def decodingNet {R : Type} (result : R) : Net R :=
  { NewRequestErr := fun _ => none, Do := fun _ => .decoded result, elapsed := 7,
    unixNano := 1700000000000000000 }

/-- A chat-completions payload with one choice and usage 10 + 5 = 15. -/
def chatPayload : ChatResult :=
  { ID := "chatcmpl-1", Choices := [{ Content := "hello", FinishReason := "stop" }],
    Usage := { PromptTokens := 10, CompletionTokens := 5, TotalTokens := 15 } }

/-- A chat-completions payload with one choice whose usage carries the prompt count -1. -/
def negativePromptPayload : ChatResult :=
  { ID := "chatcmpl-1", Choices := [{ Content := "hello", FinishReason := "stop" }],
    Usage := { PromptTokens := -1, CompletionTokens := 5, TotalTokens := 4 } }

/-- A chat-completions payload with one choice whose usage carries the total count -15. -/
def negativeTotalPayload : ChatResult :=
  { ID := "chatcmpl-1", Choices := [{ Content := "hello", FinishReason := "stop" }],
    Usage := { PromptTokens := 10, CompletionTokens := 5, TotalTokens := -15 } }

/-- The service with the Groq client registered, every call of which is answered with
the payload `result`. -/
def groqService (result : ChatResult) : llms.Service :=
  llms.NewService.RegisterClient (groq.NewClient.asLLMClient (decodingNet result))

/-- A generate-content payload with one candidate of one part and usage 10 + 5 = 15. -/
def googlePayload : google.Result :=
  { Candidates := [{ Parts := ["hello"], FinishReason := "STOP" }],
    TokenCount := { PromptTokens := 10, CompletionTokens := 5, TotalTokens := 15 } }

/-- A generate-content payload whose one candidate has no part, with usage 10 + 5 = 15. -/
def emptyPartsPayload : google.Result :=
  { Candidates := [{ Parts := [], FinishReason := "SAFETY" }],
    TokenCount := { PromptTokens := 10, CompletionTokens := 5, TotalTokens := 15 } }

/-- A chat-completions payload without any choice. -/
def noChoicePayload : ChatResult :=
  { ID := "chatcmpl-0", Choices := [],
    Usage := { PromptTokens := 10, CompletionTokens := 0, TotalTokens := 10 } }

/-- A generate-content payload without any candidate. -/
def noCandidatePayload : google.Result :=
  { Candidates := [],
    TokenCount := { PromptTokens := 10, CompletionTokens := 0, TotalTokens := 10 } }

/-- A chat-completions payload with two choices. -/
def twoChoicesPayload : ChatResult :=
  { ID := "chatcmpl-2",
    Choices := [{ Content := "first", FinishReason := "stop" },
                { Content := "second", FinishReason := "length" }],
    Usage := { PromptTokens := 10, CompletionTokens := 5, TotalTokens := 15 } }

/-- A generate-content payload with two candidates, the first of two parts. -/
def twoCandidatesPayload : google.Result :=
  { Candidates := [{ Parts := ["first", "more"], FinishReason := "STOP" },
                   { Parts := ["second"], FinishReason := "MAX_TOKENS" }],
    TokenCount := { PromptTokens := 10, CompletionTokens := 5, TotalTokens := 15 } }

/-- A generate-content payload with two candidates, the first without any part. -/
def blockedFirstPayload : google.Result :=
  { Candidates := [{ Parts := [], FinishReason := "SAFETY" },
                   { Parts := ["second"], FinishReason := "STOP" }],
    TokenCount := { PromptTokens := 10, CompletionTokens := 5, TotalTokens := 15 } }

/-- A request whose model identifier carries a query string of its own. -/
def injectingQuery : llms.Request :=
  { Provider := "google", Model := "m?key=evil&x=", Prompt := "hi", MaxTokens := 16,
    Temperature := F64.ofRatio 1 2, Stop := [], Stream := false, Metadata := none }

/-- A request with two stop sequences. -/
def stopQuery : llms.Request :=
  { Provider := "google", Model := "gemini-pro", Prompt := "hi", MaxTokens := 16,
    Temperature := F64.ofRatio 1 2, Stop := ["END", "STOP"], Stream := false, Metadata := none }

/-- The key store of `exampleKeys` with an empty ledger. -/
def exampleDB : llms.DB := { api_keys := llms.exampleKeys, key_usages := [] }

namespace llms

/-- The metadata map a caller supplied, the empty map when it is absent. -/
def callerMetadata (req : QueryRequest) : GoMap String String :=
  match req.Metadata with
  | none => []
  | some m => m

/-- The example request with caller metadata that also uses a reserved key. -/
def taggedRequest : QueryRequest :=
  { exampleRequest with Metadata := some [("trace", "t-1"), ("user_id", "spoofed")] }

end llms

namespace llms

/-- A decoded body without prompt. -/
def incompleteRequest : QueryRequest := { exampleRequest with Prompt := "" }

end llms

namespace llms

/-- A key store where two active Groq keys share the least `last_used`, the key with the
greater id being stored first. -/
def tiedKeys : List APIKey :=
  [ { ID := 7, Provider := "groq", Key := "gsk-g", Description := "", IsActive := true, LastUsed := 10 },
    { ID := 5, Provider := "groq", Key := "gsk-e", Description := "", IsActive := true, LastUsed := 10 },
    { ID := 6, Provider := "groq", Key := "gsk-f", Description := "", IsActive := true, LastUsed := 20 } ]

end llms

namespace auth

/-- A Clerk that answers every verify request with status 401. -/
def denyingClerk : String → String → ClerkAnswer :=
  fun _ _ => .answered 401 "401 Unauthorized" (.error "unexpected end of JSON input")

/-- A Clerk that accepts every token for one user. -/
def acceptingClerk : String → String → ClerkAnswer :=
  fun _ _ => .answered 200 "200 OK"
    (.ok { Subject := "user-1", OrganizationID := "org-1", ProjectID := "proj-1" })

end auth

namespace llms

/-- The row update of `UpdateAPIKeyLastUsed`: `last_used` becomes `now` on the rows with
the given id. -/
def markUsed (keyID : Nat) (now : Time) (k : APIKey) : APIKey :=
  if k.ID = keyID then { k with LastUsed := now } else k

/-- A sequential run of `HandleQuery` on the requests `envs` from the world `w`, each
world being the one the previous request left: every request is for `provider`, is
answered 200, acquires the next key of `keys`, has its `UpdateAPIKeyLastUsed` accepted by
the database, and marks with an instant later than every `last_used` then in the store. -/
def SuccessfulRun (s : Service) (provider : types.Provider) :
    List Env → World → List APIKey → Prop
  | [], _, keys => keys = []
  | env :: rest, w, keys =>
    ∃ req apiKey tail, keys = apiKey :: tail ∧
      ShouldBindJSON env.decoded = .ok req ∧ req.Provider = provider ∧
      (s.HandleQuery env w).2.status = 200 ∧
      GetAPIKey w.db env.getKeyErr provider = .ok apiKey ∧
      env.updateErr = none ∧
      (∀ k ∈ w.db.api_keys, k.LastUsed < env.updateNow) ∧
      SuccessfulRun s provider rest (s.HandleQuery env w).1 tail

/-- The example request served at instant `now`, the update of `last_used` having the
outcome `updateErr`. -/
def exampleEnvAt (now : Time) (updateErr : Option String) : Env :=
  { exampleEnv none updateErr with recordNow := now, updateNow := now }

end llms

namespace llms

/-- The Groq key 1 of `exampleKeys` with the given `last_used`. -/
def groqKey1 (lastUsed : Time) : APIKey :=
  { ID := 1, Provider := "groq", Key := "gsk-a", Description := "", IsActive := true,
    LastUsed := lastUsed }

/-- The Groq key 2 of `exampleKeys`. -/
def groqKey2 : APIKey :=
  { ID := 2, Provider := "groq", Key := "gsk-b", Description := "", IsActive := true,
    LastUsed := 20 }

end llms

/-! # Theorems -/

namespace llms

/-! ## The key pool -/

theorem keyOrder_total (a b : APIKey) : keyOrder a b ∨ keyOrder b a := by
  have key : ∀ (x y : Int) (m n : Nat),
      (x < y ∨ (x = y ∧ m ≤ n)) ∨ (y < x ∨ (y = x ∧ n ≤ m)) := by omega
  exact key a.LastUsed b.LastUsed a.ID b.ID

theorem keyOrder_trans (a b c : APIKey) (hab : keyOrder a b) (hbc : keyOrder b c) :
    keyOrder a c := by
  have key : ∀ (x y z : Int) (m n k : Nat), (x < y ∨ (x = y ∧ m ≤ n)) →
      (y < z ∨ (y = z ∧ n ≤ k)) → (x < z ∨ (x = z ∧ m ≤ k)) := by omega
  exact key a.LastUsed b.LastUsed c.LastUsed a.ID b.ID c.ID hab hbc

theorem keyOrder_lastUsed_le {a b : APIKey} (h : keyOrder a b) : a.LastUsed ≤ b.LastUsed := by
  have key : ∀ (x y : Int) (m n : Nat), (x < y ∨ (x = y ∧ m ≤ n)) → x ≤ y := by omega
  exact key a.LastUsed b.LastUsed a.ID b.ID h

theorem mem_activeKeys {db : DB} {provider : types.Provider} {k : APIKey} :
    k ∈ activeKeys db provider ↔
      k ∈ db.api_keys ∧ k.Provider = provider ∧ k.IsActive = true := by
  unfold activeKeys
  rw [(List.perm_insertionSort keyOrder _).mem_iff]
  simp [List.mem_filter]

theorem activeKeys_head_le {db : DB} {provider : types.Provider} {k : APIKey}
    (h : (activeKeys db provider).head? = some k) :
    ∀ other ∈ activeKeys db provider, k.LastUsed ≤ other.LastUsed := by
  haveI : IsTotal APIKey keyOrder := ⟨keyOrder_total⟩
  haveI : IsTrans APIKey keyOrder := ⟨keyOrder_trans⟩
  have hs : List.Sorted keyOrder (activeKeys db provider) := by
    unfold activeKeys
    exact List.sorted_insertionSort keyOrder _
  intro other ho
  cases hl : activeKeys db provider with
  | nil => rw [hl] at h; simp at h
  | cons a t =>
    rw [hl] at h hs ho
    simp only [List.head?_cons, Option.some.injEq] at h
    subst h
    rcases List.mem_cons.1 ho with rfl | hmem
    · exact le_refl _
    · exact keyOrder_lastUsed_le (List.rel_of_sorted_cons hs other hmem)

theorem GetAPIKey_ok_iff {db : DB} {dbErr : Option String} {provider : types.Provider}
    {key : APIKey} :
    GetAPIKey db dbErr provider = .ok key ↔
      dbErr = none ∧ (activeKeys db provider).head? = some key := by
  unfold GetAPIKey
  cases dbErr with
  | some e => simp
  | none =>
    cases h : (activeKeys db provider).head? with
    | none => simp
    | some k => simp

theorem GetAPIKey_sound {db : DB} {dbErr : Option String} {provider : types.Provider}
    {key : APIKey} (h : GetAPIKey db dbErr provider = .ok key) :
    key ∈ db.api_keys ∧ key.Provider = provider ∧ key.IsActive = true ∧
      ∀ other ∈ db.api_keys, other.Provider = provider → other.IsActive = true →
        key.LastUsed ≤ other.LastUsed := by
  obtain ⟨_, hh⟩ := GetAPIKey_ok_iff.1 h
  have hmem : key ∈ activeKeys db provider := List.mem_of_mem_head? hh
  obtain ⟨h1, h2, h3⟩ := mem_activeKeys.1 hmem
  refine ⟨h1, h2, h3, ?_⟩
  intro other ho hp ha
  exact activeKeys_head_le hh other (mem_activeKeys.2 ⟨ho, hp, ha⟩)

theorem GetAPIKey_complete {db : DB} {provider : types.Provider}
    (h : ∃ k ∈ db.api_keys, k.Provider = provider ∧ k.IsActive = true) :
    ∃ key, GetAPIKey db none provider = .ok key := by
  obtain ⟨k, hk, hp, ha⟩ := h
  have hmem : k ∈ activeKeys db provider := mem_activeKeys.2 ⟨hk, hp, ha⟩
  cases hl : activeKeys db provider with
  | nil => rw [hl] at hmem; simp at hmem
  | cons a t => exact ⟨a, GetAPIKey_ok_iff.2 ⟨rfl, by rw [hl]; rfl⟩⟩

theorem mem_deactivate {db : DB} {keyID : Nat} {k : APIKey} (ha : k.IsActive = true) :
    k ∈ (db.deactivate keyID).api_keys ↔ k ∈ db.api_keys ∧ k.ID ≠ keyID := by
  unfold DB.deactivate
  simp only [List.mem_map]
  constructor
  · rintro ⟨k0, hk0, rfl⟩
    by_cases hid : k0.ID = keyID
    · simp [hid] at ha
    · simp only [hid, if_false] at ha ⊢
      exact ⟨hk0, hid⟩
  · rintro ⟨hk, hid⟩
    exact ⟨k, hk, by simp [hid]⟩

theorem GetAPIKey_deactivate_sound {db : DB} {provider : types.Provider} {keyID : Nat}
    {next : APIKey} (h : GetAPIKey (db.deactivate keyID) none provider = .ok next) :
    next ∈ db.api_keys ∧ next.ID ≠ keyID ∧ next.Provider = provider ∧ next.IsActive = true ∧
      ∀ other ∈ db.api_keys, other.Provider = provider → other.IsActive = true →
        other.ID ≠ keyID → next.LastUsed ≤ other.LastUsed := by
  obtain ⟨h1, h2, h3, h4⟩ := GetAPIKey_sound h
  obtain ⟨h5, h6⟩ := (mem_deactivate h3).1 h1
  refine ⟨h5, h6, h2, h3, ?_⟩
  intro other ho hp ha hid
  exact h4 other ((mem_deactivate ha).2 ⟨ho, hid⟩) hp ha

theorem GetAPIKey_deactivate_complete {db : DB} {provider : types.Provider} {keyID : Nat}
    (h : ∃ k ∈ db.api_keys, k.Provider = provider ∧ k.IsActive = true ∧ k.ID ≠ keyID) :
    ∃ next, GetAPIKey (db.deactivate keyID) none provider = .ok next := by
  obtain ⟨k, hk, hp, ha, hid⟩ := h
  exact GetAPIKey_complete ⟨k, (mem_deactivate ha).2 ⟨hk, hid⟩, hp, ha⟩

/-- C1: whatever the key store and the provider, a key returned by `GetAPIKey` is a row of
the store that belongs to the provider, is active and has a `last_used` not above that of
any active key of the provider; a key is returned as soon as the provider has an active key
and the database reports no error; once the returned key is deactivated, the next call
returns an active key of the provider with the least `last_used` among the remaining ones;
and with `k1` used strictly before every other active key and `k2` strictly before the rest,
the first call returns `k1` and, `k1` deactivated, the next one returns `k2`. -/
theorem GetAPIKey_least_recently_used (db : DB) (provider : types.Provider) :
    (∀ dbErr key, GetAPIKey db dbErr provider = .ok key →
      key ∈ db.api_keys ∧ key.Provider = provider ∧ key.IsActive = true ∧
        ∀ other ∈ db.api_keys, other.Provider = provider → other.IsActive = true →
          key.LastUsed ≤ other.LastUsed) ∧
    ((∃ k ∈ db.api_keys, k.Provider = provider ∧ k.IsActive = true) →
      ∃ key, GetAPIKey db none provider = .ok key) ∧
    (∀ key, GetAPIKey db none provider = .ok key →
      (∀ next, GetAPIKey (db.deactivate key.ID) none provider = .ok next →
        next ∈ db.api_keys ∧ next.ID ≠ key.ID ∧ next.Provider = provider ∧
          next.IsActive = true ∧ key.LastUsed ≤ next.LastUsed ∧
          ∀ other ∈ db.api_keys, other.Provider = provider → other.IsActive = true →
            other.ID ≠ key.ID → next.LastUsed ≤ other.LastUsed) ∧
      ((∃ k ∈ db.api_keys, k.Provider = provider ∧ k.IsActive = true ∧ k.ID ≠ key.ID) →
        ∃ next, GetAPIKey (db.deactivate key.ID) none provider = .ok next)) ∧
    (∀ k1 k2 : APIKey, k1 ∈ db.api_keys → k2 ∈ db.api_keys →
      k1.Provider = provider → k2.Provider = provider →
      k1.IsActive = true → k2.IsActive = true → k2.ID ≠ k1.ID →
      (∀ other ∈ db.api_keys, other.Provider = provider → other.IsActive = true →
        other ≠ k1 → k1.LastUsed < other.LastUsed) →
      (∀ other ∈ db.api_keys, other.Provider = provider → other.IsActive = true →
        other ≠ k1 → other ≠ k2 → k2.LastUsed < other.LastUsed) →
      GetAPIKey db none provider = .ok k1 ∧
        GetAPIKey (db.deactivate k1.ID) none provider = .ok k2) := by
  refine ⟨fun dbErr key h => GetAPIKey_sound h, GetAPIKey_complete, ?_, ?_⟩
  · intro key hkey
    refine ⟨?_, GetAPIKey_deactivate_complete⟩
    intro next hnext
    obtain ⟨h1, h2, h3, h4, h5⟩ := GetAPIKey_deactivate_sound hnext
    exact ⟨h1, h2, h3, h4, (GetAPIKey_sound hkey).2.2.2 next h1 h3 h4, h5⟩
  · intro k1 k2 hk1 hk2 hp1 hp2 ha1 ha2 hid hmin1 hmin2
    have hfirst : GetAPIKey db none provider = .ok k1 := by
      obtain ⟨key, hkey⟩ := GetAPIKey_complete ⟨k1, hk1, hp1, ha1⟩
      obtain ⟨g1, g2, g3, g4⟩ := GetAPIKey_sound hkey
      by_cases hne : key = k1
      · rw [← hne]; exact hkey
      · exact absurd (g4 k1 hk1 hp1 ha1) (not_le.2 (hmin1 key g1 g2 g3 hne))
    refine ⟨hfirst, ?_⟩
    obtain ⟨next, hnext⟩ :=
      @GetAPIKey_deactivate_complete db provider k1.ID ⟨k2, hk2, hp2, ha2, hid⟩
    obtain ⟨g1, g2, g3, g4, g5⟩ := GetAPIKey_deactivate_sound hnext
    have hne1 : next ≠ k1 := fun h => g2 (by rw [h])
    by_cases hne : next = k2
    · rw [← hne]; exact hnext
    · exact absurd (g5 k2 hk2 hp2 ha2 hid) (not_le.2 (hmin2 next g1 g3 g4 hne1 hne))

/-- Witness of C1 on `exampleKeys`: the Groq key used at 10 is returned first and, once it
is deactivated, the Groq key used at 20. -/
theorem GetAPIKey_least_recently_used_witness :
    GetAPIKey ⟨exampleKeys, []⟩ none "groq" =
        .ok { ID := 1, Provider := "groq", Key := "gsk-a", Description := "", IsActive := true,
              LastUsed := 10 } ∧
      GetAPIKey (DB.deactivate ⟨exampleKeys, []⟩ 1) none "groq" =
        .ok { ID := 2, Provider := "groq", Key := "gsk-b", Description := "", IsActive := true,
              LastUsed := 20 } :=
  (GetAPIKey_least_recently_used ⟨exampleKeys, []⟩ "groq").2.2.2
    { ID := 1, Provider := "groq", Key := "gsk-a", Description := "", IsActive := true,
      LastUsed := 10 }
    { ID := 2, Provider := "groq", Key := "gsk-b", Description := "", IsActive := true,
      LastUsed := 20 }
    (by decide) (by decide) rfl rfl rfl rfl (by decide) (by decide) (by decide)

/-! ## The handler -/

theorem HandleQuery_failure_eq {s : Service} {env : Env} {w : World} {req : QueryRequest}
    {client : LLMClient} {model : Model} {apiKey : APIKey} {e : String}
    (hb : ShouldBindJSON env.decoded = .ok req)
    (hc : s.GetClient req.Provider = .ok client)
    (hm : s.GetModel req.Model = some model)
    (hk : GetAPIKey w.db env.getKeyErr req.Provider = .ok apiKey)
    (hq : client.Query (llmRequest req env.project_id env.user_id) apiKey.Key = .error e) :
    s.HandleQuery env w =
      (metrics.RecordLLMError req.Provider req.Model
        (w.emit (.clientQuery (llmRequest req env.project_id env.user_id) apiKey.Key)),
        ⟨500, .error e⟩) := by
  simp only [Service.HandleQuery, hb, hc, hm, hk, hq]

/-- With three non-negative counts `RecordTokenUsage` makes its three additions and
returns. -/
theorem RecordTokenUsage_of_nonNegative {provider : types.Provider} {model : String}
    {usage : types.TokenUsage} (h : usage.NonNegative) (w : World) :
    metrics.RecordTokenUsage provider model usage w =
      (((w.emit (.llmTokens provider model "prompt" (F64.ofInt usage.PromptTokens))).emit
        (.llmTokens provider model "completion" (F64.ofInt usage.CompletionTokens))).emit
        (.llmTokens provider model "total" (F64.ofInt usage.TotalTokens)), none) := by
  obtain ⟨h1, h2, h3⟩ := h
  simp [metrics.RecordTokenUsage, metrics.addTokens, not_lt.2 h1, not_lt.2 h2, not_lt.2 h3]

/-- With a negative count `RecordTokenUsage` panics: it leaves the database as it was and
has made at most the additions for the counts before the negative one. -/
theorem RecordTokenUsage_of_negative {provider : types.Provider} {model : String}
    {usage : types.TokenUsage} (h : ¬ usage.NonNegative) (w : World) :
    ∃ added, metrics.RecordTokenUsage provider model usage w =
        ({ w with trace := w.trace ++ added }, some "counter cannot decrease in value") ∧
      added.length ≤ 2 ∧
      ∀ e ∈ added, ∃ kind count, e = Effect.llmTokens provider model kind count := by
  unfold types.TokenUsage.NonNegative at h
  by_cases h1 : usage.PromptTokens < 0
  · refine ⟨[], ?_, by simp, by simp⟩
    simp [metrics.RecordTokenUsage, metrics.addTokens, h1]
  · by_cases h2 : usage.CompletionTokens < 0
    · refine ⟨[.llmTokens provider model "prompt" (F64.ofInt usage.PromptTokens)], ?_,
        by simp, by simp⟩
      simp [metrics.RecordTokenUsage, metrics.addTokens, h1, h2, World.emit]
    · have h3 : usage.TotalTokens < 0 := by
        by_contra h3
        exact h ⟨not_lt.1 h1, not_lt.1 h2, not_lt.1 h3⟩
      refine ⟨[.llmTokens provider model "prompt" (F64.ofInt usage.PromptTokens),
          .llmTokens provider model "completion" (F64.ofInt usage.CompletionTokens)], ?_,
        by simp, by simp⟩
      simp [metrics.RecordTokenUsage, metrics.addTokens, h1, h2, h3, World.emit]

/-- `RecordTokenUsage` returns exactly when the three counts are non-negative. -/
theorem RecordTokenUsage_returns_iff {provider : types.Provider} {model : String}
    {usage : types.TokenUsage} (w : World) :
    (metrics.RecordTokenUsage provider model usage w).2 = none ↔ usage.NonNegative := by
  constructor
  · intro hr
    by_contra hn
    obtain ⟨added, he, _⟩ := @RecordTokenUsage_of_negative provider model usage hn w
    rw [he] at hr
    cases hr
  · intro h
    rw [RecordTokenUsage_of_nonNegative h]

theorem HandleQuery_success_eq {s : Service} {env : Env} {w : World} {req : QueryRequest}
    {client : LLMClient} {model : Model} {apiKey : APIKey} {resp : Response}
    (hb : ShouldBindJSON env.decoded = .ok req)
    (hc : s.GetClient req.Provider = .ok client)
    (hm : s.GetModel req.Model = some model)
    (hk : GetAPIKey w.db env.getKeyErr req.Provider = .ok apiKey)
    (hq : client.Query (llmRequest req env.project_id env.user_id) apiKey.Key = .ok resp)
    (hu : resp.Usage.NonNegative) :
    s.HandleQuery env w =
      (logError (UpdateAPIKeyLastUsed apiKey.ID env.updateNow env.updateErr
        (logError (RecordAPIKeyUsage apiKey.ID resp.Usage (cost model resp.Usage) env.recordNow
          env.recordErr
          (metrics.RecordTokenUsage req.Provider req.Model resp.Usage
            (metrics.RecordLLMLatency req.Provider req.Model env.elapsed
              (w.emit
                (.clientQuery (llmRequest req env.project_id env.user_id) apiKey.Key)))).1))),
        ⟨200, .response resp⟩) := by
  simp only [Service.HandleQuery, hb, hc, hm, hk, hq, RecordTokenUsage_of_nonNegative hu]

/-- A request whose upstream call succeeds with a negative token count: the handler
panics in `RecordTokenUsage`, before the accounting steps, and the answer is the one of the
recovery, status 500 without payload. -/
theorem HandleQuery_panic_eq {s : Service} {env : Env} {w : World} {req : QueryRequest}
    {client : LLMClient} {model : Model} {apiKey : APIKey} {resp : Response}
    (hb : ShouldBindJSON env.decoded = .ok req)
    (hc : s.GetClient req.Provider = .ok client)
    (hm : s.GetModel req.Model = some model)
    (hk : GetAPIKey w.db env.getKeyErr req.Provider = .ok apiKey)
    (hq : client.Query (llmRequest req env.project_id env.user_id) apiKey.Key = .ok resp)
    (hu : ¬ resp.Usage.NonNegative) :
    s.HandleQuery env w =
      ((metrics.RecordTokenUsage req.Provider req.Model resp.Usage
          (metrics.RecordLLMLatency req.Provider req.Model env.elapsed
            (w.emit
              (.clientQuery (llmRequest req env.project_id env.user_id) apiKey.Key)))).1,
        ⟨500, .empty⟩) := by
  obtain ⟨added, he, _⟩ := @RecordTokenUsage_of_negative req.Provider req.Model resp.Usage hu
    (metrics.RecordLLMLatency req.Provider req.Model env.elapsed
      (w.emit (.clientQuery (llmRequest req env.project_id env.user_id) apiKey.Key)))
  simp only [Service.HandleQuery, hb, hc, hm, hk, hq, he]

/-- C2: when the upstream call of a request fails, `HandleQuery` appends to the trace the
call of the client and one error observation labelled with the provider and the model of
the request, and nothing else (no call of `RecordAPIKeyUsage` or `UpdateAPIKeyLastUsed`);
the database, so every `last_used` and the usage ledger, is as before, and the failure is
answered with status 500. -/
theorem HandleQuery_upstream_failure (s : Service) (env : Env) (w : World) (req : QueryRequest)
    (client : LLMClient) (model : Model) (apiKey : APIKey) (e : String)
    (hb : ShouldBindJSON env.decoded = .ok req)
    (hc : s.GetClient req.Provider = .ok client)
    (hm : s.GetModel req.Model = some model)
    (hk : GetAPIKey w.db env.getKeyErr req.Provider = .ok apiKey)
    (hq : client.Query (llmRequest req env.project_id env.user_id) apiKey.Key = .error e) :
    (s.HandleQuery env w).1.trace =
        w.trace ++ [.clientQuery (llmRequest req env.project_id env.user_id) apiKey.Key,
                    .llmError req.Provider req.Model] ∧
      (s.HandleQuery env w).1.db = w.db ∧
      (s.HandleQuery env w).2 = ⟨500, .error e⟩ := by
  rw [HandleQuery_failure_eq hb hc hm hk hq]
  simp [metrics.RecordLLMError, World.emit]

/-- Witness of C2: the example request with an upstream call canceled with the context. -/
theorem HandleQuery_upstream_failure_witness :
    ((exampleService (.error "context canceled")).HandleQuery (exampleEnv none none)
        exampleWorld).1.trace =
        [.clientQuery (llmRequest exampleRequest "proj-1" "user-1") "gsk-a",
         .llmError "groq" "llama2-70b-4096"] ∧
      ((exampleService (.error "context canceled")).HandleQuery (exampleEnv none none)
        exampleWorld).1.db = exampleWorld.db ∧
      ((exampleService (.error "context canceled")).HandleQuery (exampleEnv none none)
        exampleWorld).2 = ⟨500, .error "context canceled"⟩ :=
  HandleQuery_upstream_failure (exampleService (.error "context canceled")) (exampleEnv none none)
    exampleWorld exampleRequest (exampleClient (.error "context canceled"))
    { ID := "llama2-70b-4096", Provider := types.ProviderGroq, Name := "Llama2 70B",
      Description := "High-performance Llama2 70B model", MaxTokens := 4096,
      CostPer1K := F64.ofRatio 7 10000 }
    { ID := 1, Provider := "groq", Key := "gsk-a", Description := "", IsActive := true,
      LastUsed := 10 }
    "context canceled" rfl rfl rfl rfl rfl

/-- The effects of a request whose upstream call succeeds, in order: the call of the
client, the latency and the three token observations, the call of `RecordAPIKeyUsage` with
its logged error if it fails, the call of `UpdateAPIKeyLastUsed` with its logged error. -/
theorem HandleQuery_success_trace {s : Service} {env : Env} {w : World} {req : QueryRequest}
    {client : LLMClient} {model : Model} {apiKey : APIKey} {resp : Response}
    (hb : ShouldBindJSON env.decoded = .ok req)
    (hc : s.GetClient req.Provider = .ok client)
    (hm : s.GetModel req.Model = some model)
    (hk : GetAPIKey w.db env.getKeyErr req.Provider = .ok apiKey)
    (hq : client.Query (llmRequest req env.project_id env.user_id) apiKey.Key = .ok resp)
    (hu : resp.Usage.NonNegative) :
    (s.HandleQuery env w).1.trace =
      w.trace ++
        [.clientQuery (llmRequest req env.project_id env.user_id) apiKey.Key,
         .llmLatency req.Provider req.Model env.elapsed,
         .llmTokens req.Provider req.Model "prompt" (F64.ofInt resp.Usage.PromptTokens),
         .llmTokens req.Provider req.Model "completion" (F64.ofInt resp.Usage.CompletionTokens),
         .llmTokens req.Provider req.Model "total" (F64.ofInt resp.Usage.TotalTokens),
         .recordAPIKeyUsage apiKey.ID resp.Usage (cost model resp.Usage)] ++
        (match env.recordErr with
          | some e => [Effect.ginError e]
          | none => []) ++
        [.updateAPIKeyLastUsed apiKey.ID] ++
        (match env.updateErr with
          | some e => [Effect.ginError e]
          | none => []) := by
  rw [HandleQuery_success_eq hb hc hm hk hq hu, RecordTokenUsage_of_nonNegative hu]
  cases env.recordErr <;> cases env.updateErr <;>
    simp [logError, UpdateAPIKeyLastUsed, RecordAPIKeyUsage,
      metrics.RecordLLMLatency, World.emit]

/-- The ledger after a request whose upstream call succeeds: one event more when the
insert goes through, the same ledger when it fails. -/
theorem HandleQuery_success_ledger {s : Service} {env : Env} {w : World} {req : QueryRequest}
    {client : LLMClient} {model : Model} {apiKey : APIKey} {resp : Response}
    (hb : ShouldBindJSON env.decoded = .ok req)
    (hc : s.GetClient req.Provider = .ok client)
    (hm : s.GetModel req.Model = some model)
    (hk : GetAPIKey w.db env.getKeyErr req.Provider = .ok apiKey)
    (hq : client.Query (llmRequest req env.project_id env.user_id) apiKey.Key = .ok resp)
    (hu : resp.Usage.NonNegative) :
    (s.HandleQuery env w).1.db.key_usages =
      w.db.key_usages ++
        (match env.recordErr with
          | some _ => []
          | none =>
            [{ APIKeyID := apiKey.ID, RequestCount := 1, TokenCount := resp.Usage.TotalTokens,
               Cost := cost model resp.Usage, Timestamp := env.recordNow }]) := by
  rw [HandleQuery_success_eq hb hc hm hk hq hu, RecordTokenUsage_of_nonNegative hu]
  cases env.recordErr <;> cases env.updateErr <;>
    simp [logError, UpdateAPIKeyLastUsed, RecordAPIKeyUsage,
      metrics.RecordLLMLatency, World.emit]

theorem GetClient_of_get? {s : Service} {provider : types.Provider} {client : LLMClient}
    (h : s.clients.get? provider = some client) : s.GetClient provider = .ok client := by
  simp only [Service.GetClient, h]

theorem GetClient_of_get?_none {s : Service} {provider : types.Provider}
    (h : s.clients.get? provider = none) :
    s.GetClient provider = .error ("provider " ++ provider ++ " not supported") := by
  simp only [Service.GetClient, h]

/-- The effects of one call of `HandleQuery`, by outcome: none when the request is
refused before the call of the client; the call and one error observation when the call
fails; the call, the latency and some token additions when the handler panics on a negative
count; and the full sequence with both accounting calls when it answers 200. -/
theorem HandleQuery_new_effects (s : Service) (env : Env) (w : World) :
    (s.HandleQuery env w).1.trace = w.trace ∨
      ∃ req client model apiKey, ShouldBindJSON env.decoded = .ok req ∧
        s.clients.get? req.Provider = some client ∧ s.GetModel req.Model = some model ∧
        GetAPIKey w.db env.getKeyErr req.Provider = .ok apiKey ∧
        ((∃ e, client.Query (llmRequest req env.project_id env.user_id) apiKey.Key = .error e ∧
            (s.HandleQuery env w).1.trace =
              w.trace ++ [.clientQuery (llmRequest req env.project_id env.user_id) apiKey.Key,
                          .llmError req.Provider req.Model]) ∨
          ∃ resp, client.Query (llmRequest req env.project_id env.user_id) apiKey.Key =
              .ok resp ∧
            ((¬ resp.Usage.NonNegative ∧ ∃ added,
                (s.HandleQuery env w).1.trace =
                  w.trace ++
                    [.clientQuery (llmRequest req env.project_id env.user_id) apiKey.Key,
                     .llmLatency req.Provider req.Model env.elapsed] ++ added ∧
                ∀ e ∈ added, ∃ kind count,
                  e = Effect.llmTokens req.Provider req.Model kind count) ∨
              (resp.Usage.NonNegative ∧
                (s.HandleQuery env w).1.trace =
                  w.trace ++
                    [.clientQuery (llmRequest req env.project_id env.user_id) apiKey.Key,
                     .llmLatency req.Provider req.Model env.elapsed,
                     .llmTokens req.Provider req.Model "prompt"
                       (F64.ofInt resp.Usage.PromptTokens),
                     .llmTokens req.Provider req.Model "completion"
                       (F64.ofInt resp.Usage.CompletionTokens),
                     .llmTokens req.Provider req.Model "total" (F64.ofInt resp.Usage.TotalTokens),
                     .recordAPIKeyUsage apiKey.ID resp.Usage (cost model resp.Usage)] ++
                    (match env.recordErr with
                      | some e => [Effect.ginError e]
                      | none => []) ++
                    [.updateAPIKeyLastUsed apiKey.ID] ++
                    (match env.updateErr with
                      | some e => [Effect.ginError e]
                      | none => [])))) := by
  cases hb : ShouldBindJSON env.decoded with
  | error e => exact Or.inl (by simp only [Service.HandleQuery, hb])
  | ok req =>
    cases hg : s.clients.get? req.Provider with
    | none => exact Or.inl (by simp only [Service.HandleQuery, hb, GetClient_of_get?_none hg])
    | some client =>
      have hc := GetClient_of_get? hg
      cases hm : s.GetModel req.Model with
      | none => exact Or.inl (by simp only [Service.HandleQuery, hb, hc, hm])
      | some model =>
        cases hk : GetAPIKey w.db env.getKeyErr req.Provider with
        | error e => exact Or.inl (by simp only [Service.HandleQuery, hb, hc, hm, hk])
        | ok apiKey =>
          refine Or.inr ⟨req, client, model, apiKey, rfl, hg, hm, hk, ?_⟩
          cases hq : client.Query (llmRequest req env.project_id env.user_id) apiKey.Key with
          | error e =>
            refine Or.inl ⟨e, rfl, ?_⟩
            rw [HandleQuery_failure_eq hb hc hm hk hq]
            simp [metrics.RecordLLMError, World.emit]
          | ok resp =>
            refine Or.inr ⟨resp, rfl, ?_⟩
            by_cases hu : resp.Usage.NonNegative
            · exact Or.inr ⟨hu, HandleQuery_success_trace hb hc hm hk hq hu⟩
            · obtain ⟨added, he, _, hall⟩ :=
                @RecordTokenUsage_of_negative req.Provider req.Model resp.Usage hu
                  (metrics.RecordLLMLatency req.Provider req.Model env.elapsed
                    (w.emit
                      (.clientQuery (llmRequest req env.project_id env.user_id) apiKey.Key)))
              refine Or.inl ⟨hu, added, ?_, hall⟩
              rw [HandleQuery_panic_eq hb hc hm hk hq hu, he]
              simp [metrics.RecordLLMLatency, World.emit]

theorem HandleQuery_ok_inv {s : Service} {env : Env} {w : World}
    (h : (s.HandleQuery env w).2.status = 200) :
    ∃ req client model apiKey resp, ShouldBindJSON env.decoded = .ok req ∧
      s.GetClient req.Provider = .ok client ∧ s.GetModel req.Model = some model ∧
      GetAPIKey w.db env.getKeyErr req.Provider = .ok apiKey ∧
      client.Query (llmRequest req env.project_id env.user_id) apiKey.Key = .ok resp ∧
      resp.Usage.NonNegative := by
  cases hb : ShouldBindJSON env.decoded with
  | error e => simp [Service.HandleQuery, hb] at h
  | ok req =>
    cases hc : s.GetClient req.Provider with
    | error e => simp [Service.HandleQuery, hb, hc] at h
    | ok client =>
      cases hm : s.GetModel req.Model with
      | none => simp [Service.HandleQuery, hb, hc, hm] at h
      | some model =>
        cases hk : GetAPIKey w.db env.getKeyErr req.Provider with
        | error e => simp [Service.HandleQuery, hb, hc, hm, hk] at h
        | ok apiKey =>
          cases hq : client.Query (llmRequest req env.project_id env.user_id) apiKey.Key with
          | error e =>
            rw [HandleQuery_failure_eq hb hc hm hk hq] at h
            simp at h
          | ok resp =>
            by_cases hnn : resp.Usage.NonNegative
            · exact ⟨req, client, model, apiKey, resp, rfl, hc, hm, hk, hq, hnn⟩
            · rw [HandleQuery_panic_eq hb hc hm hk hq hnn] at h
              simp at h

/-- C3, as the code has it: when the upstream call of a request succeeds with `resp`,
what the database reports for the insert of `RecordAPIKeyUsage` and for the update of
`UpdateAPIKeyLastUsed` never changes the answer of `HandleQuery`; and when the three token
counts of `resp` are non-negative, that answer is status 200 with `resp` as the body, and
both are called, in that order, a failure of either being only logged on the context: in
particular `UpdateAPIKeyLastUsed` is called after a failed `RecordAPIKeyUsage`. -/
theorem HandleQuery_accounting_failure_not_surfaced (s : Service) (env : Env) (w : World)
    (req : QueryRequest) (client : LLMClient) (model : Model) (apiKey : APIKey) (resp : Response)
    (hb : ShouldBindJSON env.decoded = .ok req)
    (hc : s.GetClient req.Provider = .ok client)
    (hm : s.GetModel req.Model = some model)
    (hk : GetAPIKey w.db env.getKeyErr req.Provider = .ok apiKey)
    (hq : client.Query (llmRequest req env.project_id env.user_id) apiKey.Key = .ok resp) :
    (∀ recordErr updateErr,
        (s.HandleQuery { env with recordErr := recordErr, updateErr := updateErr } w).2 =
          (s.HandleQuery env w).2) ∧
      (resp.Usage.NonNegative →
        (s.HandleQuery env w).2 = ⟨200, .response resp⟩ ∧
        (s.HandleQuery env w).1.trace =
          w.trace ++
            [.clientQuery (llmRequest req env.project_id env.user_id) apiKey.Key,
             .llmLatency req.Provider req.Model env.elapsed,
             .llmTokens req.Provider req.Model "prompt" (F64.ofInt resp.Usage.PromptTokens),
             .llmTokens req.Provider req.Model "completion"
               (F64.ofInt resp.Usage.CompletionTokens),
             .llmTokens req.Provider req.Model "total" (F64.ofInt resp.Usage.TotalTokens),
             .recordAPIKeyUsage apiKey.ID resp.Usage (cost model resp.Usage)] ++
            (match env.recordErr with
              | some e => [Effect.ginError e]
              | none => []) ++
            [.updateAPIKeyLastUsed apiKey.ID] ++
            (match env.updateErr with
              | some e => [Effect.ginError e]
              | none => [])) := by
  constructor
  · intro recordErr updateErr
    by_cases hu : resp.Usage.NonNegative
    · have h2 := @HandleQuery_success_eq s
        { env with recordErr := recordErr, updateErr := updateErr } w
        req client model apiKey resp hb hc hm hk hq hu
      rw [HandleQuery_success_eq hb hc hm hk hq hu, h2]
    · have h2 := @HandleQuery_panic_eq s
        { env with recordErr := recordErr, updateErr := updateErr } w
        req client model apiKey resp hb hc hm hk hq hu
      rw [HandleQuery_panic_eq hb hc hm hk hq hu, h2]
  · intro hu
    refine ⟨?_, HandleQuery_success_trace hb hc hm hk hq hu⟩
    rw [HandleQuery_success_eq hb hc hm hk hq hu]

/-- Witness of C3 as amended: the example request with both accounting writes failing. -/
theorem HandleQuery_accounting_failure_not_surfaced_witness :
    ((exampleService (.ok exampleResponse)).HandleQuery
        (exampleEnv (some "insert failed") (some "update failed")) exampleWorld).2 =
        ⟨200, .response exampleResponse⟩ ∧
      Effect.updateAPIKeyLastUsed 1 ∈
        ((exampleService (.ok exampleResponse)).HandleQuery
          (exampleEnv (some "insert failed") (some "update failed")) exampleWorld).1.trace :=
  have h := (HandleQuery_accounting_failure_not_surfaced (exampleService (.ok exampleResponse))
    (exampleEnv (some "insert failed") (some "update failed")) exampleWorld exampleRequest
    (exampleClient (.ok exampleResponse))
    { ID := "llama2-70b-4096", Provider := types.ProviderGroq, Name := "Llama2 70B",
      Description := "High-performance Llama2 70B model", MaxTokens := 4096,
      CostPer1K := F64.ofRatio 7 10000 }
    { ID := 1, Provider := "groq", Key := "gsk-a", Description := "", IsActive := true,
      LastUsed := 10 }
    exampleResponse rfl rfl rfl rfl rfl).2 (by decide)
  ⟨h.1, by rw [h.2]; simp⟩

/-- Counterexample to C3 as stated: the upstream call of the example request, made by the
Groq client, succeeds with a response whose prompt count, taken from the payload, is -1.
The handler panics when it adds that count to the token counter: the caller receives status
500 without payload, not 200 with the response, and neither `RecordAPIKeyUsage` nor
`UpdateAPIKeyLastUsed` is called. -/
theorem HandleQuery_accounting_failure_not_surfaced_counterexample :
    (∃ resp, (groq.NewClient.asLLMClient (decodingNet negativePromptPayload)).Query
        (llmRequest exampleRequest "proj-1" "user-1") "gsk-a" = .ok resp ∧
        resp.Usage = { PromptTokens := -1, CompletionTokens := 5, TotalTokens := 4 }) ∧
      (groqService negativePromptPayload).HandleQuery (exampleEnv none none) exampleWorld =
        ({ exampleWorld with
            trace := [.clientQuery (llmRequest exampleRequest "proj-1" "user-1") "gsk-a",
                      .llmLatency "groq" "llama2-70b-4096" 7] },
          ⟨500, .empty⟩) := by
  refine ⟨⟨_, rfl, rfl⟩, ?_⟩
  decide

/-- C4, as the code has it: a request bound by `HandleQuery` whose model identifier is
not in the model index is answered with status 400 and leaves the world as it was: no call
of a client, no observation, no write to the key store or the ledger. The error is
`invalid model` when the provider of the request has a registered client, and the
provider-not-supported error otherwise, the client being looked up first. -/
theorem HandleQuery_unknown_model (s : Service) (env : Env) (w : World) (req : QueryRequest)
    (hb : ShouldBindJSON env.decoded = .ok req)
    (hm : s.GetModel req.Model = none) :
    (s.HandleQuery env w).1 = w ∧
      (s.HandleQuery env w).2.status = 400 ∧
      (∀ client, s.GetClient req.Provider = .ok client →
        (s.HandleQuery env w).2.body = .error "invalid model") ∧
      (s.clients.get? req.Provider = none →
        (s.HandleQuery env w).2.body =
          .error ("provider " ++ req.Provider ++ " not supported")) := by
  cases hc : s.GetClient req.Provider with
  | error e =>
    have h : s.HandleQuery env w = (w, ⟨400, .error e⟩) := by
      simp only [Service.HandleQuery, hb, hc]
    refine ⟨?_, ?_, ?_, ?_⟩
    · rw [h]
    · rw [h]
    · intro client hcl
      cases hcl
    · intro hnone
      rw [h]
      simp only [Service.GetClient, hnone] at hc
      cases hc
      rfl
  | ok client =>
    have h : s.HandleQuery env w = (w, ⟨400, .error "invalid model"⟩) := by
      simp only [Service.HandleQuery, hb, hc, hm]
    refine ⟨?_, ?_, ?_, ?_⟩
    · rw [h]
    · rw [h]
    · intro _ _
      rw [h]
    · intro hnone
      simp [Service.GetClient, hnone] at hc

/-- Witness of C4 as amended: the request for `no-such-model` on the example service. -/
theorem HandleQuery_unknown_model_witness :
    ((exampleService (.ok exampleResponse)).HandleQuery
        { exampleEnv none none with decoded := .ok unknownModelRequest } exampleWorld).1 =
        exampleWorld ∧
      ((exampleService (.ok exampleResponse)).HandleQuery
        { exampleEnv none none with decoded := .ok unknownModelRequest } exampleWorld).2.body =
        .error "invalid model" :=
  have h := HandleQuery_unknown_model (exampleService (.ok exampleResponse))
    { exampleEnv none none with decoded := .ok unknownModelRequest } exampleWorld
    unknownModelRequest rfl rfl
  ⟨h.1, h.2.2.1 (exampleClient (.ok exampleResponse)) rfl⟩

/-- Counterexample to C4 as stated: on a fresh service the example request, whose model
is not in the (empty) index, is answered with the provider-not-supported error and not
with the model-not-found one; and `Service.Query`, which never looks the model up, calls
the client for `no-such-model` and returns its response. -/
theorem unknown_model_counterexample :
    NewService.GetModel exampleRequest.Model = none ∧
      (NewService.HandleQuery (exampleEnv none none) exampleWorld).2 =
        ⟨400, .error "provider groq not supported"⟩ ∧
      (exampleService (.ok exampleResponse)).GetModel unknownModelQuery.Model = none ∧
      ((exampleService (.ok exampleResponse)).Query "org-1" "proj-1" unknownModelQuery none 7
        exampleWorld).2 = .ok exampleResponse ∧
      Effect.clientQuery unknownModelQuery "gsk-a" ∈
        ((exampleService (.ok exampleResponse)).Query "org-1" "proj-1" unknownModelQuery none 7
          exampleWorld).1.trace := by
  refine ⟨rfl, rfl, rfl, rfl, ?_⟩
  decide

theorem GetAPIKey_no_active_key {db : DB} {provider : types.Provider}
    (hnone : ∀ k ∈ db.api_keys, k.Provider = provider → k.IsActive = false)
    (dbErr : Option String) :
    ∃ e, GetAPIKey db dbErr provider = .error e := by
  cases h : GetAPIKey db dbErr provider with
  | error e => exact ⟨e, rfl⟩
  | ok key =>
    obtain ⟨h1, h2, h3, _⟩ := GetAPIKey_sound h
    rw [hnone key h1 h2] at h3
    cases h3

theorem GetAPIKey_record_not_found {db : DB} {provider : types.Provider}
    (hnone : ∀ k ∈ db.api_keys, k.Provider = provider → k.IsActive = false) :
    GetAPIKey db none provider = .error "record not found" := by
  have hnil : activeKeys db provider = [] := by
    cases hl : activeKeys db provider with
    | nil => rfl
    | cons a t =>
      have hmem : a ∈ activeKeys db provider := by rw [hl]; exact List.mem_cons_self a t
      obtain ⟨h1, h2, h3⟩ := mem_activeKeys.1 hmem
      rw [hnone a h1 h2] at h3
      cases h3
  simp [GetAPIKey, hnil]

theorem ShouldBindJSON_ok {decoded : Except String QueryRequest} {req : QueryRequest}
    (h : ShouldBindJSON decoded = .ok req) : decoded = .ok req := by
  unfold ShouldBindJSON at h
  cases decoded with
  | error e => cases h
  | ok r =>
    simp only at h
    by_cases hm : ((if r.Provider = "" then [requiredError "Provider"] else []) ++
        (if r.Model = "" then [requiredError "Model"] else []) ++
        (if r.Prompt = "" then [requiredError "Prompt"] else [])).isEmpty = true
    · rw [if_pos hm] at h
      cases h
      rfl
    · rw [if_neg hm] at h
      cases h

/-- C5, as the code has it: for a provider with no active key in the key store,
`GetAPIKey` returns an error; `Service.Query` fails with `failed to get API key` and leaves
the world as it was; `HandleQuery`, for every decoded body addressed to that provider,
leaves the world as it was (no call of a client, no observation, no write) and answers 500
`no API key available` when the body binds, the provider has a registered client and the
model is in the index, the three checks it makes before it asks for a key, and otherwise
answers 400 with the error message of the first of these checks that fails. -/
theorem no_active_key_fails (s : Service) (env : Env) (w : World) (provider : types.Provider)
    (hnone : ∀ k ∈ w.db.api_keys, k.Provider = provider → k.IsActive = false) :
    (∀ dbErr, ∃ e, GetAPIKey w.db dbErr provider = .error e) ∧
      (∀ orgID projectID req getKeyErr elapsed, req.Provider = provider →
        ∃ e, s.Query orgID projectID req getKeyErr elapsed w =
          (w, .error ("failed to get API key: " ++ e))) ∧
      (∀ req, env.decoded = .ok req → req.Provider = provider →
        (s.HandleQuery env w).1 = w ∧
        ((ShouldBindJSON env.decoded = .ok req ∧
            (∃ client, s.GetClient req.Provider = .ok client) ∧
            (∃ model, s.GetModel req.Model = some model)) →
          (s.HandleQuery env w).2 = ⟨500, .error "no API key available"⟩) ∧
        ((∀ e, ShouldBindJSON env.decoded = .error e →
            (s.HandleQuery env w).2 = ⟨400, .error e⟩) ∧
          (ShouldBindJSON env.decoded = .ok req →
            (∀ e, s.GetClient req.Provider = .error e →
              (s.HandleQuery env w).2 = ⟨400, .error e⟩) ∧
            (∀ client, s.GetClient req.Provider = .ok client → s.GetModel req.Model = none →
              (s.HandleQuery env w).2 = ⟨400, .error "invalid model"⟩))) ∧
        (¬ (ShouldBindJSON env.decoded = .ok req ∧
            (∃ client, s.GetClient req.Provider = .ok client) ∧
            (∃ model, s.GetModel req.Model = some model)) →
          (s.HandleQuery env w).2.status = 400 ∧
            ∃ msg, (s.HandleQuery env w).2.body = .error msg)) := by
  refine ⟨GetAPIKey_no_active_key hnone, ?_, ?_⟩
  · intro orgID projectID req getKeyErr elapsed hp
    subst hp
    obtain ⟨e, he⟩ := GetAPIKey_no_active_key hnone getKeyErr
    exact ⟨e, by simp only [Service.Query, he]⟩
  · intro req hd hp
    subst hp
    obtain ⟨e, he⟩ := GetAPIKey_no_active_key hnone env.getKeyErr
    cases hb : ShouldBindJSON env.decoded with
    | error e0 =>
      have h : s.HandleQuery env w = (w, ⟨400, .error e0⟩) := by
        simp only [Service.HandleQuery, hb]
      rw [h]
      refine ⟨rfl, ?_, ⟨?_, ?_⟩, ?_⟩
      · rintro ⟨h1, _⟩
        cases h1
      · intro e1 h1
        cases h1
        rfl
      · intro h1
        cases h1
      · intro _
        exact ⟨rfl, e0, rfl⟩
    | ok req0 =>
      have hreq : req0 = req := by
        have h1 := ShouldBindJSON_ok hb
        rw [hd] at h1
        cases h1
        rfl
      subst hreq
      cases hc : s.GetClient req0.Provider with
      | error e1 =>
        have h : s.HandleQuery env w = (w, ⟨400, .error e1⟩) := by
          simp only [Service.HandleQuery, hb, hc]
        rw [h]
        refine ⟨rfl, ?_, ⟨?_, ?_⟩, ?_⟩
        · rintro ⟨_, ⟨client, h1⟩, _⟩
          cases h1
        · intro e2 h2
          cases h2
        · intro _
          refine ⟨?_, ?_⟩
          · intro e2 h2
            cases h2
            rfl
          · intro client h2
            cases h2
        · intro _
          exact ⟨rfl, e1, rfl⟩
      | ok client =>
        cases hm : s.GetModel req0.Model with
        | none =>
          have h : s.HandleQuery env w = (w, ⟨400, .error "invalid model"⟩) := by
            simp only [Service.HandleQuery, hb, hc, hm]
          rw [h]
          refine ⟨rfl, ?_, ⟨?_, ?_⟩, ?_⟩
          · rintro ⟨_, _, ⟨model, h1⟩⟩
            cases h1
          · intro e2 h2
            cases h2
          · intro _
            refine ⟨?_, ?_⟩
            · intro e2 h2
              cases h2
            · intro _ _ _
              rfl
          · intro _
            exact ⟨rfl, _, rfl⟩
        | some model =>
          have h : s.HandleQuery env w = (w, ⟨500, .error "no API key available"⟩) := by
            simp only [Service.HandleQuery, hb, hc, hm, he]
          rw [h]
          refine ⟨rfl, ?_, ⟨?_, ?_⟩, ?_⟩
          · intro _
            rfl
          · intro e2 h2
            cases h2
          · intro _
            refine ⟨?_, ?_⟩
            · intro e2 h2
              cases h2
            · intro _ _ h2
              cases h2
          · intro hn
            exact absurd ⟨rfl, ⟨client, rfl⟩, ⟨model, rfl⟩⟩ hn

/-- Witness of C5 as amended: the example request on a store without an active Groq key
is answered 500, and the request for an unknown model 400. -/
theorem no_active_key_fails_witness :
    (exampleService (.ok exampleResponse)).HandleQuery (exampleEnv none none) noGroqKeyWorld =
        (noGroqKeyWorld, ⟨500, .error "no API key available"⟩) ∧
      ((exampleService (.ok exampleResponse)).HandleQuery
        { exampleEnv none none with decoded := .ok unknownModelRequest } noGroqKeyWorld).2.status =
        400 :=
  have h := (no_active_key_fails (exampleService (.ok exampleResponse)) (exampleEnv none none)
    noGroqKeyWorld "groq" (by decide)).2.2 exampleRequest rfl rfl
  have h2 := (no_active_key_fails (exampleService (.ok exampleResponse))
    { exampleEnv none none with decoded := .ok unknownModelRequest }
    noGroqKeyWorld "groq" (by decide)).2.2 unknownModelRequest rfl rfl
  ⟨Prod.ext h.1 (h.2.1 ⟨rfl, ⟨exampleClient (.ok exampleResponse), rfl⟩,
    ⟨{ ID := "llama2-70b-4096", Provider := types.ProviderGroq, Name := "Llama2 70B",
       Description := "High-performance Llama2 70B model", MaxTokens := 4096,
       CostPer1K := F64.ofRatio 7 10000 }, rfl⟩⟩),
   (h2.2.2.2 (by
      rintro ⟨_, _, ⟨model, hm⟩⟩
      cases hm)).1⟩

/-- Counterexample to C5 as stated: the request for `no-such-model`, addressed to Groq on
a store without an active Groq key, is answered 400 `invalid model` by `HandleQuery`, not
500 `no API key available`. -/
theorem no_active_key_counterexample :
    (∀ k ∈ noGroqKeyWorld.db.api_keys, k.Provider = unknownModelRequest.Provider →
        k.IsActive = false) ∧
      (exampleService (.ok exampleResponse)).HandleQuery
        { exampleEnv none none with decoded := .ok unknownModelRequest } noGroqKeyWorld =
        (noGroqKeyWorld, ⟨400, .error "invalid model"⟩) := by
  refine ⟨by decide, rfl⟩

/-! ## The registry -/

theorem GoMap_get?_set {K V : Type} [DecidableEq K] (m : GoMap K V) (k : K) (v : V) (k' : K) :
    (GoMap.set m k v).get? k' = if k = k' then some v else m.get? k' := by
  unfold GoMap.set GoMap.get?
  rw [List.find?_append, List.find?_filter]
  by_cases h : k = k'
  · subst h
    have hnone : List.find? (fun a => (!decide (a.1 = k)) && decide (a.1 = k)) m = none := by
      rw [List.find?_eq_none]
      intro x _
      by_cases hx : x.1 = k <;> simp [hx]
    simp [hnone]
  · have hsame : (fun a : K × V => (!decide (a.1 = k)) && decide (a.1 = k')) =
        (fun a : K × V => decide (a.1 = k')) := by
      funext a
      by_cases hx : a.1 = k'
      · have hne : ¬ k' = k := fun hk => h hk.symm
        simp [hx, hne]
      · simp [hx]
    simp [hsame, h]

theorem registerModels_get? (models : GoMap String Model) (l : List Model) (id : String) :
    (registerModels models l).get? id =
      (l.reverse.find? (fun m => decide (m.ID = id))).or (models.get? id) := by
  induction l generalizing models with
  | nil => simp [registerModels]
  | cons a rest ih =>
    rw [registerModels, ih, GoMap_get?_set, List.reverse_cons, List.find?_append]
    by_cases h : a.ID = id
    · simp [h, Option.or_assoc]
    · simp [h]

theorem registerModels_append (models : GoMap String Model) (l1 l2 : List Model) :
    registerModels models (l1 ++ l2) = registerModels (registerModels models l1) l2 := by
  induction l1 generalizing models with
  | nil => rfl
  | cons a rest ih => simp [registerModels, ih]

theorem registerAll_models (s : Service) (cs : List LLMClient) :
    (registerAll s cs).models = registerModels s.models (cs.flatMap LLMClient.GetModels) := by
  induction cs generalizing s with
  | nil => simp [registerAll, registerModels]
  | cons c rest ih =>
    rw [registerAll, ih, List.flatMap_cons, registerModels_append]
    rfl

theorem registerAll_clients_get? (s : Service) (cs : List LLMClient) (p : types.Provider) :
    (registerAll s cs).clients.get? p =
      (cs.reverse.find? (fun c => decide (c.GetProvider = p))).or (s.clients.get? p) := by
  induction cs generalizing s with
  | nil => simp [registerAll]
  | cons c rest ih =>
    rw [registerAll, ih, List.reverse_cons, List.find?_append]
    simp only [Service.RegisterClient, GoMap_get?_set]
    by_cases h : c.GetProvider = p
    · simp [h, Option.or_assoc]
    · simp [h]

theorem registerAll_GetModel (cs : List LLMClient) (id : String) :
    (registerAll NewService cs).GetModel id =
      (cs.flatMap LLMClient.GetModels).reverse.find? (fun m => decide (m.ID = id)) := by
  unfold Service.GetModel
  rw [registerAll_models, registerModels_get?]
  simp [NewService, GoMap.get?]

theorem registerAll_GetClient (cs : List LLMClient) (p : types.Provider) :
    (registerAll NewService cs).GetClient p =
      match cs.reverse.find? (fun c => decide (c.GetProvider = p)) with
      | none => .error ("provider " ++ p ++ " not supported")
      | some c => .ok c := by
  unfold Service.GetClient
  rw [registerAll_clients_get?]
  simp only [NewService, GoMap.get?, List.find?_nil, Option.map_none', Option.or_none]

/-- C9: after any sequence `cs` of `RegisterClient` calls on a fresh service, `GetClient p`
is the client registered last in `cs` with provider tag `p`, and the provider-not-supported
error exactly when no client of `cs` has that tag; `GetModel id` is the model listed last
under `id`, in registration order and, within a client, in the order of its catalogue, and
it reports found exactly when some client of `cs` listed a model with that id. On the
service of `NewService`, `GetClient` fails for every provider and `ListModels` is empty,
in whatever order its loop runs. -/
theorem registry_lookup (cs : List LLMClient) :
    (∀ p, (registerAll NewService cs).GetClient p =
        match cs.reverse.find? (fun c => decide (c.GetProvider = p)) with
        | none => .error ("provider " ++ p ++ " not supported")
        | some c => .ok c) ∧
      (∀ p, (∃ e, (registerAll NewService cs).GetClient p = .error e) ↔
        ∀ c ∈ cs, c.GetProvider ≠ p) ∧
      (∀ id, (registerAll NewService cs).GetModel id =
        (cs.flatMap LLMClient.GetModels).reverse.find? (fun m => decide (m.ID = id))) ∧
      (∀ id, ((registerAll NewService cs).GetModel id).isSome = true ↔
        ∃ c ∈ cs, ∃ m ∈ c.GetModels, m.ID = id) ∧
      (∀ p, NewService.GetClient p = .error ("provider " ++ p ++ " not supported")) ∧
      ∀ order, NewService.ListModels order = [] := by
  refine ⟨registerAll_GetClient cs, ?_, registerAll_GetModel cs, ?_, fun p => rfl,
    fun order => List.Perm.eq_nil (order.perm [])⟩
  · intro p
    rw [registerAll_GetClient]
    cases h : cs.reverse.find? (fun c => decide (c.GetProvider = p)) with
    | none =>
      rw [List.find?_eq_none] at h
      constructor
      · intro _ c hc
        simpa using h c (List.mem_reverse.2 hc)
      · intro _
        exact ⟨_, rfl⟩
    | some c =>
      have hp := List.find?_some h
      have hmem := List.mem_reverse.1 (List.mem_of_find?_eq_some h)
      constructor
      · rintro ⟨e, he⟩
        cases he
      · intro hall
        exact absurd (by simpa using hp) (hall c hmem)
  · intro id
    rw [registerAll_GetModel]
    constructor
    · intro h
      obtain ⟨m, hm⟩ := Option.isSome_iff_exists.1 h
      have hid := List.find?_some hm
      have hmem := List.mem_reverse.1 (List.mem_of_find?_eq_some hm)
      obtain ⟨c, hc, hmc⟩ := List.mem_flatMap.1 hmem
      exact ⟨c, hc, m, hmc, by simpa using hid⟩
    · rintro ⟨c, hc, m, hmc, hid⟩
      cases hf : (cs.flatMap LLMClient.GetModels).reverse.find? (fun m => decide (m.ID = id)) with
      | some m' => rfl
      | none =>
        rw [List.find?_eq_none] at hf
        have := hf m (List.mem_reverse.2 (List.mem_flatMap.2 ⟨c, hc, hmc⟩))
        simp [hid] at this

theorem GoMap_mem_of_get? {K V : Type} [DecidableEq K] {m : GoMap K V} {k : K} {v : V}
    (h : m.get? k = some v) : (k, v) ∈ m := by
  unfold GoMap.get? at h
  cases hf : m.find? (fun kv => decide (kv.1 = k)) with
  | none => rw [hf] at h; cases h
  | some kv =>
    rw [hf] at h
    have hk : kv.1 = k := by simpa using List.find?_some hf
    have hv : kv.2 = v := by simpa using h
    have hmem := List.mem_of_find?_eq_some hf
    rw [← hk, ← hv]
    exact hmem

theorem GoMap_get?_of_mem {K V : Type} [DecidableEq K] {m : GoMap K V} {k : K} {v : V}
    (hnd : (m.map Prod.fst).Nodup) (h : (k, v) ∈ m) : m.get? k = some v := by
  induction m with
  | nil => cases h
  | cons a rest ih =>
    rw [List.map_cons, List.nodup_cons] at hnd
    rcases List.mem_cons.1 h with heq | hmem
    · subst heq
      simp [GoMap.get?]
    · have hne : a.1 ≠ k := by
        intro hk
        apply hnd.1
        rw [hk]
        exact List.mem_map.2 ⟨(k, v), hmem, rfl⟩
      have := ih hnd.2 hmem
      unfold GoMap.get? at this ⊢
      rw [List.find?_cons_of_neg _ (by simpa using hne)]
      exact this

theorem GoMap_set_nodup {K V : Type} [DecidableEq K] (m : GoMap K V) (k : K) (v : V)
    (hnd : (m.map Prod.fst).Nodup) : ((GoMap.set m k v).map Prod.fst).Nodup := by
  unfold GoMap.set
  rw [List.map_append, List.nodup_append]
  refine ⟨(List.Nodup.sublist ((List.filter_sublist m).map Prod.fst) hnd), by simp, ?_⟩
  intro x hx hk
  simp only [List.map_cons, List.map_nil, List.mem_singleton] at hk
  obtain ⟨kv, hkv, rfl⟩ := List.mem_map.1 hx
  have := (List.mem_filter.1 hkv).2
  simp [hk] at this

theorem GoMap_mem_set {K V : Type} [DecidableEq K] (m : GoMap K V) (k : K) (v : V)
    (kv : K × V) : kv ∈ GoMap.set m k v ↔ (kv ∈ m ∧ kv.1 ≠ k) ∨ kv = (k, v) := by
  unfold GoMap.set
  simp [List.mem_append, List.mem_filter]

theorem registerModels_inv (models : GoMap String Model) (l : List Model)
    (hnd : (models.map Prod.fst).Nodup) (hkey : ∀ kv ∈ models, kv.1 = kv.2.ID) :
    ((registerModels models l).map Prod.fst).Nodup ∧
      ∀ kv ∈ registerModels models l, kv.1 = kv.2.ID := by
  induction l generalizing models with
  | nil => exact ⟨hnd, hkey⟩
  | cons a rest ih =>
    rw [registerModels]
    apply ih
    · exact GoMap_set_nodup models a.ID a hnd
    · intro kv hkv
      rcases (GoMap_mem_set models a.ID a kv).1 hkv with h | h
      · exact hkey kv h.1
      · rw [h]

/-- The list of `ListModels` is a rearrangement of the values of the index. -/
theorem ListModels_perm (s : Service) (order : GoMap.RangeOrder Model) :
    (s.ListModels order).Perm (s.models.map Prod.snd) :=
  order.perm _

theorem mem_ListModels_iff (cs : List LLMClient) (order : GoMap.RangeOrder Model) (m : Model) :
    m ∈ (registerAll NewService cs).ListModels order ↔
      (registerAll NewService cs).GetModel m.ID = some m := by
  obtain ⟨hnd, hkey⟩ := registerModels_inv (NewService).models
    (cs.flatMap LLMClient.GetModels) (by simp [NewService]) (by simp [NewService])
  rw [← registerAll_models] at hnd hkey
  rw [(ListModels_perm _ order).mem_iff]
  unfold Service.GetModel
  constructor
  · intro h
    obtain ⟨kv, hkv, rfl⟩ := List.mem_map.1 h
    apply GoMap_get?_of_mem hnd
    rw [← hkey kv hkv]
    exact hkv
  · intro h
    exact List.mem_map.2 ⟨(m.ID, m), GoMap_mem_of_get? h, rfl⟩

/-- C8, as the code has it: after a sequence `cs` of `RegisterClient` calls on a fresh
service in which every listed model carries the provider tag of its client, no two clients
share a provider tag and the model identifiers are pairwise distinct within and across the
catalogues, every client `c` of `cs` is the one `GetClient` returns for its tag, and the
models of `ListModels` that carry that tag are exactly the models of `c.GetModels`, in
whatever order the loop of `ListModels` runs. -/
theorem ListModels_restricted_to_provider (cs : List LLMClient)
    (htag : ∀ c ∈ cs, ∀ m ∈ c.GetModels, m.Provider = c.GetProvider)
    (hprov : (cs.map LLMClient.GetProvider).Nodup)
    (hids : ((cs.flatMap LLMClient.GetModels).map Model.ID).Nodup)
    (c : LLMClient) (hc : c ∈ cs) :
    (registerAll NewService cs).GetClient c.GetProvider = .ok c ∧
      ∀ order m,
        (m ∈ (registerAll NewService cs).ListModels order ∧ m.Provider = c.GetProvider) ↔
          m ∈ c.GetModels := by
  constructor
  · rw [registerAll_GetClient]
    cases hf : cs.reverse.find? (fun c' => decide (c'.GetProvider = c.GetProvider)) with
    | none =>
      rw [List.find?_eq_none] at hf
      have := hf c (List.mem_reverse.2 hc)
      simp at this
    | some c' =>
      have hp : c'.GetProvider = c.GetProvider := by simpa using List.find?_some hf
      have hmem := List.mem_reverse.1 (List.mem_of_find?_eq_some hf)
      rw [List.inj_on_of_nodup_map hprov hmem hc hp]
  · intro order m
    rw [mem_ListModels_iff, registerAll_GetModel]
    constructor
    · rintro ⟨hget, hp⟩
      have hmem := List.mem_reverse.1 (List.mem_of_find?_eq_some hget)
      obtain ⟨c', hc', hmc'⟩ := List.mem_flatMap.1 hmem
      have hpc : c'.GetProvider = c.GetProvider := by rw [← htag c' hc' m hmc', hp]
      rw [← List.inj_on_of_nodup_map hprov hc' hc hpc]
      exact hmc'
    · intro hm
      have hflat : m ∈ cs.flatMap LLMClient.GetModels := List.mem_flatMap.2 ⟨c, hc, hm⟩
      refine ⟨?_, htag c hc m hm⟩
      cases hf : (cs.flatMap LLMClient.GetModels).reverse.find?
          (fun m' => decide (m'.ID = m.ID)) with
      | none =>
        rw [List.find?_eq_none] at hf
        have := hf m (List.mem_reverse.2 hflat)
        simp at this
      | some m' =>
        have hid : m'.ID = m.ID := by simpa using List.find?_some hf
        have hmem := List.mem_reverse.1 (List.mem_of_find?_eq_some hf)
        rw [List.inj_on_of_nodup_map hids hmem hflat hid]

/-- Witness of C8 as amended: the Groq catalogue registered next to a client for `gpt-4`. -/
theorem ListModels_restricted_to_provider_witness :
    (llama2 ∈ (registerAll NewService [groqCatalogueClient, gpt4Client]).ListModels
          GoMap.RangeOrder.reversed ∧
        llama2.Provider = groqCatalogueClient.GetProvider) ∧
      gpt4 ∉ groqCatalogueClient.GetModels :=
  have h := ListModels_restricted_to_provider [groqCatalogueClient, gpt4Client]
    (by decide) (by decide) (by decide) groqCatalogueClient (List.mem_cons_self _ _)
  ⟨(h.2 GoMap.RangeOrder.reversed llama2).2 (by decide), by decide⟩

/-- Counterexample to C8 as stated: Groq's client is registered, then a client tagged
`openai` that lists a model under the identifier `llama2-70b-4096`. Groq's client is the
one registered for `groq` and lists `llama2`, yet `llama2` is no longer in `ListModels`,
in whatever order its loop runs: the later registration replaced it in the index. -/
theorem ListModels_restricted_to_provider_counterexample :
    (registerAll NewService [groqCatalogueClient, collidingClient]).GetClient "groq" =
        .ok groqCatalogueClient ∧
      llama2 ∈ groqCatalogueClient.GetModels ∧
      llama2.Provider = "groq" ∧
      ∀ order,
        llama2 ∉ (registerAll NewService [groqCatalogueClient, collidingClient]).ListModels
          order := by
  refine ⟨rfl, by decide, rfl, ?_⟩
  intro order h
  rw [(ListModels_perm _ order).mem_iff] at h
  revert h
  decide

/-! ## Cost and ledger -/

theorem F64_round_zero (neg : Bool) (d : Nat) : F64.round neg 0 d = F64.fin neg 0 (-1074) := by
  simp [F64.round]

theorem F64_ofInt_thousand : F64.ofInt 1000 = F64.fin false 8796093022208000 (-43) := by
  decide

theorem cost_zero_tokens {model : Model} {usage : types.TokenUsage}
    (hfin : model.CostPer1K.isFinite = true) (hzero : usage.TotalTokens = 0) :
    (cost model usage).isZero = true := by
  unfold cost
  rw [hzero, F64_ofInt_thousand]
  have h0 : F64.ofInt 0 = F64.fin false 0 (-1074) := by decide
  rw [h0]
  cases hc : model.CostPer1K with
  | nan => rw [hc] at hfin; cases hfin
  | inf neg => rw [hc] at hfin; cases hfin
  | fin neg m e =>
    simp [F64.mul, F64.div, F64.roundScaled, F64_round_zero, F64.isZero]

/-- C6: the cost that the gateway records is the float64 value of
`float64(TotalTokens) * CostPer1K / 1000`. Every call of `RecordAPIKeyUsage` that
`HandleQuery` makes is for the usage of the response of the client and carries that value,
computed from that usage and the model looked up for the request; the call is made for
every request that is answered 200, and the event that the database then inserts holds
that cost. A
rate of 0.03 with 1000 tokens costs 0.03; with 0 tokens the cost is zero for every finite
rate; the rates of the three catalogues are finite, so that with 0 tokens the cost is zero
for every model that `GetModel` returns on a service built by registering the Groq and the
Google client any number of times in any order. -/
theorem recorded_cost (s : Service) (env : Env) (w : World) :
    (∀ keyID usage c,
        Effect.recordAPIKeyUsage keyID usage c ∈
          (s.HandleQuery env w).1.trace.drop w.trace.length →
        ∃ req client model apiKey resp, ShouldBindJSON env.decoded = .ok req ∧
          s.GetClient req.Provider = .ok client ∧ s.GetModel req.Model = some model ∧
          GetAPIKey w.db env.getKeyErr req.Provider = .ok apiKey ∧
          client.Query (llmRequest req env.project_id env.user_id) apiKey.Key = .ok resp ∧
          keyID = apiKey.ID ∧ usage = resp.Usage ∧
          c = F64.div (F64.mul (F64.ofInt usage.TotalTokens) model.CostPer1K)
            (F64.ofInt 1000)) ∧
      ((s.HandleQuery env w).2.status = 200 →
        ∃ req client model apiKey resp, ShouldBindJSON env.decoded = .ok req ∧
          s.GetClient req.Provider = .ok client ∧ s.GetModel req.Model = some model ∧
          GetAPIKey w.db env.getKeyErr req.Provider = .ok apiKey ∧
          client.Query (llmRequest req env.project_id env.user_id) apiKey.Key = .ok resp ∧
          Effect.recordAPIKeyUsage apiKey.ID resp.Usage
            (F64.div (F64.mul (F64.ofInt resp.Usage.TotalTokens) model.CostPer1K)
              (F64.ofInt 1000)) ∈
            (s.HandleQuery env w).1.trace.drop w.trace.length ∧
          (env.recordErr = none →
            ((s.HandleQuery env w).1.db.key_usages.drop w.db.key_usages.length).map
                KeyUsage.Cost =
              [F64.div (F64.mul (F64.ofInt resp.Usage.TotalTokens) model.CostPer1K)
                (F64.ofInt 1000)])) ∧
      (∀ (model : Model) (usage : types.TokenUsage), model.CostPer1K = F64.ofRatio 3 100 →
        usage.TotalTokens = 1000 → cost model usage = F64.ofRatio 3 100) ∧
      (∀ (model : Model) (usage : types.TokenUsage), model.CostPer1K.isFinite = true →
        usage.TotalTokens = 0 → (cost model usage).isZero = true) ∧
      (∀ key, ∀ m ∈ groq.NewClient.GetModels ++ google.NewClient.GetModels ++
          (openai.NewClient key).GetModels, m.CostPer1K.isFinite = true) ∧
      (∀ cs : List LLMClient,
        (∀ c ∈ cs, (∃ net, c = groq.NewClient.asLLMClient net) ∨
          ∃ net, c = google.NewClient.asLLMClient net) →
        ∀ id (model : Model) (usage : types.TokenUsage),
          (registerAll NewService cs).GetModel id = some model →
          usage.TotalTokens = 0 → (cost model usage).isZero = true) := by
  have hfinite : ∀ key, ∀ m ∈ groq.NewClient.GetModels ++ google.NewClient.GetModels ++
      (openai.NewClient key).GetModels, m.CostPer1K.isFinite = true := by
    intro key m hmem
    simp only [groq.Client.GetModels, google.Client.GetModels, openai.Client.GetModels,
      groq.NewClient, google.NewClient, openai.NewClient, List.mem_append, List.mem_cons,
      List.mem_singleton, List.not_mem_nil, or_false] at hmem
    rcases hmem with ((rfl | rfl) | (rfl | rfl)) | (rfl | rfl) <;> decide
  refine ⟨?_, ?_, ?_, fun model usage => cost_zero_tokens, hfinite, ?_⟩
  · intro keyID usage c hmem
    rcases HandleQuery_new_effects s env w with h | ⟨req, client, model, apiKey, hb, hg, hm, hk, h⟩
    · rw [h] at hmem
      simp at hmem
    · rcases h with ⟨e, _, ht⟩ | ⟨resp, hq, ⟨_, added, ht, hall⟩ | ⟨_, ht⟩⟩
      · rw [ht, List.drop_left] at hmem
        simp at hmem
      · rw [ht] at hmem
        simp only [List.append_assoc, List.drop_left] at hmem
        simp only [List.mem_append, List.mem_cons, List.mem_singleton, List.not_mem_nil,
          or_false, false_or, reduceCtorEq] at hmem
        obtain ⟨kind, count, hk2⟩ := hall _ hmem
        cases hk2
      · refine ⟨req, client, model, apiKey, resp, hb, GetClient_of_get? hg, hm, hk, hq, ?_⟩
        rw [ht] at hmem
        simp only [List.append_assoc, List.drop_left] at hmem
        cases hr : env.recordErr <;> cases hu : env.updateErr <;>
          simp [hr, hu, cost] at hmem <;>
          exact ⟨hmem.1, hmem.2.1, by rw [hmem.2.2, hmem.2.1]⟩
  · intro hok
    obtain ⟨req, client, model, apiKey, resp, hb, hc, hm, hk, hq, hu⟩ := HandleQuery_ok_inv hok
    refine ⟨req, client, model, apiKey, resp, hb, hc, hm, hk, hq, ?_, ?_⟩
    · rw [HandleQuery_success_trace hb hc hm hk hq hu]
      simp only [List.append_assoc, List.drop_left]
      simp [cost]
    · intro hr
      rw [HandleQuery_success_ledger hb hc hm hk hq hu, hr, List.drop_left]
      simp [cost]
  · intro model usage h1 h2
    unfold cost
    rw [h1, h2]
    decide
  · intro cs hcs id model usage hget hzero
    refine cost_zero_tokens ?_ hzero
    rw [registerAll_GetModel] at hget
    have hmem := List.mem_reverse.1 (List.mem_of_find?_eq_some hget)
    obtain ⟨c, hc, hmc⟩ := List.mem_flatMap.1 hmem
    rcases hcs c hc with ⟨net, rfl⟩ | ⟨net, rfl⟩
    · exact hfinite "" model (List.mem_append_left _ (List.mem_append_left _ hmc))
    · exact hfinite "" model (List.mem_append_left _ (List.mem_append_right _ hmc))

/-- Witness of C6: `gpt-4` at 0.03 per 1000 tokens and a response of 1000 tokens, in a
request answered 200; and a response of 0 tokens at the finite rate of a catalogue. -/
theorem recorded_cost_witness :
    (∃ keyID usage, Effect.recordAPIKeyUsage keyID usage
        (F64.div (F64.mul (F64.ofInt usage.TotalTokens) (F64.ofRatio 3 100)) (F64.ofInt 1000)) ∈
        ((NewService.RegisterClient gpt4Client).HandleQuery gpt4Env exampleWorld).1.trace) ∧
      cost gpt4 gpt4Response.Usage = F64.ofRatio 3 100 ∧
      (cost llama2 { PromptTokens := 0, CompletionTokens := 0, TotalTokens := 0 }).isZero =
        true :=
  have h := recorded_cost (NewService.RegisterClient gpt4Client) gpt4Env exampleWorld
  match h.2.1 rfl with
  | ⟨req, client, model, apiKey, resp, hb, hc, hm, hk, hq, hmem, _⟩ =>
    ⟨⟨apiKey.ID, resp.Usage, by
        have hmodel : model = gpt4 := by
          have hreq : req = gpt4Request := by cases hb; rfl
          subst hreq
          cases hm
          rfl
        subst hmodel
        exact List.mem_of_mem_drop hmem⟩,
      h.2.2.1 gpt4 gpt4Response.Usage rfl rfl,
      h.2.2.2.1 llama2 _ (by decide) rfl⟩

/-- The finiteness of the rate is needed for the cost of 0 tokens: at the rate `+Inf`,
which no catalogue has, `0 * +Inf` is NaN. -/
theorem cost_infinite_rate :
    cost infiniteRateModel { PromptTokens := 0, CompletionTokens := 0, TotalTokens := 0 } =
        F64.nan ∧
      (cost infiniteRateModel
        { PromptTokens := 0, CompletionTokens := 0, TotalTokens := 0 }).isZero = false := by
  decide

/-- C7, as the code has it: when the upstream call of a request succeeds with `resp` for
the acquired key and the looked-up model, the ledger after the request is the ledger
before it followed by the events added, the events already there being untouched. When the
three token counts of `resp` are non-negative and the database accepts the insert of
`RecordAPIKeyUsage`, one event is added, with the id of the key, request count 1, token
count `resp.Usage.TotalTokens` and cost `float64(TotalTokens) * CostPer1K / 1000`; when the
insert fails the ledger is as before. -/
theorem HandleQuery_appends_usage_event (s : Service) (env : Env) (w : World)
    (req : QueryRequest) (client : LLMClient) (model : Model) (apiKey : APIKey) (resp : Response)
    (hb : ShouldBindJSON env.decoded = .ok req)
    (hc : s.GetClient req.Provider = .ok client)
    (hm : s.GetModel req.Model = some model)
    (hk : GetAPIKey w.db env.getKeyErr req.Provider = .ok apiKey)
    (hq : client.Query (llmRequest req env.project_id env.user_id) apiKey.Key = .ok resp) :
    (resp.Usage.NonNegative → env.recordErr = none →
        (s.HandleQuery env w).1.db.key_usages =
          w.db.key_usages ++
            [{ APIKeyID := apiKey.ID, RequestCount := 1, TokenCount := resp.Usage.TotalTokens,
               Cost := F64.div (F64.mul (F64.ofInt resp.Usage.TotalTokens) model.CostPer1K)
                 (F64.ofInt 1000),
               Timestamp := env.recordNow }]) ∧
      (env.recordErr ≠ none → (s.HandleQuery env w).1.db.key_usages = w.db.key_usages) ∧
      (∃ added, (s.HandleQuery env w).1.db.key_usages = w.db.key_usages ++ added) := by
  by_cases hu : resp.Usage.NonNegative
  · rw [HandleQuery_success_ledger hb hc hm hk hq hu]
    refine ⟨?_, ?_, _, rfl⟩
    · intro _ h
      rw [h]
      rfl
    · intro h
      cases hr : env.recordErr with
      | none => exact absurd hr h
      | some e => simp
  · obtain ⟨added, he, _⟩ :=
      @RecordTokenUsage_of_negative req.Provider req.Model resp.Usage hu
        (metrics.RecordLLMLatency req.Provider req.Model env.elapsed
          (w.emit (.clientQuery (llmRequest req env.project_id env.user_id) apiKey.Key)))
    have hdb : (s.HandleQuery env w).1.db.key_usages = w.db.key_usages := by
      rw [HandleQuery_panic_eq hb hc hm hk hq hu, he]
      rfl
    exact ⟨fun h => absurd h hu, fun _ => hdb, [], by rw [hdb, List.append_nil]⟩

/-- Witness of C7 as amended: the example request, the database accepting both writes. -/
theorem HandleQuery_appends_usage_event_witness :
    ((exampleService (.ok exampleResponse)).HandleQuery (exampleEnv none none)
        exampleWorld).1.db.key_usages =
      [{ APIKeyID := 1, RequestCount := 1, TokenCount := 15,
         Cost := F64.div (F64.mul (F64.ofInt 15) (F64.ofRatio 7 10000)) (F64.ofInt 1000),
         Timestamp := 30 }] :=
  (HandleQuery_appends_usage_event (exampleService (.ok exampleResponse)) (exampleEnv none none)
    exampleWorld exampleRequest (exampleClient (.ok exampleResponse))
    { ID := "llama2-70b-4096", Provider := types.ProviderGroq, Name := "Llama2 70B",
      Description := "High-performance Llama2 70B model", MaxTokens := 4096,
      CostPer1K := F64.ofRatio 7 10000 }
    { ID := 1, Provider := "groq", Key := "gsk-a", Description := "", IsActive := true,
      LastUsed := 10 }
    exampleResponse rfl rfl rfl rfl rfl).1 (by decide) rfl

/-- Counterexample to C7 as stated: the upstream call of the example request succeeds
and is answered 200, the insert of the usage event fails, and the ledger after the
request is the empty ledger it was before: no event was added. -/
theorem HandleQuery_appends_usage_event_counterexample :
    ((exampleService (.ok exampleResponse)).HandleQuery (exampleEnv (some "insert failed") none)
        exampleWorld).2 = ⟨200, .response exampleResponse⟩ ∧
      exampleWorld.db.key_usages = [] ∧
      ((exampleService (.ok exampleResponse)).HandleQuery (exampleEnv (some "insert failed") none)
        exampleWorld).1.db.key_usages = [] := by
  refine ⟨rfl, rfl, rfl⟩

end llms

/-! ## The provider clients -/

theorem chatResponse_usage {req : llms.Request} {result : ChatResult} {elapsed : Duration}
    (h : result.Choices ≠ []) :
    ∃ r, chatResponse req result elapsed = .ok r ∧
      r.Usage = { PromptTokens := result.Usage.PromptTokens,
                  CompletionTokens := result.Usage.CompletionTokens,
                  TotalTokens := result.Usage.TotalTokens } := by
  unfold chatResponse
  cases hc : result.Choices with
  | nil => exact absurd hc h
  | cons choice rest => exact ⟨_, rfl, rfl⟩

/-- C10, as the code has it: when the payload of the upstream decodes to `result`, the
Groq and the OpenAI client return a response as soon as `result` has a choice, the Google
client as soon as `result` has a candidate and the first candidate has a part, and the
usage of that response is the token-accounting triple of the payload, field for field. -/
theorem Query_usage_unchanged (req : llms.Request) (apiKey : String) :
    (∀ (c : groq.Client) (net : Net ChatResult) (result : ChatResult),
        roundTrip net req.Temperature (groq.httpRequest req apiKey) = .ok result →
        result.Choices ≠ [] →
        ∃ r, c.Query net req apiKey = .ok r ∧
          r.Usage = { PromptTokens := result.Usage.PromptTokens,
                      CompletionTokens := result.Usage.CompletionTokens,
                      TotalTokens := result.Usage.TotalTokens }) ∧
      (∀ (c : openai.Client) (net : Net ChatResult) (result : ChatResult),
        roundTrip net req.Temperature (openai.httpRequest c req) = .ok result →
        result.Choices ≠ [] →
        ∃ r, c.Query net req = .ok r ∧
          r.Usage = { PromptTokens := result.Usage.PromptTokens,
                      CompletionTokens := result.Usage.CompletionTokens,
                      TotalTokens := result.Usage.TotalTokens }) ∧
      (∀ (c : google.Client) (net : Net google.Result) (result : google.Result)
        (candidate : google.Candidate),
        roundTrip net req.Temperature (google.httpRequest req apiKey) = .ok result →
        result.Candidates.head? = some candidate → candidate.Parts ≠ [] →
        ∃ r, c.Query net req apiKey = .ok r ∧
          r.Usage = { PromptTokens := result.TokenCount.PromptTokens,
                      CompletionTokens := result.TokenCount.CompletionTokens,
                      TotalTokens := result.TokenCount.TotalTokens }) := by
  refine ⟨?_, ?_, ?_⟩
  · intro c net result hrt hch
    simp only [groq.Client.Query, hrt]
    exact chatResponse_usage hch
  · intro c net result hrt hch
    simp only [openai.Client.Query, hrt]
    exact chatResponse_usage hch
  · intro c net result candidate hrt hcand hparts
    simp only [google.Client.Query, hrt]
    unfold google.response
    cases hc : result.Candidates with
    | nil => rw [hc] at hcand; cases hcand
    | cons cand rest =>
      rw [hc] at hcand
      simp only [List.head?_cons, Option.some.injEq] at hcand
      subst hcand
      cases hp : cand.Parts with
      | nil => exact absurd hp hparts
      | cons text parts =>
        simp only [hp]
        exact ⟨_, rfl, rfl⟩

/-- Witness of C10 as amended: payloads with usage 10, 5, 15 through the three clients. -/
theorem Query_usage_unchanged_witness :
    (∃ r, groq.NewClient.Query (decodingNet chatPayload) exampleQuery "gsk-a" = .ok r ∧
        r.Usage = { PromptTokens := 10, CompletionTokens := 5, TotalTokens := 15 }) ∧
      (∃ r, (openai.NewClient "sk-env").Query (decodingNet chatPayload) exampleQuery = .ok r ∧
        r.Usage = { PromptTokens := 10, CompletionTokens := 5, TotalTokens := 15 }) ∧
      (∃ r, google.NewClient.Query (decodingNet googlePayload) exampleQuery "g-key" = .ok r ∧
        r.Usage = { PromptTokens := 10, CompletionTokens := 5, TotalTokens := 15 }) :=
  have h := Query_usage_unchanged exampleQuery "gsk-a"
  have hg := Query_usage_unchanged exampleQuery "g-key"
  ⟨h.1 groq.NewClient (decodingNet chatPayload) chatPayload rfl (by decide),
   h.2.1 (openai.NewClient "sk-env") (decodingNet chatPayload) chatPayload rfl (by decide),
   hg.2.2 google.NewClient (decodingNet googlePayload) googlePayload
     { Parts := ["hello"], FinishReason := "STOP" } rfl rfl (by decide)⟩

/-- Counterexample to C10 as stated: a generate-content payload with one candidate and
usage 10, 5, 15 whose candidate has no part makes the Google client return an error, so
no response carries the usage of the payload. -/
theorem Query_usage_unchanged_counterexample :
    emptyPartsPayload.Candidates.length = 1 ∧
      roundTrip (decodingNet emptyPartsPayload) exampleQuery.Temperature
        (google.httpRequest exampleQuery "g-key") = .ok emptyPartsPayload ∧
      google.NewClient.Query (decodingNet emptyPartsPayload) exampleQuery "g-key" =
        .error "no content in response" := by
  refine ⟨rfl, rfl, rfl⟩

theorem roundTrip_ok_iff {R : Type} {net : Net R} {temperature : F64} {httpReq : HTTPRequest}
    {result : R} :
    roundTrip net temperature httpReq = .ok result ↔
      marshalFloatErr temperature = none ∧ net.NewRequestErr httpReq.URL = none ∧
        net.Do httpReq = .decoded result := by
  unfold roundTrip
  cases marshalFloatErr temperature with
  | some e => simp
  | none =>
    cases net.NewRequestErr httpReq.URL with
    | some e => simp
    | none =>
      cases net.Do httpReq with
      | sendFailed e => simp
      | parseFailed e => simp
      | decoded r => simp

theorem chatResponse_ok {req : llms.Request} {result : ChatResult} {elapsed : Duration}
    {r : llms.Response} (h : chatResponse req result elapsed = .ok r) :
    ∃ choice rest, result.Choices = choice :: rest ∧ r.Text = choice.Content ∧
      r.FinishReason = choice.FinishReason := by
  unfold chatResponse at h
  cases hc : result.Choices with
  | nil => rw [hc] at h; cases h
  | cons choice rest =>
    rw [hc] at h
    simp only [Except.ok.injEq] at h
    subst h
    exact ⟨choice, rest, rfl, rfl, rfl⟩

theorem google_response_ok {req : llms.Request} {result : google.Result} {elapsed : Duration}
    {unixNano : Int} {r : llms.Response}
    (h : google.response req result elapsed unixNano = .ok r) :
    ∃ candidate rest text parts, result.Candidates = candidate :: rest ∧
      candidate.Parts = text :: parts ∧ r.Text = text ∧
      r.FinishReason = candidate.FinishReason := by
  unfold google.response at h
  cases hc : result.Candidates with
  | nil => rw [hc] at h; cases h
  | cons candidate rest =>
    rw [hc] at h
    cases hp : candidate.Parts with
    | nil => simp only [hp] at h; cases h
    | cons text parts =>
      simp only [hp, Except.ok.injEq] at h
      subst h
      exact ⟨candidate, rest, text, parts, rfl, hp, rfl, rfl⟩

/-- C11: when the payload of the upstream decodes to a result with no choice, the Groq and
the OpenAI client return the error `no choices in response`, and with no candidate the
Google client returns the error `no content in response`: no response is returned. A
response that a client does return always takes its text from the first choice, or from
the first part of the first candidate, of a decoded payload. -/
theorem Query_empty_payload_fails (req : llms.Request) (apiKey : String) :
    (∀ (c : groq.Client) (net : Net ChatResult) (result : ChatResult),
        roundTrip net req.Temperature (groq.httpRequest req apiKey) = .ok result →
        result.Choices = [] → c.Query net req apiKey = .error "no choices in response") ∧
      (∀ (c : openai.Client) (net : Net ChatResult) (result : ChatResult),
        roundTrip net req.Temperature (openai.httpRequest c req) = .ok result →
        result.Choices = [] → c.Query net req = .error "no choices in response") ∧
      (∀ (c : google.Client) (net : Net google.Result) (result : google.Result),
        roundTrip net req.Temperature (google.httpRequest req apiKey) = .ok result →
        result.Candidates = [] → c.Query net req apiKey = .error "no content in response") ∧
      (∀ (c : groq.Client) (net : Net ChatResult) (r : llms.Response),
        c.Query net req apiKey = .ok r →
        ∃ result choice rest,
          roundTrip net req.Temperature (groq.httpRequest req apiKey) = .ok result ∧
          result.Choices = choice :: rest ∧ r.Text = choice.Content) ∧
      (∀ (c : openai.Client) (net : Net ChatResult) (r : llms.Response),
        c.Query net req = .ok r →
        ∃ result choice rest,
          roundTrip net req.Temperature (openai.httpRequest c req) = .ok result ∧
          result.Choices = choice :: rest ∧ r.Text = choice.Content) ∧
      (∀ (c : google.Client) (net : Net google.Result) (r : llms.Response),
        c.Query net req apiKey = .ok r →
        ∃ result candidate rest text parts,
          roundTrip net req.Temperature (google.httpRequest req apiKey) = .ok result ∧
          result.Candidates = candidate :: rest ∧ candidate.Parts = text :: parts ∧
          r.Text = text) := by
  refine ⟨?_, ?_, ?_, ?_, ?_, ?_⟩
  · intro c net result hrt hch
    simp only [groq.Client.Query, hrt, chatResponse, hch]
  · intro c net result hrt hch
    simp only [openai.Client.Query, hrt, chatResponse, hch]
  · intro c net result hrt hch
    simp only [google.Client.Query, hrt, google.response, hch]
  · intro c net r h
    unfold groq.Client.Query at h
    cases hrt : roundTrip net req.Temperature (groq.httpRequest req apiKey) with
    | error e => rw [hrt] at h; cases h
    | ok result =>
      rw [hrt] at h
      obtain ⟨choice, rest, h1, h2, _⟩ := chatResponse_ok h
      exact ⟨result, choice, rest, rfl, h1, h2⟩
  · intro c net r h
    unfold openai.Client.Query at h
    cases hrt : roundTrip net req.Temperature (openai.httpRequest c req) with
    | error e => rw [hrt] at h; cases h
    | ok result =>
      rw [hrt] at h
      obtain ⟨choice, rest, h1, h2, _⟩ := chatResponse_ok h
      exact ⟨result, choice, rest, rfl, h1, h2⟩
  · intro c net r h
    unfold google.Client.Query at h
    cases hrt : roundTrip net req.Temperature (google.httpRequest req apiKey) with
    | error e => rw [hrt] at h; cases h
    | ok result =>
      rw [hrt] at h
      have h2 : google.response req result net.elapsed net.unixNano = .ok r := h
      obtain ⟨candidate, rest, text, parts, h3, h4, h5, _⟩ := google_response_ok h2
      exact ⟨result, candidate, rest, text, parts, rfl, h3, h4, h5⟩

/-- Witness of C11: payloads without choice or candidate through the three clients. -/
theorem Query_empty_payload_fails_witness :
    groq.NewClient.Query (decodingNet noChoicePayload) exampleQuery "gsk-a" =
        .error "no choices in response" ∧
      (openai.NewClient "sk-env").Query (decodingNet noChoicePayload) exampleQuery =
        .error "no choices in response" ∧
      google.NewClient.Query (decodingNet noCandidatePayload) exampleQuery "g-key" =
        .error "no content in response" :=
  have h := Query_empty_payload_fails exampleQuery "gsk-a"
  have hg := Query_empty_payload_fails exampleQuery "g-key"
  ⟨h.1 groq.NewClient (decodingNet noChoicePayload) noChoicePayload rfl rfl,
   h.2.1 (openai.NewClient "sk-env") (decodingNet noChoicePayload) noChoicePayload rfl rfl,
   hg.2.2.1 google.NewClient (decodingNet noCandidatePayload) noCandidatePayload rfl rfl⟩

/-- C12, as the code has it: when the payload of the upstream decodes to `result`, the Groq
and the OpenAI client return, as soon as `result` has a choice, the response whose text and
finish reason are those of the first choice; the Google client returns, as soon as `result`
has a candidate and the first candidate has a part, the response whose text is the first
part of the first candidate and whose finish reason is that candidate's. Provider, model
and metadata are the request's. The response does not depend on the later choices,
candidates or parts. -/
theorem Query_first_choice (req : llms.Request) (apiKey : String) :
    (∀ (c : groq.Client) (net : Net ChatResult) (result : ChatResult) (choice : Choice)
        (rest : List Choice),
        roundTrip net req.Temperature (groq.httpRequest req apiKey) = .ok result →
        result.Choices = choice :: rest →
        c.Query net req apiKey =
          .ok { ID := result.ID, Provider := req.Provider, Model := req.Model,
                Text := choice.Content,
                Usage := { PromptTokens := result.Usage.PromptTokens,
                           CompletionTokens := result.Usage.CompletionTokens,
                           TotalTokens := result.Usage.TotalTokens },
                FinishReason := choice.FinishReason, Metadata := req.Metadata,
                Latency := net.elapsed }) ∧
      (∀ (c : openai.Client) (net : Net ChatResult) (result : ChatResult) (choice : Choice)
        (rest : List Choice),
        roundTrip net req.Temperature (openai.httpRequest c req) = .ok result →
        result.Choices = choice :: rest →
        c.Query net req =
          .ok { ID := result.ID, Provider := req.Provider, Model := req.Model,
                Text := choice.Content,
                Usage := { PromptTokens := result.Usage.PromptTokens,
                           CompletionTokens := result.Usage.CompletionTokens,
                           TotalTokens := result.Usage.TotalTokens },
                FinishReason := choice.FinishReason, Metadata := req.Metadata,
                Latency := net.elapsed }) ∧
      (∀ (c : google.Client) (net : Net google.Result) (result : google.Result)
        (candidate : google.Candidate) (rest : List google.Candidate) (text : String)
        (parts : List String),
        roundTrip net req.Temperature (google.httpRequest req apiKey) = .ok result →
        result.Candidates = candidate :: rest → candidate.Parts = text :: parts →
        c.Query net req apiKey =
          .ok { ID := "gemini-" ++ toString net.unixNano, Provider := req.Provider,
                Model := req.Model, Text := text,
                Usage := { PromptTokens := result.TokenCount.PromptTokens,
                           CompletionTokens := result.TokenCount.CompletionTokens,
                           TotalTokens := result.TokenCount.TotalTokens },
                FinishReason := candidate.FinishReason, Metadata := req.Metadata,
                Latency := net.elapsed }) := by
  refine ⟨?_, ?_, ?_⟩
  · intro c net result choice rest hrt hch
    simp only [groq.Client.Query, hrt, chatResponse, hch]
  · intro c net result choice rest hrt hch
    simp only [openai.Client.Query, hrt, chatResponse, hch]
  · intro c net result candidate rest text parts hrt hc hp
    simp only [google.Client.Query, hrt, google.response, hc, hp]

/-- Witness of C12 as amended: payloads with two choices or candidates through the three
clients; the answer carries the first. -/
theorem Query_first_choice_witness :
    groq.NewClient.Query (decodingNet twoChoicesPayload) exampleQuery "gsk-a" =
        .ok { ID := "chatcmpl-2", Provider := "groq", Model := "llama2-70b-4096",
              Text := "first",
              Usage := { PromptTokens := 10, CompletionTokens := 5, TotalTokens := 15 },
              FinishReason := "stop", Metadata := none, Latency := 7 } ∧
      (openai.NewClient "sk-env").Query (decodingNet twoChoicesPayload) exampleQuery =
        .ok { ID := "chatcmpl-2", Provider := "groq", Model := "llama2-70b-4096",
              Text := "first",
              Usage := { PromptTokens := 10, CompletionTokens := 5, TotalTokens := 15 },
              FinishReason := "stop", Metadata := none, Latency := 7 } ∧
      google.NewClient.Query (decodingNet twoCandidatesPayload) exampleQuery "g-key" =
        .ok { ID := "gemini-1700000000000000000", Provider := "groq",
              Model := "llama2-70b-4096", Text := "first",
              Usage := { PromptTokens := 10, CompletionTokens := 5, TotalTokens := 15 },
              FinishReason := "STOP", Metadata := none, Latency := 7 } :=
  have h := Query_first_choice exampleQuery "gsk-a"
  have hg := Query_first_choice exampleQuery "g-key"
  ⟨h.1 groq.NewClient (decodingNet twoChoicesPayload) twoChoicesPayload
     { Content := "first", FinishReason := "stop" }
     [{ Content := "second", FinishReason := "length" }] rfl rfl,
   h.2.1 (openai.NewClient "sk-env") (decodingNet twoChoicesPayload) twoChoicesPayload
     { Content := "first", FinishReason := "stop" }
     [{ Content := "second", FinishReason := "length" }] rfl rfl,
   hg.2.2 google.NewClient (decodingNet twoCandidatesPayload) twoCandidatesPayload
     { Parts := ["first", "more"], FinishReason := "STOP" }
     [{ Parts := ["second"], FinishReason := "MAX_TOKENS" }] "first" ["more"] rfl rfl rfl⟩

/-- Counterexample to C12 as stated: a generate-content payload with two candidates, the
first of which has no part, makes the Google client return an error: no response carries
the finish reason of the first candidate, and the second candidate is not used. -/
theorem Query_first_choice_counterexample :
    blockedFirstPayload.Candidates.length = 2 ∧
      roundTrip (decodingNet blockedFirstPayload) exampleQuery.Temperature
        (google.httpRequest exampleQuery "g-key") = .ok blockedFirstPayload ∧
      google.NewClient.Query (decodingNet blockedFirstPayload) exampleQuery "g-key" =
        .error "no content in response" := by
  refine ⟨rfl, rfl, rfl⟩

theorem Query_sends {R : Type} (net : Net R) (temperature : F64) (httpReq : HTTPRequest)
    (hm : marshalFloatErr temperature = none) (hu : net.NewRequestErr httpReq.URL = none) :
    roundTrip net temperature httpReq =
      match net.Do httpReq with
      | .sendFailed e => .error ("failed to send request: " ++ e)
      | .parseFailed e => .error ("failed to parse response: " ++ e)
      | .decoded result => .ok result := by
  simp only [roundTrip, hm, hu]

/-- C13: for every request and credential, the request the Groq client hands to its HTTP
client is a POST to the fixed chat-completions URL, in which the credential has no part,
with the header `Authorization` set to `Bearer` and the credential, and a JSON body with
`model` = `req.Model`, `messages` = one message of role `user` and content `req.Prompt`,
`max_tokens` = `req.MaxTokens`, `temperature` = `req.Temperature`, the key `stop` (=
`req.Stop`) exactly when `req.Stop` is not empty, and no other key. `Query` sends that
request whenever the body marshals and the request is created. -/
theorem groq_request_shape (req : llms.Request) (apiKey : String) :
    (groq.httpRequest req apiKey).Method = "POST" ∧
      (groq.httpRequest req apiKey).URL = "https://api.groq.com/openai/v1/chat/completions" ∧
      (groq.httpRequest req apiKey).Header.get? "Authorization" = some ("Bearer " ++ apiKey) ∧
      (groq.httpRequest req apiKey).Header.get? "Content-Type" = some "application/json" ∧
      (groq.httpRequest req apiKey).Body.field? "model" = some (.str req.Model) ∧
      (groq.httpRequest req apiKey).Body.field? "messages" =
        some (.arr [.obj [("content", .str req.Prompt), ("role", .str "user")]]) ∧
      (groq.httpRequest req apiKey).Body.field? "max_tokens" = some (.int req.MaxTokens) ∧
      (groq.httpRequest req apiKey).Body.field? "temperature" = some (.num req.Temperature) ∧
      (req.Stop ≠ [] →
        (groq.httpRequest req apiKey).Body.field? "stop" = some (.arr (req.Stop.map .str))) ∧
      (req.Stop = [] → (groq.httpRequest req apiKey).Body.field? "stop" = none) ∧
      (∀ key ∈ (groq.httpRequest req apiKey).Body.keys,
        key ∈ ["max_tokens", "messages", "model", "stop", "temperature"]) ∧
      (∀ (c : groq.Client) (net : Net ChatResult),
        marshalFloatErr req.Temperature = none →
        net.NewRequestErr (groq.httpRequest req apiKey).URL = none →
        c.Query net req apiKey =
          match net.Do (groq.httpRequest req apiKey) with
          | .sendFailed e => .error ("failed to send request: " ++ e)
          | .parseFailed e => .error ("failed to parse response: " ++ e)
          | .decoded result => chatResponse req result net.elapsed) := by
  refine ⟨rfl, rfl, ?_, ?_, ?_, ?_, ?_, ?_, ?_, ?_, ?_, ?_⟩
  · simp [groq.httpRequest, GoMap.get?, GoMap.set]
  · simp [groq.httpRequest, GoMap.get?, GoMap.set]
  · simp [groq.httpRequest, chatBody, JSON.field?]
  · simp [groq.httpRequest, chatBody, JSON.field?]
  · simp [groq.httpRequest, chatBody, JSON.field?]
  · by_cases h : 0 < req.Stop.length <;> simp [groq.httpRequest, chatBody, JSON.field?, h]
  · intro h
    have hlen : 0 < req.Stop.length := List.length_pos.2 h
    simp [groq.httpRequest, chatBody, JSON.field?, hlen]
  · intro h
    simp [groq.httpRequest, chatBody, JSON.field?, h]
  · intro key hkey
    by_cases h : 0 < req.Stop.length
    · simp [groq.httpRequest, chatBody, JSON.keys, h] at hkey
      rcases hkey with h1 | h1 | h1 | h1 | h1 <;> simp [h1]
    · simp [groq.httpRequest, chatBody, JSON.keys, h] at hkey
      rcases hkey with h1 | h1 | h1 | h1 <;> simp [h1]
  · intro c net hm hu
    simp only [groq.Client.Query, Query_sends net req.Temperature _ hm hu]
    cases net.Do (groq.httpRequest req apiKey) <;> rfl

/-- Witness of C13: the request built for `stopQuery` and the credential `gsk-a`, and its
sending on surroundings where the payload decodes. -/
theorem groq_request_shape_witness :
    (groq.httpRequest stopQuery "gsk-a").Body.field? "stop" =
        some (.arr [.str "END", .str "STOP"]) ∧
      (groq.httpRequest exampleQuery "gsk-a").Body.field? "stop" = none ∧
      groq.NewClient.Query (decodingNet chatPayload) stopQuery "gsk-a" =
        chatResponse stopQuery chatPayload 7 :=
  have h := groq_request_shape stopQuery "gsk-a"
  have h0 := groq_request_shape exampleQuery "gsk-a"
  ⟨h.2.2.2.2.2.2.2.2.1 (by decide), h0.2.2.2.2.2.2.2.2.2.1 rfl,
   h.2.2.2.2.2.2.2.2.2.2.2 groq.NewClient (decodingNet chatPayload) rfl rfl⟩

theorem url_cut_of_not_mem {sep : Char} {l : List Char} (h : sep ∉ l) :
    url.cut sep l = (l, none) := by
  induction l with
  | nil => rfl
  | cons c cs ih =>
    have hc : c ≠ sep := fun e => h (e ▸ List.mem_cons_self _ _)
    have hcs : sep ∉ cs := fun e => h (List.mem_cons_of_mem _ e)
    simp [url.cut, hc, ih hcs]

theorem url_cut_append {sep : Char} {a : List Char} (b : List Char) (h : sep ∉ a) :
    url.cut sep (a ++ sep :: b) = (a, some b) := by
  induction a with
  | nil => simp [url.cut]
  | cons c cs ih =>
    have hc : c ≠ sep := fun e => h (e ▸ List.mem_cons_self _ _)
    have hcs : sep ∉ cs := fun e => h (List.mem_cons_of_mem _ e)
    simp [url.cut, hc, ih hcs]

theorem url_fields_of_not_mem {sep : Char} {l : List Char} (h : sep ∉ l) :
    url.fields sep l = [l] := by
  induction l with
  | nil => rfl
  | cons c cs ih =>
    have hc : c ≠ sep := fun e => h (e ▸ List.mem_cons_self _ _)
    have hcs : sep ∉ cs := fun e => h (List.mem_cons_of_mem _ e)
    simp [url.fields, hc, ih hcs]

/-- The parse of `scheme://host/path?query` when no delimiter occurs before its place. -/
theorem url_Parse_absolute {scheme host path query : List Char}
    (h1 : '#' ∉ scheme ++ (':' :: '/' :: '/' :: (host ++ ('/' :: (path ++ ('?' :: query))))))
    (h2 : ':' ∉ scheme) (h3 : '?' ∉ host ++ ('/' :: path)) (h4 : '/' ∉ host) :
    url.Parse (String.mk
        (scheme ++ (':' :: '/' :: '/' :: (host ++ ('/' :: (path ++ ('?' :: query))))))) =
      { Scheme := String.mk scheme, Host := String.mk host, Path := String.mk ('/' :: path),
        RawQuery := String.mk query, Fragment := "" } := by
  unfold url.Parse
  simp only [String.toList]
  rw [url_cut_of_not_mem h1, url_cut_append _ h2]
  simp only [Option.getD_some]
  have e1 : '/' :: '/' :: (host ++ ('/' :: (path ++ ('?' :: query)))) =
      ('/' :: '/' :: (host ++ ('/' :: path))) ++ ('?' :: query) := by simp
  rw [e1, url_cut_append]
  · simp only [List.drop_succ_cons, List.drop_zero, Option.getD_some]
    rw [url_cut_append _ h4]
    rfl
  · intro h
    simp only [List.mem_cons] at h
    rcases h with h | h | h
    · exact absurd h (by decide)
    · exact absurd h (by decide)
    · exact h3 h

theorem url_not_mem_of_unreserved {s : String} (h : url.unreserved s) {c : Char}
    (hc : ¬ (c.isAlphanum = true ∨ c = '-' ∨ c = '.' ∨ c = '_' ∨ c = '~')) : c ∉ s.data :=
  fun hm => hc (h c hm)

/-- The parsed URL of the Google request for a model identifier and a credential made of
unreserved characters. -/
theorem google_ParsedURL (req : llms.Request) (apiKey : String)
    (hm : url.unreserved req.Model) (hk : url.unreserved apiKey) :
    (google.httpRequest req apiKey).ParsedURL =
      { Scheme := "https", Host := "generativelanguage.googleapis.com",
        Path := "/v1beta/models/" ++ req.Model ++ ":generateContent",
        RawQuery := "key=" ++ apiKey, Fragment := "" } := by
  have hm1 : '#' ∉ req.Model.data := url_not_mem_of_unreserved hm (by decide)
  have hm2 : '?' ∉ req.Model.data := url_not_mem_of_unreserved hm (by decide)
  have hk1 : '#' ∉ apiKey.data := url_not_mem_of_unreserved hk (by decide)
  have hurl : (google.httpRequest req apiKey).URL =
      String.mk ("https".toList ++ (':' :: '/' :: '/' ::
        ("generativelanguage.googleapis.com".toList ++ ('/' ::
          (("v1beta/models/".toList ++ req.Model.toList ++ ":generateContent".toList) ++
            ('?' :: ("key=".toList ++ apiKey.toList))))))) := by
    apply String.ext
    simp [google.httpRequest, String.data_append]
  unfold HTTPRequest.ParsedURL
  rw [hurl, url_Parse_absolute]
  · congr 1
  · simp [hm1, hk1]
  · decide
  · simp [hm2]
  · decide

theorem url_ParseQuery_key (apiKey : String) (hk : url.unreserved apiKey) :
    url.ParseQuery ("key=" ++ apiKey) = [("key", apiKey)] := by
  have hk1 : '&' ∉ apiKey.data := url_not_mem_of_unreserved hk (by decide)
  have hk2 : ';' ∉ apiKey.data := url_not_mem_of_unreserved hk (by decide)
  unfold url.ParseQuery
  have e : ("key=" ++ apiKey).toList = ['k', 'e', 'y'] ++ ('=' :: apiKey.toList) := by
    simp [String.toList, String.data_append]
  rw [e, url_fields_of_not_mem (by simp [hk1])]
  simp only [List.filterMap_cons, List.filterMap_nil]
  rw [if_neg (by simp [hk2]), url_cut_append _ (by decide)]
  rfl

/-- C14, as the code has it: for every request and credential, the request the Google
client hands to its HTTP client is a POST with the header `Content-Type` only (no
`Authorization`) and the JSON body `contents` = one content of one part of text
`req.Prompt`, `generationConfig` = `maxOutputTokens` = `req.MaxTokens`, `temperature` =
`req.Temperature` and `stopSequences` (= `req.Stop`) exactly when `req.Stop` is not empty.
Its URL is the generate-content URL written with `req.Model` and the credential put in
without escaping; when both are made of unreserved characters, the parsed URL has
`req.Model` in its path and the credential as its one query parameter, `key`. `Query` sends
that request whenever the body marshals and the request is created. -/
theorem google_request_shape (req : llms.Request) (apiKey : String) :
    (google.httpRequest req apiKey).Method = "POST" ∧
      (google.httpRequest req apiKey).URL =
        "https://generativelanguage.googleapis.com/v1beta/models/" ++ req.Model ++
          ":generateContent?key=" ++ apiKey ∧
      (url.unreserved req.Model → url.unreserved apiKey →
        (google.httpRequest req apiKey).ParsedURL.Scheme = "https" ∧
        (google.httpRequest req apiKey).ParsedURL.Host = "generativelanguage.googleapis.com" ∧
        (google.httpRequest req apiKey).ParsedURL.Path =
          "/v1beta/models/" ++ req.Model ++ ":generateContent" ∧
        (google.httpRequest req apiKey).ParsedURL.Query "key" = [apiKey] ∧
        url.ParseQuery (google.httpRequest req apiKey).ParsedURL.RawQuery = [("key", apiKey)] ∧
        (google.httpRequest req apiKey).ParsedURL.Fragment = "") ∧
      (google.httpRequest req apiKey).Header = [("Content-Type", "application/json")] ∧
      (google.httpRequest req apiKey).Header.get? "Authorization" = none ∧
      (google.httpRequest req apiKey).Body.keys = ["contents", "generationConfig"] ∧
      (google.httpRequest req apiKey).Body.field? "contents" =
        some (.arr [.obj [("parts", .arr [.obj [("text", .str req.Prompt)]])]]) ∧
      (∃ config, (google.httpRequest req apiKey).Body.field? "generationConfig" = some config ∧
        config.field? "maxOutputTokens" = some (.int req.MaxTokens) ∧
        config.field? "temperature" = some (.num req.Temperature) ∧
        (req.Stop ≠ [] → config.field? "stopSequences" = some (.arr (req.Stop.map .str))) ∧
        (req.Stop = [] → config.field? "stopSequences" = none) ∧
        (∀ key ∈ config.keys, key ∈ ["maxOutputTokens", "stopSequences", "temperature"])) ∧
      (∀ (c : google.Client) (net : Net google.Result),
        marshalFloatErr req.Temperature = none →
        net.NewRequestErr (google.httpRequest req apiKey).URL = none →
        c.Query net req apiKey =
          match net.Do (google.httpRequest req apiKey) with
          | .sendFailed e => .error ("failed to send request: " ++ e)
          | .parseFailed e => .error ("failed to parse response: " ++ e)
          | .decoded result => google.response req result net.elapsed net.unixNano) := by
  refine ⟨rfl, rfl, ?_, ?_, ?_, rfl, ?_, ?_, ?_⟩
  · intro hm hk
    rw [google_ParsedURL req apiKey hm hk]
    refine ⟨rfl, rfl, rfl, ?_, url_ParseQuery_key apiKey hk, rfl⟩
    unfold url.URL.Query
    simp only []
    rw [url_ParseQuery_key apiKey hk]
    rfl
  · simp [google.httpRequest, GoMap.set]
  · simp [google.httpRequest, GoMap.get?, GoMap.set]
  · simp [google.httpRequest, google.requestBody, JSON.field?]
  · refine ⟨_, by simp [google.httpRequest, google.requestBody, JSON.field?]; rfl, ?_, ?_, ?_, ?_, ?_⟩
    · simp [JSON.field?]
    · by_cases h : 0 < req.Stop.length <;> simp [JSON.field?, h]
    · intro h
      have hlen : 0 < req.Stop.length := List.length_pos.2 h
      simp [JSON.field?, hlen]
    · intro h
      simp [JSON.field?, h]
    · intro key hkey
      by_cases h : 0 < req.Stop.length
      · simp [JSON.keys, h] at hkey
        rcases hkey with h1 | h1 | h1 <;> simp [h1]
      · simp [JSON.keys, h] at hkey
        rcases hkey with h1 | h1 <;> simp [h1]
  · intro c net hm hu
    simp only [google.Client.Query, Query_sends net req.Temperature _ hm hu]
    cases net.Do (google.httpRequest req apiKey) <;> rfl

/-- Witness of C14 as amended: the request built for `stopQuery` and the credential
`g-key`, and its sending on surroundings where the payload decodes. -/
theorem google_request_shape_witness :
    (google.httpRequest stopQuery "g-key").ParsedURL.Path =
        "/v1beta/models/gemini-pro:generateContent" ∧
      (google.httpRequest stopQuery "g-key").ParsedURL.Query "key" = ["g-key"] ∧
      google.NewClient.Query (decodingNet googlePayload) stopQuery "g-key" =
        google.response stopQuery googlePayload 7 1700000000000000000 :=
  have h := google_request_shape stopQuery "g-key"
  have hp := h.2.2.1 (by decide) (by decide)
  ⟨hp.2.2.1, hp.2.2.2.1, h.2.2.2.2.2.2.2.2 google.NewClient (decodingNet googlePayload) rfl rfl⟩

/-- Counterexample to C14 as stated: the model identifier `m?key=evil&x=` ends the path
of the URL at `m` and makes `evil` the value of the query parameter `key`, the credential
`g-key` being left in the value of a parameter `x`; and the credential `a&key=b`, with the
model `gemini-pro`, gives the parameter `key` the two values `a` and `b`, neither of which
is the credential. -/
theorem google_request_shape_counterexample :
    (google.httpRequest injectingQuery "g-key").ParsedURL.Path = "/v1beta/models/m" ∧
      (google.httpRequest injectingQuery "g-key").ParsedURL.Query "key" = ["evil"] ∧
      url.ParseQuery (google.httpRequest injectingQuery "g-key").ParsedURL.RawQuery =
        [("key", "evil"), ("x", ":generateContent?key=g-key")] ∧
      (google.httpRequest stopQuery "a&key=b").ParsedURL.Path =
        "/v1beta/models/gemini-pro:generateContent" ∧
      (google.httpRequest stopQuery "a&key=b").ParsedURL.Query "key" = ["a", "b"] := by
  decide

/-- C15, evaluated on the code: the Groq client puts the credential it is passed in the
`Authorization` header and the Google client puts it in the query parameter `key`, but the
OpenAI client, whose `Query` takes no credential, authenticates with the key its
constructor read from the environment: with `sk-env` in the environment its request
carries `Bearer sk-env`, while the key pool selects `sk-c` for `openai`. -/
theorem openai_ignores_selected_credential :
    (∀ req apiKey,
        (groq.httpRequest req apiKey).Header.get? "Authorization" = some ("Bearer " ++ apiKey)) ∧
      (∀ req apiKey,
        (google.httpRequest req apiKey).URL =
          "https://generativelanguage.googleapis.com/v1beta/models/" ++ req.Model ++
            ":generateContent?key=" ++ apiKey) ∧
      (∀ (c : openai.Client) req,
        (openai.httpRequest c req).Header.get? "Authorization" = some ("Bearer " ++ c.apiKey)) ∧
      (llms.GetAPIKey exampleDB none "openai").toOption.map llms.APIKey.Key = some "sk-c" ∧
      (openai.httpRequest (openai.NewClient "sk-env") exampleQuery).Header.get? "Authorization" =
        some "Bearer sk-env" := by
  refine ⟨?_, ?_, ?_, ?_, ?_⟩
  · intro req apiKey
    simp [groq.httpRequest, GoMap.get?, GoMap.set]
  · intro req apiKey
    rfl
  · intro c req
    simp [openai.httpRequest, GoMap.get?, GoMap.set]
  · decide
  · decide

namespace llms

/-! ## Forwarded metadata and error precedence -/

theorem HandleQuery_calls_client {s : Service} {env : Env} {w : World} {req : QueryRequest}
    {client : LLMClient} {model : Model} {apiKey : APIKey}
    (hb : ShouldBindJSON env.decoded = .ok req)
    (hc : s.GetClient req.Provider = .ok client)
    (hm : s.GetModel req.Model = some model)
    (hk : GetAPIKey w.db env.getKeyErr req.Provider = .ok apiKey) :
    Effect.clientQuery (llmRequest req env.project_id env.user_id) apiKey.Key ∈
      (s.HandleQuery env w).1.trace := by
  cases hq : client.Query (llmRequest req env.project_id env.user_id) apiKey.Key with
  | error e =>
    rw [HandleQuery_failure_eq hb hc hm hk hq]
    simp [metrics.RecordLLMError, World.emit]
  | ok resp =>
    by_cases hu : resp.Usage.NonNegative
    · rw [HandleQuery_success_trace hb hc hm hk hq hu]
      simp
    · obtain ⟨added, he, _⟩ :=
        @RecordTokenUsage_of_negative req.Provider req.Model resp.Usage hu
          (metrics.RecordLLMLatency req.Provider req.Model env.elapsed
            (w.emit (.clientQuery (llmRequest req env.project_id env.user_id) apiKey.Key)))
      rw [HandleQuery_panic_eq hb hc hm hk hq hu, he]
      simp [metrics.RecordLLMLatency, World.emit]

theorem llmRequest_metadata (req : QueryRequest) (project_id user_id : String) :
    (llmRequest req project_id user_id).Metadata =
      some (((callerMetadata req).set "project_id" project_id).set "user_id" user_id) := by
  unfold llmRequest callerMetadata
  cases req.Metadata <;> rfl

/-- C16: a request that `HandleQuery` forwards to the client carries a metadata map in
which `project_id` and `user_id` are bound to the values of the context, whatever the
caller put under those keys, and in which every other key is bound exactly as in the
caller's map (the empty map when the caller sent none): every entry of the caller under
another key is kept unchanged and no other entry is added. -/
theorem HandleQuery_forwards_metadata (s : Service) (env : Env) (w : World) (req : QueryRequest)
    (client : LLMClient) (model : Model) (apiKey : APIKey)
    (hb : ShouldBindJSON env.decoded = .ok req)
    (hc : s.GetClient req.Provider = .ok client)
    (hm : s.GetModel req.Model = some model)
    (hk : GetAPIKey w.db env.getKeyErr req.Provider = .ok apiKey) :
    ∃ forwarded metadata,
      Effect.clientQuery forwarded apiKey.Key ∈ (s.HandleQuery env w).1.trace ∧
      forwarded.Metadata = some metadata ∧
      metadata.get? "project_id" = some env.project_id ∧
      metadata.get? "user_id" = some env.user_id ∧
      (∀ key, key ≠ "project_id" → key ≠ "user_id" →
        metadata.get? key = (callerMetadata req).get? key) ∧
      (∀ key value, key ≠ "project_id" → key ≠ "user_id" →
        ((key, value) ∈ metadata ↔ (key, value) ∈ callerMetadata req)) := by
  refine ⟨llmRequest req env.project_id env.user_id, _, HandleQuery_calls_client hb hc hm hk,
    llmRequest_metadata req env.project_id env.user_id, ?_, ?_, ?_, ?_⟩
  · simp [GoMap_get?_set]
  · simp [GoMap_get?_set]
  · intro key h1 h2
    rw [GoMap_get?_set, GoMap_get?_set]
    simp [Ne.symm h1, Ne.symm h2]
  · intro key value h1 h2
    rw [GoMap_mem_set, GoMap_mem_set]
    simp [h1, h2]

/-- Witness of C16: the example request with caller metadata `trace` and a spoofed
`user_id`. -/
theorem HandleQuery_forwards_metadata_witness :
    ∃ forwarded metadata,
      Effect.clientQuery forwarded "gsk-a" ∈
        ((exampleService (.ok exampleResponse)).HandleQuery
          { exampleEnv none none with decoded := .ok taggedRequest } exampleWorld).1.trace ∧
      forwarded.Metadata = some metadata ∧
      metadata.get? "project_id" = some "proj-1" ∧
      metadata.get? "user_id" = some "user-1" ∧
      metadata.get? "trace" = some "t-1" :=
  have h := HandleQuery_forwards_metadata (exampleService (.ok exampleResponse))
    { exampleEnv none none with decoded := .ok taggedRequest } exampleWorld taggedRequest
    (exampleClient (.ok exampleResponse)) llama2
    { ID := 1, Provider := "groq", Key := "gsk-a", Description := "", IsActive := true,
      LastUsed := 10 }
    rfl rfl rfl rfl
  match h with
  | ⟨forwarded, metadata, h1, h2, h3, h4, h5, _⟩ =>
    ⟨forwarded, metadata, h1, h2, h3, h4,
      (h5 "trace" (by decide) (by decide)).trans (by decide)⟩

/-- What `Service.Query` does once it holds a key and a client: it calls the client
with the request it received and the secret of the key, and then only records metrics. -/
theorem Query_calls_client {s : Service} {orgID projectID : String} {req : Request}
    {getKeyErr : Option String} {elapsed : Duration} {w : World} {apiKey : APIKey}
    {client : LLMClient}
    (hk : GetAPIKey w.db getKeyErr req.Provider = .ok apiKey)
    (hc : s.GetClient req.Provider = .ok client) :
    ∃ rest, (s.Query orgID projectID req getKeyErr elapsed w).1 =
        { w with trace := w.trace ++ Effect.clientQuery req apiKey.Key :: rest } ∧
      ∀ e ∈ rest, e = Effect.llmError req.Provider req.Model ∨
        e = Effect.llmLatency req.Provider req.Model elapsed ∨
        ∃ kind count, e = Effect.llmTokens req.Provider req.Model kind count := by
  cases hq : client.Query req apiKey.Key with
  | error e =>
    refine ⟨[.llmError req.Provider req.Model], ?_, by simp⟩
    simp [Service.Query, hk, hc, hq, metrics.RecordLLMError, World.emit]
  | ok resp =>
    by_cases hu : resp.Usage.NonNegative
    · refine ⟨[.llmLatency req.Provider req.Model elapsed,
          .llmTokens req.Provider req.Model "prompt" (F64.ofInt resp.Usage.PromptTokens),
          .llmTokens req.Provider req.Model "completion"
            (F64.ofInt resp.Usage.CompletionTokens),
          .llmTokens req.Provider req.Model "total" (F64.ofInt resp.Usage.TotalTokens)], ?_, ?_⟩
      · simp [Service.Query, hk, hc, hq, RecordTokenUsage_of_nonNegative hu,
          metrics.RecordLLMLatency, World.emit]
      · intro e he
        simp only [List.mem_cons, List.mem_singleton, List.not_mem_nil, or_false] at he
        rcases he with rfl | rfl | rfl | rfl
        · exact Or.inr (Or.inl rfl)
        · exact Or.inr (Or.inr ⟨_, _, rfl⟩)
        · exact Or.inr (Or.inr ⟨_, _, rfl⟩)
        · exact Or.inr (Or.inr ⟨_, _, rfl⟩)
    · obtain ⟨added, he, _, hall⟩ :=
        @RecordTokenUsage_of_negative req.Provider req.Model resp.Usage hu
          (metrics.RecordLLMLatency req.Provider req.Model elapsed
            (w.emit (.clientQuery req apiKey.Key)))
      refine ⟨.llmLatency req.Provider req.Model elapsed :: added, ?_, ?_⟩
      · simp only [Service.Query, hk, hc, hq, he]
        simp [metrics.RecordLLMLatency, World.emit]
      · intro e hmem
        rcases List.mem_cons.1 hmem with rfl | h
        · exact Or.inr (Or.inl rfl)
        · exact Or.inr (Or.inr (hall e h))

/-- The result of `Service.Query` once it holds a key and a client: the error of the
client wrapped, or its response when the three token counts are non-negative. -/
theorem Query_result {s : Service} {orgID projectID : String} {req : Request}
    {getKeyErr : Option String} {elapsed : Duration} {w : World} {apiKey : APIKey}
    {client : LLMClient}
    (hk : GetAPIKey w.db getKeyErr req.Provider = .ok apiKey)
    (hc : s.GetClient req.Provider = .ok client) :
    (∀ e, client.Query req apiKey.Key = .error e →
        (s.Query orgID projectID req getKeyErr elapsed w).2 =
          .error ("failed to query LLM: " ++ e)) ∧
      (∀ resp, client.Query req apiKey.Key = .ok resp → resp.Usage.NonNegative →
        (s.Query orgID projectID req getKeyErr elapsed w).2 = .ok resp) ∧
      (∀ resp, client.Query req apiKey.Key = .ok resp → ¬ resp.Usage.NonNegative →
        (s.Query orgID projectID req getKeyErr elapsed w).2 =
          .panic "counter cannot decrease in value") := by
  refine ⟨?_, ?_, ?_⟩
  · intro e hq
    simp [Service.Query, hk, hc, hq]
  · intro resp hq hu
    simp [Service.Query, hk, hc, hq, RecordTokenUsage_of_nonNegative hu]
  · intro resp hq hu
    obtain ⟨added, he, _⟩ :=
      @RecordTokenUsage_of_negative req.Provider req.Model resp.Usage hu
        (metrics.RecordLLMLatency req.Provider req.Model elapsed
          (w.emit (.clientQuery req apiKey.Key)))
    simp only [Service.Query, hk, hc, hq, he]

/-- C17, as the code has it: a request that `HandleQuery` forwards to the client carries
the project and user tags under `project_id` and `user_id`, and besides them only what the
caller's own metadata binds: the organization tag of the context is not read, and changing
it changes nothing. `Service.Query` forwards the request with its metadata untouched,
whatever `orgID` and `projectID` it is given. -/
theorem forwarded_tags (s : Service) (env : Env) (w : World) (req : QueryRequest)
    (client : LLMClient) (model : Model) (apiKey : APIKey)
    (hb : ShouldBindJSON env.decoded = .ok req)
    (hc : s.GetClient req.Provider = .ok client)
    (hm : s.GetModel req.Model = some model)
    (hk : GetAPIKey w.db env.getKeyErr req.Provider = .ok apiKey) :
    (∃ forwarded metadata,
      Effect.clientQuery forwarded apiKey.Key ∈ (s.HandleQuery env w).1.trace ∧
      forwarded.Metadata = some metadata ∧
      metadata.get? "project_id" = some env.project_id ∧
      metadata.get? "user_id" = some env.user_id ∧
      (∀ key value, metadata.get? key = some value →
        key = "project_id" ∨ key = "user_id" ∨ (callerMetadata req).get? key = some value)) ∧
      (∀ organization_id,
        s.HandleQuery { env with organization_id := organization_id } w = s.HandleQuery env w) ∧
      (∀ orgID projectID (query : Request) elapsed, query.Provider = req.Provider →
        Effect.clientQuery query apiKey.Key ∈
          (s.Query orgID projectID query env.getKeyErr elapsed w).1.trace) := by
  refine ⟨⟨llmRequest req env.project_id env.user_id, _, HandleQuery_calls_client hb hc hm hk,
    llmRequest_metadata req env.project_id env.user_id, ?_, ?_, ?_⟩, fun _ => rfl, ?_⟩
  · simp [GoMap_get?_set]
  · simp [GoMap_get?_set]
  · intro key value hget
    rw [GoMap_get?_set, GoMap_get?_set] at hget
    by_cases h1 : "user_id" = key
    · exact Or.inr (Or.inl h1.symm)
    · by_cases h2 : "project_id" = key
      · exact Or.inl h2.symm
      · simp only [h1, h2, if_false] at hget
        exact Or.inr (Or.inr hget)
  · intro orgID projectID query elapsed hp
    rw [← hp] at hk hc
    obtain ⟨rest, hw, _⟩ := @Query_calls_client s orgID projectID query env.getKeyErr elapsed w
      apiKey client hk hc
    rw [hw]
    simp

/-- Witness of C17 as amended: the example request, forwarded with the two tags only. -/
theorem forwarded_tags_witness :
    (∃ forwarded metadata,
      Effect.clientQuery forwarded "gsk-a" ∈
        ((exampleService (.ok exampleResponse)).HandleQuery (exampleEnv none none)
          exampleWorld).1.trace ∧
      forwarded.Metadata = some metadata ∧
      metadata.get? "project_id" = some "proj-1" ∧
      metadata.get? "user_id" = some "user-1") ∧
      Effect.clientQuery exampleQuery "gsk-a" ∈
        ((exampleService (.ok exampleResponse)).Query "org-1" "proj-1" exampleQuery none 7
          exampleWorld).1.trace :=
  have h := forwarded_tags (exampleService (.ok exampleResponse)) (exampleEnv none none)
    exampleWorld exampleRequest (exampleClient (.ok exampleResponse)) llama2
    { ID := 1, Provider := "groq", Key := "gsk-a", Description := "", IsActive := true,
      LastUsed := 10 }
    rfl rfl rfl rfl
  match h with
  | ⟨⟨forwarded, metadata, h1, h2, h3, h4, _⟩, _, h6⟩ =>
    ⟨⟨forwarded, metadata, h1, h2, h3, h4⟩, h6 "org-1" "proj-1" exampleQuery 7 rfl⟩

/-- Counterexample to C17 as stated: the example request is made in a context whose
organization is `org-1`; the request that reaches the client carries the metadata
`project_id`, `user_id` and nothing else, and `Service.Query`, called for `org-1`, forwards
a request without any metadata. -/
theorem forwarded_tags_counterexample :
    (exampleEnv none none).organization_id = "org-1" ∧
      ((exampleService (.ok exampleResponse)).HandleQuery (exampleEnv none none)
        exampleWorld).1.trace.head? =
        some (.clientQuery
          { Provider := "groq", Model := "llama2-70b-4096", Prompt := "hi", MaxTokens := 16,
            Temperature := F64.ofRatio 1 2, Stop := [], Stream := false,
            Metadata := some [("project_id", "proj-1"), ("user_id", "user-1")] } "gsk-a") ∧
      ((exampleService (.ok exampleResponse)).Query "org-1" "proj-1" exampleQuery none 7
        exampleWorld).1.trace.head? = some (.clientQuery exampleQuery "gsk-a") ∧
      exampleQuery.Metadata = none := by
  refine ⟨rfl, by decide, by decide, rfl⟩

/-- C18, as the code has it: `Service.Query` acquires a credential before it resolves the
client. For a request whose provider has no registered client it leaves the world as it
was and returns the provider-not-supported error when `GetAPIKey` returns a key for the
provider, and the error `failed to get API key` when `GetAPIKey` fails, as it does when the
store holds no active key for the provider. -/
theorem Query_unregistered_provider (s : Service) (orgID projectID : String) (req : Request)
    (getKeyErr : Option String) (elapsed : Duration) (w : World)
    (hnone : s.clients.get? req.Provider = none) :
    (s.Query orgID projectID req getKeyErr elapsed w).1 = w ∧
      (∀ apiKey, GetAPIKey w.db getKeyErr req.Provider = .ok apiKey →
        (s.Query orgID projectID req getKeyErr elapsed w).2 =
          .error ("provider " ++ req.Provider ++ " not supported")) ∧
      (∀ e, GetAPIKey w.db getKeyErr req.Provider = .error e →
        (s.Query orgID projectID req getKeyErr elapsed w).2 =
          .error ("failed to get API key: " ++ e)) ∧
      ((∀ k ∈ w.db.api_keys, k.Provider = req.Provider → k.IsActive = false) →
        getKeyErr = none →
        (s.Query orgID projectID req getKeyErr elapsed w).2 =
          .error "failed to get API key: record not found") := by
  have hc : s.GetClient req.Provider = .error ("provider " ++ req.Provider ++ " not supported") := by
    simp only [Service.GetClient, hnone]
  refine ⟨?_, ?_, ?_, ?_⟩
  · cases hk : GetAPIKey w.db getKeyErr req.Provider <;> simp only [Service.Query, hk, hc]
  · intro apiKey hk
    simp only [Service.Query, hk, hc]
  · intro e hk
    simp only [Service.Query, hk]
  · intro hk herr
    subst herr
    simp only [Service.Query, GetAPIKey_record_not_found hk]
    rfl

/-- Witness of C18 as amended: a fresh service, with and without an active Groq key. -/
theorem Query_unregistered_provider_witness :
    (NewService.Query "org-1" "proj-1" exampleQuery none 7 exampleWorld).2 =
        .error "provider groq not supported" ∧
      (NewService.Query "org-1" "proj-1" exampleQuery none 7 noGroqKeyWorld).2 =
        .error "failed to get API key: record not found" :=
  ⟨(Query_unregistered_provider NewService "org-1" "proj-1" exampleQuery none 7 exampleWorld
      rfl).2.1
      { ID := 1, Provider := "groq", Key := "gsk-a", Description := "", IsActive := true,
        LastUsed := 10 } rfl,
   (Query_unregistered_provider NewService "org-1" "proj-1" exampleQuery none 7 noGroqKeyWorld
      rfl).2.2.2 (by decide) rfl⟩

/-- Counterexample to C18 as stated: on a fresh service, which has no client for `groq`,
and a store without an active Groq key, `Service.Query` returns the error of the key
lookup and not the provider-not-supported error. -/
theorem Query_unregistered_provider_counterexample :
    NewService.clients.get? exampleQuery.Provider = none ∧
      NewService.Query "org-1" "proj-1" exampleQuery none 7 noGroqKeyWorld =
        (noGroqKeyWorld, .error "failed to get API key: record not found") := by
  refine ⟨rfl, rfl⟩

theorem ShouldBindJSON_incomplete {decoded : Except String QueryRequest} {req : QueryRequest}
    (hd : decoded = .ok req) (h : req.Provider = "" ∨ req.Model = "" ∨ req.Prompt = "") :
    ∃ e, ShouldBindJSON decoded = .error e := by
  subst hd
  unfold ShouldBindJSON
  by_cases h1 : req.Provider = "" <;> by_cases h2 : req.Model = "" <;>
    by_cases h3 : req.Prompt = "" <;> simp [h1, h2, h3] at h ⊢

theorem ShouldBindJSON_error {decoded : Except String QueryRequest} {e : String}
    (hd : decoded = .error e) : ShouldBindJSON decoded = .error e := by
  subst hd
  rfl

/-- C19, as the code has it: `HandleQuery` answers with status 200, 400 or 500 and
nothing else. The status is 400 exactly when the body does not bind (it does not decode, or
a required field is empty), or the provider has no registered client, or the model is not
in the index; a 200 is answered only after a successful call of the client, with its
response as the body. When the token counts of a successful response of the client are
non-negative, every answer other than 200 has an error message as its body, the status is
500 exactly when the three checks pass and either `GetAPIKey` fails or the call of the
client fails, and it is 200 exactly when the call of the client succeeded. -/
theorem HandleQuery_status (s : Service) (env : Env) (w : World) :
    ((s.HandleQuery env w).2.status = 200 ∨ (s.HandleQuery env w).2.status = 400 ∨
        (s.HandleQuery env w).2.status = 500) ∧
      ((s.HandleQuery env w).2.status = 400 ↔
        (∃ e, ShouldBindJSON env.decoded = .error e) ∨
        ∃ req, ShouldBindJSON env.decoded = .ok req ∧
          (s.clients.get? req.Provider = none ∨ s.GetModel req.Model = none)) ∧
      ((s.HandleQuery env w).2.status = 200 →
        ∃ req client model apiKey resp, ShouldBindJSON env.decoded = .ok req ∧
          s.clients.get? req.Provider = some client ∧ s.GetModel req.Model = some model ∧
          GetAPIKey w.db env.getKeyErr req.Provider = .ok apiKey ∧
          client.Query (llmRequest req env.project_id env.user_id) apiKey.Key = .ok resp ∧
          (s.HandleQuery env w).2.body = .response resp) ∧
      (∀ e, env.decoded = .error e → (s.HandleQuery env w).2 = ⟨400, .error e⟩) ∧
      (∀ req, env.decoded = .ok req →
        (req.Provider = "" ∨ req.Model = "" ∨ req.Prompt = "") →
        (s.HandleQuery env w).2.status = 400) ∧
      ((∀ req client apiKey resp, ShouldBindJSON env.decoded = .ok req →
          s.clients.get? req.Provider = some client →
          GetAPIKey w.db env.getKeyErr req.Provider = .ok apiKey →
          client.Query (llmRequest req env.project_id env.user_id) apiKey.Key = .ok resp →
          resp.Usage.NonNegative) →
        ((s.HandleQuery env w).2.status ≠ 200 →
          ∃ msg, (s.HandleQuery env w).2.body = .error msg) ∧
        ((s.HandleQuery env w).2.status = 500 ↔
          ∃ req client model, ShouldBindJSON env.decoded = .ok req ∧
            s.clients.get? req.Provider = some client ∧ s.GetModel req.Model = some model ∧
            ((∃ e, GetAPIKey w.db env.getKeyErr req.Provider = .error e) ∨
              ∃ apiKey e, GetAPIKey w.db env.getKeyErr req.Provider = .ok apiKey ∧
                client.Query (llmRequest req env.project_id env.user_id) apiKey.Key =
                  .error e)) ∧
        ((s.HandleQuery env w).2.status = 200 ↔
          ∃ req client model apiKey resp, ShouldBindJSON env.decoded = .ok req ∧
            s.clients.get? req.Provider = some client ∧ s.GetModel req.Model = some model ∧
            GetAPIKey w.db env.getKeyErr req.Provider = .ok apiKey ∧
            client.Query (llmRequest req env.project_id env.user_id) apiKey.Key = .ok resp ∧
            (s.HandleQuery env w).2.body = .response resp)) := by
  have hlast : (∀ e, env.decoded = .error e → (s.HandleQuery env w).2 = ⟨400, .error e⟩) ∧
      (∀ req, env.decoded = .ok req →
        (req.Provider = "" ∨ req.Model = "" ∨ req.Prompt = "") →
        (s.HandleQuery env w).2.status = 400) := by
    constructor
    · intro e hd
      simp only [Service.HandleQuery, ShouldBindJSON_error hd]
    · intro req hd hreq
      obtain ⟨e, he⟩ := ShouldBindJSON_incomplete hd hreq
      simp only [Service.HandleQuery, he]
  refine ⟨?_, ?_, ?_, hlast.1, hlast.2, ?_⟩
  iterate 3
    (cases hb : ShouldBindJSON env.decoded with
    | error e =>
      have h : s.HandleQuery env w = (w, ⟨400, .error e⟩) := by
        simp only [Service.HandleQuery, hb]
      rw [h]
      simp
    | ok req =>
      cases hg : s.clients.get? req.Provider with
      | none =>
        have h : s.HandleQuery env w =
            (w, ⟨400, .error ("provider " ++ req.Provider ++ " not supported")⟩) := by
          simp only [Service.HandleQuery, hb, GetClient_of_get?_none hg]
        rw [h]
        simp [hg]
      | some client =>
        have hc := GetClient_of_get? hg
        cases hm : s.GetModel req.Model with
        | none =>
          have h : s.HandleQuery env w = (w, ⟨400, .error "invalid model"⟩) := by
            simp only [Service.HandleQuery, hb, hc, hm]
          rw [h]
          simp [hg, hm]
        | some model =>
          cases hk : GetAPIKey w.db env.getKeyErr req.Provider with
          | error e =>
            have h : s.HandleQuery env w = (w, ⟨500, .error "no API key available"⟩) := by
              simp only [Service.HandleQuery, hb, hc, hm, hk]
            rw [h]
            simp [hg, hm, hk]
          | ok apiKey =>
            cases hq : client.Query (llmRequest req env.project_id env.user_id) apiKey.Key with
            | error e =>
              rw [HandleQuery_failure_eq hb hc hm hk hq]
              simp [hg, hm, hk, hq]
            | ok resp =>
              by_cases hnn : resp.Usage.NonNegative
              · rw [HandleQuery_success_eq hb hc hm hk hq hnn]
                simp [hg, hm, hk, hq]
              · rw [HandleQuery_panic_eq hb hc hm hk hq hnn]
                simp [hg, hm, hk, hq])
  intro hu
  refine ⟨?_, ?_, ?_⟩ <;>
  (cases hb : ShouldBindJSON env.decoded with
  | error e =>
    have h : s.HandleQuery env w = (w, ⟨400, .error e⟩) := by
      simp only [Service.HandleQuery, hb]
    rw [h]
    simp
  | ok req =>
    cases hg : s.clients.get? req.Provider with
    | none =>
      have h : s.HandleQuery env w =
          (w, ⟨400, .error ("provider " ++ req.Provider ++ " not supported")⟩) := by
        simp only [Service.HandleQuery, hb, GetClient_of_get?_none hg]
      rw [h]
      simp [hg]
    | some client =>
      have hc := GetClient_of_get? hg
      cases hm : s.GetModel req.Model with
      | none =>
        have h : s.HandleQuery env w = (w, ⟨400, .error "invalid model"⟩) := by
          simp only [Service.HandleQuery, hb, hc, hm]
        rw [h]
        simp [hg, hm]
      | some model =>
        cases hk : GetAPIKey w.db env.getKeyErr req.Provider with
        | error e =>
          have h : s.HandleQuery env w = (w, ⟨500, .error "no API key available"⟩) := by
            simp only [Service.HandleQuery, hb, hc, hm, hk]
          rw [h]
          simp [hg, hm, hk]
        | ok apiKey =>
          cases hq : client.Query (llmRequest req env.project_id env.user_id) apiKey.Key with
          | error e =>
            rw [HandleQuery_failure_eq hb hc hm hk hq]
            simp [hg, hm, hk, hq]
          | ok resp =>
            rw [HandleQuery_success_eq hb hc hm hk hq (hu req client apiKey resp hb hg hk hq)]
            simp [hg, hm, hk, hq])

/-- Witness of C19 as amended: the example request is answered 200 when the call of the
client succeeds with the example response, whose token counts are 10, 5 and 15, and a body
without prompt is answered 400. -/
theorem HandleQuery_status_witness :
    ((exampleService (.ok exampleResponse)).HandleQuery (exampleEnv none none)
        exampleWorld).2.status = 200 ∧
      ((exampleService (.ok exampleResponse)).HandleQuery
        { exampleEnv none none with decoded := .ok incompleteRequest } exampleWorld).2.status =
        400 :=
  ⟨((HandleQuery_status (exampleService (.ok exampleResponse)) (exampleEnv none none)
      exampleWorld).2.2.2.2.2 (by
        intro req client apiKey resp _ hg _ hq
        have hcl : client = exampleClient (.ok exampleResponse) := by
          simp only [exampleService, Service.RegisterClient, NewService, GoMap_get?_set] at hg
          split at hg
          · exact (Option.some.inj hg).symm
          · cases hg
        subst hcl
        cases hq
        decide)).2.2.2
      ⟨exampleRequest, exampleClient (.ok exampleResponse), llama2,
        { ID := 1, Provider := "groq", Key := "gsk-a", Description := "", IsActive := true,
          LastUsed := 10 }, exampleResponse, rfl, rfl, rfl, rfl, rfl, rfl⟩,
   (HandleQuery_status (exampleService (.ok exampleResponse))
      { exampleEnv none none with decoded := .ok incompleteRequest } exampleWorld).2.2.2.2.1
      incompleteRequest rfl (Or.inr (Or.inr rfl))⟩

/-- Counterexample to C19 as stated: the upstream call of the example request, made by
the Groq client, succeeds with a response whose total count, taken from the payload, is
-15. The handler panics when it adds that count to the token counter, after the additions
for the prompt and the completion: the answer is status 500 without payload, which is no
error message, and it follows a successful upstream call. -/
theorem HandleQuery_status_counterexample :
    (∃ resp, (groq.NewClient.asLLMClient (decodingNet negativeTotalPayload)).Query
        (llmRequest exampleRequest "proj-1" "user-1") "gsk-a" = .ok resp) ∧
      ((groqService negativeTotalPayload).HandleQuery (exampleEnv none none) exampleWorld).2 =
        ⟨500, .empty⟩ ∧
      (∀ msg, ((groqService negativeTotalPayload).HandleQuery (exampleEnv none none)
        exampleWorld).2.body ≠ .error msg) ∧
      ((groqService negativeTotalPayload).HandleQuery (exampleEnv none none)
        exampleWorld).1.trace =
        [.clientQuery (llmRequest exampleRequest "proj-1" "user-1") "gsk-a",
         .llmLatency "groq" "llama2-70b-4096" 7,
         .llmTokens "groq" "llama2-70b-4096" "prompt" (F64.ofInt 10),
         .llmTokens "groq" "llama2-70b-4096" "completion" (F64.ofInt 5)] := by
  have h : ((groqService negativeTotalPayload).HandleQuery (exampleEnv none none)
      exampleWorld).2 = ⟨500, .empty⟩ := by decide
  refine ⟨⟨_, rfl⟩, h, ?_, by decide⟩
  intro msg hmsg
  rw [h] at hmsg
  cases hmsg

/-! ## Determinism of the key selection -/

theorem activeKeys_head_keyOrder {db : DB} {provider : types.Provider} {k : APIKey}
    (h : (activeKeys db provider).head? = some k) :
    ∀ other ∈ activeKeys db provider, keyOrder k other := by
  haveI : IsTotal APIKey keyOrder := ⟨keyOrder_total⟩
  haveI : IsTrans APIKey keyOrder := ⟨keyOrder_trans⟩
  have hs : List.Sorted keyOrder (activeKeys db provider) := by
    unfold activeKeys
    exact List.sorted_insertionSort keyOrder _
  intro other ho
  cases hl : activeKeys db provider with
  | nil => rw [hl] at h; simp at h
  | cons a t =>
    rw [hl] at h hs ho
    simp only [List.head?_cons, Option.some.injEq] at h
    subst h
    rcases List.mem_cons.1 ho with rfl | hmem
    · exact (keyOrder_total _ _).elim id id
    · exact List.rel_of_sorted_cons hs other hmem

theorem keyOrder_antisymm_id {a b : APIKey} (hab : keyOrder a b) (hba : keyOrder b a) :
    a.LastUsed = b.LastUsed ∧ a.ID = b.ID := by
  have key : ∀ (x y : Int) (m n : Nat), (x < y ∨ (x = y ∧ m ≤ n)) →
      (y < x ∨ (y = x ∧ n ≤ m)) → x = y ∧ m = n := by omega
  exact key a.LastUsed b.LastUsed a.ID b.ID hab hba

theorem activeKeys_head_perm {db db' : DB} {provider : types.Provider}
    (hperm : db'.api_keys.Perm db.api_keys) (hids : (db.api_keys.map APIKey.ID).Nodup) :
    (activeKeys db' provider).head? = (activeKeys db provider).head? := by
  have hmem : ∀ k, k ∈ activeKeys db' provider ↔ k ∈ activeKeys db provider := by
    intro k
    rw [mem_activeKeys, mem_activeKeys, hperm.mem_iff]
  cases h : (activeKeys db provider).head? with
  | none =>
    have hnil : activeKeys db provider = [] := List.head?_eq_none_iff.1 h
    cases h' : activeKeys db' provider with
    | nil => rfl
    | cons a t =>
      have : a ∈ activeKeys db provider := (hmem a).1 (by rw [h']; exact List.mem_cons_self a t)
      rw [hnil] at this
      cases this
  | some k =>
    have hk : k ∈ activeKeys db provider := List.mem_of_mem_head? h
    cases h' : (activeKeys db' provider).head? with
    | none =>
      have hnil : activeKeys db' provider = [] := List.head?_eq_none_iff.1 h'
      have := (hmem k).2 hk
      rw [hnil] at this
      cases this
    | some k' =>
      have hk' : k' ∈ activeKeys db' provider := List.mem_of_mem_head? h'
      have h1 := activeKeys_head_keyOrder h k' ((hmem k').1 hk')
      have h2 := activeKeys_head_keyOrder h' k ((hmem k).2 hk)
      have hid := (keyOrder_antisymm_id h1 h2).2
      have hkdb := (mem_activeKeys.1 hk).1
      have hk'db := (mem_activeKeys.1 ((hmem k').1 hk')).1
      rw [List.inj_on_of_nodup_map hids hkdb hk'db hid]

/-- C20: `GetAPIKey` is a function of the key store, the provider and the answer of the
database, and the key it returns has, among the active keys of the provider with the same
`last_used`, the least id; with ids that are unique, as a primary key is, the key returned
is the same for every storage order of the same rows. -/
theorem GetAPIKey_deterministic (db : DB) (provider : types.Provider) (dbErr : Option String) :
    (∀ key, GetAPIKey db dbErr provider = .ok key →
      ∀ other ∈ db.api_keys, other.Provider = provider → other.IsActive = true →
        other.LastUsed = key.LastUsed → key.ID ≤ other.ID) ∧
      (∀ key key', GetAPIKey db dbErr provider = .ok key →
        GetAPIKey db dbErr provider = .ok key' → key = key') ∧
      (∀ db' : DB, db'.api_keys.Perm db.api_keys → (db.api_keys.map APIKey.ID).Nodup →
        GetAPIKey db' dbErr provider = GetAPIKey db dbErr provider) := by
  refine ⟨?_, ?_, ?_⟩
  · intro key hkey other ho hp ha hl
    obtain ⟨_, hh⟩ := GetAPIKey_ok_iff.1 hkey
    have hord := activeKeys_head_keyOrder hh other (mem_activeKeys.2 ⟨ho, hp, ha⟩)
    have key_le : ∀ (x y : Int) (m n : Nat), (x < y ∨ (x = y ∧ m ≤ n)) → y = x → m ≤ n := by
      omega
    exact key_le key.LastUsed other.LastUsed key.ID other.ID hord hl
  · intro key key' h1 h2
    rw [h1] at h2
    exact Except.ok.inj h2
  · intro db' hperm hids
    unfold GetAPIKey
    rw [activeKeys_head_perm hperm hids]

/-- Witness of C20: in `tiedKeys` the keys 7 and 5 share the least `last_used`; key 5 is
returned, also when the rows are stored in the reverse order. -/
theorem GetAPIKey_deterministic_witness :
    GetAPIKey ⟨tiedKeys, []⟩ none "groq" =
        .ok { ID := 5, Provider := "groq", Key := "gsk-e", Description := "", IsActive := true,
              LastUsed := 10 } ∧
      GetAPIKey ⟨tiedKeys.reverse, []⟩ none "groq" = GetAPIKey ⟨tiedKeys, []⟩ none "groq" :=
  ⟨rfl, (GetAPIKey_deterministic ⟨tiedKeys, []⟩ "groq" none).2.2 ⟨tiedKeys.reverse, []⟩
    (List.reverse_perm tiedKeys) (by decide)⟩

/-! ## Marking a key as used -/

/-- The effects `HandleQuery` adds to the trace: none when the request is rejected before
the call of the client, and otherwise the call, followed by the error observation or by
the observations and the two accounting calls for the acquired key. -/
theorem UpdateAPIKeyLastUsed_rows (keyID : Nat) (now : Time) (dbErr : Option String) (w : World) :
    (UpdateAPIKeyLastUsed keyID now dbErr w).1.db.api_keys =
      match dbErr with
      | some _ => w.db.api_keys
      | none => w.db.api_keys.map
          (fun k => if k.ID = keyID then { k with LastUsed := now } else k) := by
  cases dbErr <;> simp [UpdateAPIKeyLastUsed, World.emit]

/-- C21: whatever the key store, the key id and the instant, `UpdateAPIKeyLastUsed` leaves
the usage ledger as it was and keeps every row of the key store in place with its id,
provider, secret, description and active flag; the rows with another id keep their
`last_used`, and the rows with the given id have `last_used` equal to `now` once the
database has accepted the update (when it reports an error, that error is returned and
nothing changes). `HandleQuery` makes the call only with the id of the key it acquired
and only after the call of the client succeeded. -/
theorem UpdateAPIKeyLastUsed_frame (keyID : Nat) (now : Time) (dbErr : Option String)
    (w : World) :
    (UpdateAPIKeyLastUsed keyID now dbErr w).1.db.key_usages = w.db.key_usages ∧
      List.Forall₂
        (fun k k' : APIKey => k'.ID = k.ID ∧ k'.Provider = k.Provider ∧ k'.Key = k.Key ∧
          k'.Description = k.Description ∧ k'.IsActive = k.IsActive ∧
          (k.ID ≠ keyID → k'.LastUsed = k.LastUsed) ∧
          (k.ID = keyID → dbErr = none → k'.LastUsed = now))
        w.db.api_keys (UpdateAPIKeyLastUsed keyID now dbErr w).1.db.api_keys ∧
      (dbErr = none → (UpdateAPIKeyLastUsed keyID now dbErr w).2 = none) ∧
      (∀ e, dbErr = some e →
        (UpdateAPIKeyLastUsed keyID now dbErr w).2 = some e ∧
        (UpdateAPIKeyLastUsed keyID now dbErr w).1.db = w.db) ∧
      (∀ (s : Service) (env : Env) (id : Nat),
        Effect.updateAPIKeyLastUsed id ∈ (s.HandleQuery env w).1.trace.drop w.trace.length →
        ∃ req client model apiKey resp, ShouldBindJSON env.decoded = .ok req ∧
          s.clients.get? req.Provider = some client ∧ s.GetModel req.Model = some model ∧
          GetAPIKey w.db env.getKeyErr req.Provider = .ok apiKey ∧
          client.Query (llmRequest req env.project_id env.user_id) apiKey.Key = .ok resp ∧
          id = apiKey.ID) := by
  refine ⟨?_, ?_, ?_, ?_, ?_⟩
  · cases dbErr <;> simp [UpdateAPIKeyLastUsed, World.emit]
  · rw [UpdateAPIKeyLastUsed_rows]
    cases dbErr with
    | some e =>
      rw [List.forall₂_same]
      intro k _
      simp
    | none =>
      simp only
      rw [List.forall₂_map_right_iff, List.forall₂_same]
      intro k _
      by_cases h : k.ID = keyID <;> simp [h]
  · intro h
    subst h
    rfl
  · intro e h
    subst h
    exact ⟨rfl, rfl⟩
  · intro s env id hmem
    rcases HandleQuery_new_effects s env w with h | ⟨req, client, model, apiKey, hb, hg, hm, hk, h⟩
    · rw [h] at hmem
      simp at hmem
    · rcases h with ⟨e, _, ht⟩ | ⟨resp, hq, ⟨_, added, ht, hall⟩ | ⟨_, ht⟩⟩
      · rw [ht, List.drop_left] at hmem
        simp at hmem
      · rw [ht] at hmem
        simp only [List.append_assoc, List.drop_left] at hmem
        simp only [List.mem_append, List.mem_cons, List.mem_singleton, List.not_mem_nil,
          or_false, false_or, reduceCtorEq] at hmem
        obtain ⟨kind, count, hk2⟩ := hall _ hmem
        cases hk2
      · refine ⟨req, client, model, apiKey, resp, hb, hg, hm, hk, hq, ?_⟩
        rw [ht] at hmem
        simp only [List.append_assoc, List.drop_left] at hmem
        cases hr : env.recordErr <;> cases hu : env.updateErr <;>
          simp [hr, hu] at hmem <;> exact hmem

/-- Witness of C21: the key 1 of `exampleKeys` marked as used at instant 99, and the call
`HandleQuery` makes on the example request. -/
theorem UpdateAPIKeyLastUsed_frame_witness :
    (UpdateAPIKeyLastUsed 1 99 none exampleWorld).1.db.api_keys =
        [ { ID := 2, Provider := "groq", Key := "gsk-b", Description := "", IsActive := true,
            LastUsed := 20 },
          { ID := 1, Provider := "groq", Key := "gsk-a", Description := "", IsActive := true,
            LastUsed := 99 },
          { ID := 3, Provider := "openai", Key := "sk-c", Description := "", IsActive := true,
            LastUsed := 5 },
          { ID := 4, Provider := "groq", Key := "gsk-d", Description := "", IsActive := false,
            LastUsed := 1 } ] ∧
      (UpdateAPIKeyLastUsed 1 99 none exampleWorld).2 = none ∧
      ∃ req client model apiKey resp,
        ShouldBindJSON (exampleEnv none none).decoded = .ok req ∧
        (exampleService (.ok exampleResponse)).clients.get? req.Provider = some client ∧
        (exampleService (.ok exampleResponse)).GetModel req.Model = some model ∧
        GetAPIKey exampleWorld.db (exampleEnv none none).getKeyErr req.Provider = .ok apiKey ∧
        client.Query (llmRequest req (exampleEnv none none).project_id
          (exampleEnv none none).user_id) apiKey.Key = .ok resp ∧
        1 = apiKey.ID :=
  have h := UpdateAPIKeyLastUsed_frame 1 99 none exampleWorld
  ⟨by decide, h.2.2.1 rfl,
    h.2.2.2.2 (exampleService (.ok exampleResponse)) (exampleEnv none none) 1 (by decide)⟩

end llms

namespace auth

/-! ## The auth gate -/

/-- C22: outside development mode, when the `Authorization` header is empty, or does not
split at spaces into exactly two parts of which the first is `Bearer`, or carries a token
that `verifyClerkToken` rejects, the middleware writes a 401 answer with an error message,
aborts, records one API error and does nothing else: the context keeps the keys it had (no
user, organization or project identifier is set) and `c.Next()` is not called, so the
result is the same whatever the rest of the chain is; on the query route the world is
left with that one observation added, and the key store, the ledger and the clients are
not touched. -/
theorem AuthMiddleware_rejects (a : Service) (ENV authHeader : String)
    (clerk : String → String → ClerkAnswer)
    (hmode : ENV ≠ "development")
    (hbad : authHeader = "" ∨ (strings.Split authHeader ' ').length ≠ 2 ∨
      (strings.Split authHeader ' ').getD 0 "" ≠ "Bearer" ∨
      ∃ e, a.verifyClerkToken clerk ((strings.Split authHeader ' ').getD 1 "") = .error e) :
    ∃ msg,
      (∀ next c w, a.AuthMiddleware ENV authHeader clerk next c w =
        ({ c with written := some ⟨401, .error msg⟩, aborted := true },
          w.emit (.apiError "auth" "GET" 401))) ∧
      (∀ (s : llms.Service) env w, queryRoute a s ENV authHeader clerk env w =
        ({ keys := [], aborted := true, written := some ⟨401, .error msg⟩ },
          { db := w.db, trace := w.trace ++ [.apiError "auth" "GET" 401] })) := by
  have hroute : ∀ msg,
      (∀ next c w, a.AuthMiddleware ENV authHeader clerk next c w =
        ({ c with written := some ⟨401, .error msg⟩, aborted := true },
          w.emit (.apiError "auth" "GET" 401))) →
      (∀ (s : llms.Service) env w, queryRoute a s ENV authHeader clerk env w =
        ({ keys := [], aborted := true, written := some ⟨401, .error msg⟩ },
          { db := w.db, trace := w.trace ++ [.apiError "auth" "GET" 401] })) := by
    intro msg h s env w
    unfold queryRoute
    rw [h]
    rfl
  by_cases h1 : authHeader = ""
  · refine ⟨"missing authorization header", ?_, ?_⟩
    · intro next c w
      simp only [Service.AuthMiddleware, hmode, h1, if_false, if_true]
      rfl
    · apply hroute
      intro next c w
      simp only [Service.AuthMiddleware, hmode, h1, if_false, if_true]
      rfl
  · by_cases h2 : (strings.Split authHeader ' ').length ≠ 2 ∨
        (strings.Split authHeader ' ').getD 0 "" ≠ "Bearer"
    · have hmw : ∀ next c w, a.AuthMiddleware ENV authHeader clerk next c w =
          ({ c with written := some ⟨401, .error "invalid authorization header format"⟩,
                    aborted := true },
            w.emit (.apiError "auth" "GET" 401)) := by
        intro next c w
        simp only [Service.AuthMiddleware, hmode, h1, h2, if_false, if_true]
        rfl
      exact ⟨_, hmw, hroute _ hmw⟩
    · have hver : ∃ e, a.verifyClerkToken clerk ((strings.Split authHeader ' ').getD 1 "") =
          .error e := by
        rcases hbad with h | h | h | h
        · exact absurd h h1
        · exact absurd (Or.inl h) h2
        · exact absurd (Or.inr h) h2
        · exact h
      obtain ⟨e, he⟩ := hver
      have hmw : ∀ next c w, a.AuthMiddleware ENV authHeader clerk next c w =
          ({ c with written := some ⟨401, .error "invalid token"⟩, aborted := true },
            w.emit (.apiError "auth" "GET" 401)) := by
        intro next c w
        simp only [Service.AuthMiddleware, hmode, h1, h2, he, if_false]
        rfl
      exact ⟨_, hmw, hroute _ hmw⟩

/-- Witness of C22: a header with the wrong scheme, and a bearer token that Clerk rejects. -/
theorem AuthMiddleware_rejects_witness :
    (∃ msg, ∀ (s : llms.Service) env w,
        queryRoute ⟨"sk_clerk"⟩ s "production" "Basic dXNlcg==" acceptingClerk env w =
          ({ keys := [], aborted := true, written := some ⟨401, .error msg⟩ },
            { db := w.db, trace := w.trace ++ [.apiError "auth" "GET" 401] })) ∧
      (∃ msg, ∀ (s : llms.Service) env w,
        queryRoute ⟨"sk_clerk"⟩ s "production" "Bearer tok" denyingClerk env w =
          ({ keys := [], aborted := true, written := some ⟨401, .error msg⟩ },
            { db := w.db, trace := w.trace ++ [.apiError "auth" "GET" 401] })) :=
  ⟨match AuthMiddleware_rejects ⟨"sk_clerk"⟩ "production" "Basic dXNlcg==" acceptingClerk
      (by decide) (Or.inr (Or.inr (Or.inl (by decide)))) with
    | ⟨msg, _, h⟩ => ⟨msg, h⟩,
   match AuthMiddleware_rejects ⟨"sk_clerk"⟩ "production" "Bearer tok" denyingClerk
      (by decide) (Or.inr (Or.inr (Or.inr ⟨"token verification failed: 401 Unauthorized", rfl⟩))) with
    | ⟨msg, _, h⟩ => ⟨msg, h⟩⟩

end auth

namespace llms

/-! ## The programmatic entry point -/

/-- C24: on every path `Service.Query` leaves the database as it was (every `last_used`
and the usage ledger), and the effects it adds contain no call of `RecordAPIKeyUsage` or
`UpdateAPIKeyLastUsed`. When `GetAPIKey` returns a key and the provider has a client, it
calls that client exactly once, with the request it received, metadata included, and the
secret of the key, and returns what the client answers: its response (the token counts
being non-negative) or its error, wrapped. Its outcome is the same whatever the model index
holds and whatever `orgID` and `projectID` it is given; no request other than the one it
received reaches a client. -/
theorem Query_frame (s : Service) (orgID projectID : String) (req : Request)
    (getKeyErr : Option String) (elapsed : Duration) (w : World) :
    (s.Query orgID projectID req getKeyErr elapsed w).1.db = w.db ∧
      (∃ added, (s.Query orgID projectID req getKeyErr elapsed w).1.trace = w.trace ++ added ∧
        (∀ forwarded key, Effect.clientQuery forwarded key ∈ added → forwarded = req) ∧
        (∀ id usage c, Effect.recordAPIKeyUsage id usage c ∉ added) ∧
        (∀ id, Effect.updateAPIKeyLastUsed id ∉ added)) ∧
      (∀ apiKey client, GetAPIKey w.db getKeyErr req.Provider = .ok apiKey →
        s.GetClient req.Provider = .ok client →
        (∃ rest, (s.Query orgID projectID req getKeyErr elapsed w).1.trace =
            w.trace ++ Effect.clientQuery req apiKey.Key :: rest ∧
          ∀ forwarded key, Effect.clientQuery forwarded key ∉ rest) ∧
        (∀ resp, client.Query req apiKey.Key = .ok resp → resp.Usage.NonNegative →
          (s.Query orgID projectID req getKeyErr elapsed w).2 = .ok resp) ∧
        (∀ e, client.Query req apiKey.Key = .error e →
          (s.Query orgID projectID req getKeyErr elapsed w).2 =
            .error ("failed to query LLM: " ++ e))) ∧
      (∀ models : GoMap String Model,
        Service.Query { clients := s.clients, models := models } orgID projectID req getKeyErr
          elapsed w = s.Query orgID projectID req getKeyErr elapsed w) ∧
      (∀ orgID' projectID',
        s.Query orgID' projectID' req getKeyErr elapsed w =
          s.Query orgID projectID req getKeyErr elapsed w) := by
  have hrest : ∀ {rest : List Effect},
      (∀ e ∈ rest, e = Effect.llmError req.Provider req.Model ∨
        e = Effect.llmLatency req.Provider req.Model elapsed ∨
        ∃ kind count, e = Effect.llmTokens req.Provider req.Model kind count) →
      (∀ forwarded key, Effect.clientQuery forwarded key ∉ rest) ∧
      (∀ id usage c, Effect.recordAPIKeyUsage id usage c ∉ rest) ∧
      (∀ id, Effect.updateAPIKeyLastUsed id ∉ rest) := by
    intro rest hall
    refine ⟨?_, ?_, ?_⟩
    · intro forwarded key hmem
      rcases hall _ hmem with h | h | ⟨_, _, h⟩ <;> cases h
    · intro id usage c hmem
      rcases hall _ hmem with h | h | ⟨_, _, h⟩ <;> cases h
    · intro id hmem
      rcases hall _ hmem with h | h | ⟨_, _, h⟩ <;> cases h
  refine ⟨?_, ?_, ?_, fun _ => rfl, fun _ _ => rfl⟩
  · cases hk : GetAPIKey w.db getKeyErr req.Provider with
    | error e => simp only [Service.Query, hk]
    | ok apiKey =>
      cases hc : s.GetClient req.Provider with
      | error e => simp only [Service.Query, hk, hc]
      | ok client =>
        obtain ⟨rest, hw, _⟩ := @Query_calls_client s orgID projectID req getKeyErr elapsed w
          apiKey client hk hc
        rw [hw]
  · cases hk : GetAPIKey w.db getKeyErr req.Provider with
    | error e => exact ⟨[], by simp [Service.Query, hk]⟩
    | ok apiKey =>
      cases hc : s.GetClient req.Provider with
      | error e => exact ⟨[], by simp [Service.Query, hk, hc]⟩
      | ok client =>
        obtain ⟨rest, hw, hall⟩ := @Query_calls_client s orgID projectID req getKeyErr elapsed w
          apiKey client hk hc
        obtain ⟨h1, h2, h3⟩ := hrest hall
        refine ⟨Effect.clientQuery req apiKey.Key :: rest, by rw [hw], ?_, ?_, ?_⟩
        · intro forwarded key hmem
          rcases List.mem_cons.1 hmem with h | h
          · cases h
            rfl
          · exact absurd h (h1 forwarded key)
        · intro id usage c hmem
          rcases List.mem_cons.1 hmem with h | h
          · cases h
          · exact absurd h (h2 id usage c)
        · intro id hmem
          rcases List.mem_cons.1 hmem with h | h
          · cases h
          · exact absurd h (h3 id)
  · intro apiKey client hk hc
    obtain ⟨rest, hw, hall⟩ := @Query_calls_client s orgID projectID req getKeyErr elapsed w
      apiKey client hk hc
    obtain ⟨hr1, hr2, _⟩ := @Query_result s orgID projectID req getKeyErr elapsed w
      apiKey client hk hc
    exact ⟨⟨rest, by rw [hw], (hrest hall).1⟩, hr2, hr1⟩

/-- Witness of C24: the Groq client answers a request that carries caller metadata and
names a model no catalogue lists. `Service.Query`, called for `org-1` and `proj-1`, hands
that very request to the client with the secret of the least recently used Groq key,
returns the response of the client, and leaves the database as it was. -/
theorem Query_frame_witness :
    ((groqService chatPayload).Query "org-1" "proj-1" metadataQuery none 7 exampleWorld).1.db =
        exampleWorld.db ∧
      (∃ rest, ((groqService chatPayload).Query "org-1" "proj-1" metadataQuery none 7
          exampleWorld).1.trace =
          exampleWorld.trace ++ Effect.clientQuery metadataQuery "gsk-a" :: rest ∧
        ∀ forwarded key, Effect.clientQuery forwarded key ∉ rest) ∧
      ((groqService chatPayload).Query "org-1" "proj-1" metadataQuery none 7 exampleWorld).2 =
        .ok { ID := "chatcmpl-1", Provider := "groq", Model := "no-such-model",
              Text := "hello",
              Usage := { PromptTokens := 10, CompletionTokens := 5, TotalTokens := 15 },
              FinishReason := "stop", Metadata := some [("trace", "t-1")], Latency := 7 } :=
  have h := Query_frame (groqService chatPayload) "org-1" "proj-1" metadataQuery none 7
    exampleWorld
  have h3 := h.2.2.1
    { ID := 1, Provider := "groq", Key := "gsk-a", Description := "", IsActive := true,
      LastUsed := 10 }
    (groq.NewClient.asLLMClient (decodingNet chatPayload)) rfl rfl
  ⟨h.1, h3.1, h3.2.1 _ rfl (by decide)⟩

/-! ## The shipped catalogues -/

theorem registerModels_fresh (models : GoMap String Model) (l : List Model)
    (hfresh : ∀ m ∈ l, ∀ kv ∈ models, kv.1 ≠ m.ID) (hnd : (l.map Model.ID).Nodup) :
    registerModels models l = models ++ l.map (fun m => (m.ID, m)) := by
  induction l generalizing models with
  | nil => simp [registerModels]
  | cons a rest ih =>
    rw [List.map_cons, List.nodup_cons] at hnd
    have hset : GoMap.set models a.ID a = models ++ [(a.ID, a)] := by
      unfold GoMap.set
      rw [List.filter_eq_self.2]
      intro kv hkv
      simpa using hfresh a (List.mem_cons_self a rest) kv hkv
    rw [registerModels, hset, ih _ _ hnd.2]
    · simp
    · intro m hm kv hkv
      rcases List.mem_append.1 hkv with h | h
      · exact hfresh m (List.mem_cons_of_mem a hm) kv h
      · simp only [List.mem_singleton] at h
        rw [h]
        intro heq
        exact hnd.1 (List.mem_map.2 ⟨m, hm, heq.symm⟩)

theorem ListModels_of_distinct_ids (cs : List LLMClient)
    (hids : ((cs.flatMap LLMClient.GetModels).map Model.ID).Nodup)
    (order : GoMap.RangeOrder Model) :
    ((registerAll NewService cs).ListModels order).Perm (cs.flatMap LLMClient.GetModels) := by
  refine (ListModels_perm _ order).trans ?_
  rw [registerAll_models, registerModels_fresh _ _ (by simp [NewService]) hids]
  simp [NewService, Function.comp_def]

/-- C25, on the code as it is: every model of the catalogues of the Groq, Google and
OpenAI clients carries the provider tag of its client, and the six model identifiers are
pairwise distinct. Of the three clients only the Groq and the Google client are values of
the interface `LLMClient` that `RegisterClient` takes (`Query` of the OpenAI client lacks
the credential parameter): registered on a fresh service in either order, they give an
index of four models, the two catalogues, in which `GetModel` finds each of the four; no
model of the OpenAI catalogue is in it and no client answers for `openai`. -/
theorem catalogues_well_formed (key : String) (netG : Net ChatResult) (netC : Net google.Result)
    (cs : List LLMClient)
    (hcs : cs = [groq.NewClient.asLLMClient netG, google.NewClient.asLLMClient netC] ∨
      cs = [google.NewClient.asLLMClient netC, groq.NewClient.asLLMClient netG]) :
    (∀ m ∈ groq.NewClient.GetModels, m.Provider = groq.NewClient.GetProvider) ∧
      (∀ m ∈ google.NewClient.GetModels, m.Provider = google.NewClient.GetProvider) ∧
      (∀ m ∈ (openai.NewClient key).GetModels,
        m.Provider = (openai.NewClient key).GetProvider) ∧
      ((groq.NewClient.GetModels ++ google.NewClient.GetModels ++
        (openai.NewClient key).GetModels).map Model.ID).Nodup ∧
      (∀ order, ((registerAll NewService cs).ListModels order).Perm
          (groq.NewClient.GetModels ++ google.NewClient.GetModels) ∧
        ((registerAll NewService cs).ListModels order).length = 4) ∧
      (∀ m ∈ groq.NewClient.GetModels ++ google.NewClient.GetModels,
        (registerAll NewService cs).GetModel m.ID = some m) ∧
      (∀ m ∈ (openai.NewClient key).GetModels,
        (registerAll NewService cs).GetModel m.ID = none) ∧
      (registerAll NewService cs).GetClient types.ProviderOpenAI =
        .error "provider openai not supported" := by
  have hopenai : (openai.NewClient key).GetModels = (openai.NewClient "").GetModels := rfl
  have hnodup : ((groq.NewClient.GetModels ++ google.NewClient.GetModels ++
      (openai.NewClient key).GetModels).map Model.ID).Nodup := by
    rw [hopenai]
    decide
  have htag : ∀ m ∈ (openai.NewClient "").GetModels, m.Provider = types.ProviderOpenAI := by
    decide
  have hflat : (cs.flatMap LLMClient.GetModels).Perm
      (groq.NewClient.GetModels ++ google.NewClient.GetModels) := by
    rcases hcs with h | h
    · rw [h]
      exact List.Perm.of_eq rfl
    · rw [h]
      exact (List.Perm.of_eq rfl).trans
        (@List.perm_append_comm _ google.NewClient.GetModels groq.NewClient.GetModels)
  have hids : ((cs.flatMap LLMClient.GetModels).map Model.ID).Nodup :=
    ((hflat.map Model.ID).nodup_iff).2 (by decide)
  have hlist := ListModels_of_distinct_ids cs hids
  refine ⟨by decide, by decide, htag, hnodup, ?_, ?_, ?_, ?_⟩
  · intro order
    exact ⟨(hlist order).trans hflat, by rw [((hlist order).trans hflat).length_eq]; rfl⟩
  · intro m hm
    rw [← mem_ListModels_iff cs GoMap.RangeOrder.insertion]
    exact ((hlist _).trans hflat).mem_iff.2 hm
  · intro m hm
    rw [hopenai] at hm
    cases hget : (registerAll NewService cs).GetModel m.ID with
    | none => rfl
    | some m' =>
      exfalso
      have hid : m'.ID = m.ID := by
        rw [registerAll_GetModel] at hget
        simpa using List.find?_some hget
      have hmem : m' ∈ groq.NewClient.GetModels ++ google.NewClient.GetModels := by
        refine ((hlist GoMap.RangeOrder.insertion).trans hflat).mem_iff.1 ?_
        rw [mem_ListModels_iff, hid, hget]
      have hdisj : ∀ m ∈ (openai.NewClient "").GetModels,
          ∀ m' ∈ groq.NewClient.GetModels ++ google.NewClient.GetModels, m'.ID ≠ m.ID := by
        decide
      exact hdisj m hm m' hmem hid
  · rcases hcs with h | h <;> rw [h] <;> rfl

/-- Instance of C25: the Google client registered first, then the Groq client. -/
theorem catalogues_well_formed_witness :
    ((registerAll NewService
        [google.NewClient.asLLMClient (decodingNet googlePayload),
         groq.NewClient.asLLMClient (decodingNet chatPayload)]).ListModels
        GoMap.RangeOrder.reversed).length = 4 ∧
      (registerAll NewService
        [google.NewClient.asLLMClient (decodingNet googlePayload),
         groq.NewClient.asLLMClient (decodingNet chatPayload)]).GetModel "gpt-4" = none :=
  have h := catalogues_well_formed "sk-env" (decodingNet chatPayload) (decodingNet googlePayload)
    [google.NewClient.asLLMClient (decodingNet googlePayload),
     groq.NewClient.asLLMClient (decodingNet chatPayload)] (Or.inr rfl)
  ⟨(h.2.2.2.2.1 GoMap.RangeOrder.reversed).2, h.2.2.2.2.2.2.1 gpt4 (by decide)⟩

/-! ## Rotation of the pool -/

theorem HandleQuery_success_rows {s : Service} {env : Env} {w : World} {req : QueryRequest}
    {client : LLMClient} {model : Model} {apiKey : APIKey} {resp : Response}
    (hb : ShouldBindJSON env.decoded = .ok req)
    (hc : s.GetClient req.Provider = .ok client)
    (hm : s.GetModel req.Model = some model)
    (hk : GetAPIKey w.db env.getKeyErr req.Provider = .ok apiKey)
    (hq : client.Query (llmRequest req env.project_id env.user_id) apiKey.Key = .ok resp)
    (hnn : resp.Usage.NonNegative)
    (hu : env.updateErr = none) :
    (s.HandleQuery env w).1.db.api_keys =
      w.db.api_keys.map (markUsed apiKey.ID env.updateNow) := by
  rw [HandleQuery_success_eq hb hc hm hk hq hnn, RecordTokenUsage_of_nonNegative hnn, hu]
  cases env.recordErr <;>
    simp [logError, UpdateAPIKeyLastUsed, RecordAPIKeyUsage,
      metrics.RecordLLMLatency, World.emit, markUsed]

/-- One step of a successful run rewrites the key store with `markUsed`. -/
theorem SuccessfulRun_step {s : Service} {provider : types.Provider} {env : Env} {w : World}
    {req : QueryRequest} {apiKey : APIKey}
    (hb : ShouldBindJSON env.decoded = .ok req) (hp : req.Provider = provider)
    (hok : (s.HandleQuery env w).2.status = 200)
    (hk : GetAPIKey w.db env.getKeyErr provider = .ok apiKey)
    (hu : env.updateErr = none) :
    (s.HandleQuery env w).1.db.api_keys =
      w.db.api_keys.map (markUsed apiKey.ID env.updateNow) := by
  obtain ⟨req', client, model, apiKey', resp, hb', hc, hm, hk', hq, hnn⟩ :=
    HandleQuery_ok_inv hok
  rw [hb] at hb'
  cases hb'
  rw [hp, hk] at hk'
  cases hk'
  rw [← hp] at hk
  exact HandleQuery_success_rows hb hc hm hk hq hnn hu

theorem markUsed_ID (keyID : Nat) (now : Time) (k : APIKey) : (markUsed keyID now k).ID = k.ID := by
  unfold markUsed
  split <;> rfl

theorem markUsed_Provider (keyID : Nat) (now : Time) (k : APIKey) :
    (markUsed keyID now k).Provider = k.Provider := by
  unfold markUsed
  split <;> rfl

theorem markUsed_IsActive (keyID : Nat) (now : Time) (k : APIKey) :
    (markUsed keyID now k).IsActive = k.IsActive := by
  unfold markUsed
  split <;> rfl

theorem markUsed_of_ne {keyID : Nat} {now : Time} {k : APIKey} (h : k.ID ≠ keyID) :
    markUsed keyID now k = k := by
  unfold markUsed
  simp [h]

theorem markUsed_LastUsed_of_eq {keyID : Nat} {now : Time} {k : APIKey} (h : k.ID = keyID) :
    (markUsed keyID now k).LastUsed = now := by
  unfold markUsed
  simp [h]

theorem map_markUsed_ids (keyID : Nat) (now : Time) (rows : List APIKey) :
    (rows.map (markUsed keyID now)).map APIKey.ID = rows.map APIKey.ID := by
  rw [List.map_map]
  apply List.map_congr_left
  intro k _
  exact markUsed_ID keyID now k

theorem activeKeys_length_markUsed (db db' : DB) (provider : types.Provider) (keyID : Nat)
    (now : Time) (h : db'.api_keys = db.api_keys.map (markUsed keyID now)) :
    (activeKeys db' provider).length = (activeKeys db provider).length := by
  unfold activeKeys
  rw [List.length_insertionSort, List.length_insertionSort, h, List.filter_map,
    List.length_map]
  congr 1
  apply List.filter_congr
  intro k _
  simp [markUsed_Provider, markUsed_IsActive]

/-- Along a successful run, a key `b` that was used before the key `a` and is not acquired
stays before `a`, so `a` cannot be acquired: when the request of index `j` acquires `a`,
the key `b` was acquired by one of the `j` requests before it. -/
theorem SuccessfulRun_acquires_older {s : Service} {provider : types.Provider} (a b : Nat)
    (envs : List Env) :
    ∀ (w : World) (keys : List APIKey), SuccessfulRun s provider envs w keys →
      (∀ x ∈ w.db.api_keys, ∀ y ∈ w.db.api_keys, x.ID = b → y.ID = a →
        x.LastUsed < y.LastUsed) →
      (∃ x ∈ w.db.api_keys, x.ID = b ∧ x.Provider = provider ∧ x.IsActive = true) →
      ∀ (j : Nat) (kj : APIKey), keys[j]? = some kj → kj.ID = a →
        b ∈ (keys.take j).map APIKey.ID := by
  induction envs with
  | nil =>
    intro w keys hrun _ _ j kj hj _
    have hnil : keys = [] := hrun
    rw [hnil] at hj
    simp at hj
  | cons env rest ih =>
    intro w keys hrun hQ hbact j kj hj hkj
    obtain ⟨req, apiKey, tail, hkeys, hb, hp, hok, hk, hu, hts, hrest⟩ := hrun
    subst hkeys
    have hrows := SuccessfulRun_step hb hp hok hk hu
    obtain ⟨xb, hxb, hxbid, hxbp, hxba⟩ := hbact
    cases j with
    | zero =>
      simp only [List.getElem?_cons_zero, Option.some.injEq] at hj
      subst hj
      exfalso
      obtain ⟨hmem, _, _, hmin⟩ := GetAPIKey_sound hk
      exact absurd (hQ xb hxb apiKey hmem hxbid hkj) (not_lt.2 (hmin xb hxb hxbp hxba))
    | succ j' =>
      simp only [List.getElem?_cons_succ] at hj
      by_cases hab : apiKey.ID = b
      · simp [hab]
      · have hxb' : markUsed apiKey.ID env.updateNow xb = xb :=
          markUsed_of_ne (by rw [hxbid]; exact fun h => hab h.symm)
        have hin : b ∈ (tail.take j').map APIKey.ID := by
          apply ih (s.HandleQuery env w).1 tail hrest ?_ ?_ j' kj hj hkj
          · intro x' hx' y' hy' hx'id hy'id
            rw [hrows] at hx' hy'
            obtain ⟨x, hx, rfl⟩ := List.mem_map.1 hx'
            obtain ⟨y, hy, rfl⟩ := List.mem_map.1 hy'
            rw [markUsed_ID] at hx'id hy'id
            have hxne : x.ID ≠ apiKey.ID := by
              rw [hx'id]
              exact fun h => hab h.symm
            rw [markUsed_of_ne hxne]
            by_cases hya : y.ID = apiKey.ID
            · rw [markUsed_LastUsed_of_eq hya]
              exact hts x hx
            · rw [markUsed_of_ne hya]
              exact hQ x hx y hy hx'id hy'id
          · refine ⟨xb, ?_, hxbid, hxbp, hxba⟩
            rw [hrows]
            exact List.mem_map.2 ⟨xb, hxb, hxb'⟩
        simp only [List.take_succ_cons, List.map_cons, List.mem_cons]
        exact Or.inr hin

theorem activeKeys_ids_nodup {db : DB} (provider : types.Provider)
    (hids : (db.api_keys.map APIKey.ID).Nodup) :
    ((activeKeys db provider).map APIKey.ID).Nodup := by
  unfold activeKeys
  rw [((List.perm_insertionSort keyOrder _).map APIKey.ID).nodup_iff]
  exact List.Nodup.sublist ((List.filter_sublist _).map APIKey.ID) hids

/-- When the key acquired by the first request of a successful run is acquired again by
the request of index `j + 1`, all the active keys of the provider were acquired among the
first `j + 1` requests. -/
theorem SuccessfulRun_first_repeats {s : Service} {provider : types.Provider} {env : Env}
    {rest : List Env} {w : World} {k0 : APIKey} {tail : List APIKey}
    (hids : (w.db.api_keys.map APIKey.ID).Nodup)
    (hrun : SuccessfulRun s provider (env :: rest) w (k0 :: tail))
    (j : Nat) (kj : APIKey) (hj : tail[j]? = some kj) (hkj : kj.ID = k0.ID) :
    (activeKeys w.db provider).length ≤ j + 1 := by
  obtain ⟨req, apiKey, tail', hkeys, hb, hp, hok, hk, hu, hts, hrest⟩ := hrun
  cases hkeys
  have hrows := SuccessfulRun_step hb hp hok hk hu
  have hnd := activeKeys_ids_nodup provider hids
  have hk0 : k0 ∈ activeKeys w.db provider :=
    List.mem_of_mem_head? (GetAPIKey_ok_iff.1 hk).2
  have hk0id : k0.ID ∈ (activeKeys w.db provider).map APIKey.ID :=
    List.mem_map.2 ⟨k0, hk0, rfl⟩
  have hsub : ((activeKeys w.db provider).map APIKey.ID).erase k0.ID ⊆
      (tail.take j).map APIKey.ID := by
    intro b hbmem
    obtain ⟨hbne, hbin⟩ := (List.Nodup.mem_erase_iff hnd).1 hbmem
    obtain ⟨xb, hxb, hxbid⟩ := List.mem_map.1 hbin
    obtain ⟨hxbdb, hxbp, hxba⟩ := mem_activeKeys.1 hxb
    have hxbne : xb.ID ≠ k0.ID := by rw [hxbid]; exact hbne
    apply SuccessfulRun_acquires_older k0.ID b rest (s.HandleQuery env w).1 tail hrest ?_ ?_
      j kj hj hkj
    · intro x' hx' y' hy' hx'id hy'id
      rw [hrows] at hx' hy'
      obtain ⟨x, hx, rfl⟩ := List.mem_map.1 hx'
      obtain ⟨y, hy, rfl⟩ := List.mem_map.1 hy'
      rw [markUsed_ID] at hx'id hy'id
      have hxne : x.ID ≠ k0.ID := by rw [hx'id]; exact hbne
      rw [markUsed_of_ne hxne, markUsed_LastUsed_of_eq hy'id]
      exact hts x hx
    · refine ⟨xb, ?_, hxbid, hxbp, hxba⟩
      rw [hrows]
      exact List.mem_map.2 ⟨xb, hxbdb, markUsed_of_ne hxbne⟩
  have hlen := ((List.Nodup.erase k0.ID hnd).subperm hsub).length_le
  rw [List.length_erase_of_mem hk0id, List.length_map, List.length_map] at hlen
  have htake := List.length_take_le j tail
  omega

/-- C23, as the code has it: in a sequential run of `HandleQuery` requests for one
provider, each answered 200, each with its `UpdateAPIKeyLastUsed` accepted by the database
and marking with an instant later than every `last_used` then in the store, on a key store
with unique ids, two requests less than `n` apart acquire keys with different ids, `n`
being the number of active keys of the provider: any `n` consecutive requests acquire `n`
pairwise distinct keys. -/
theorem lru_rotation (s : Service) (provider : types.Provider) (envs : List Env) :
    ∀ (w : World) (keys : List APIKey), (w.db.api_keys.map APIKey.ID).Nodup →
      SuccessfulRun s provider envs w keys →
      ∀ (i j : Nat) (a b : APIKey), keys[i]? = some a → keys[j]? = some b → i < j →
        j < i + (activeKeys w.db provider).length → a.ID ≠ b.ID := by
  induction envs with
  | nil =>
    intro w keys _ hrun i j a b hi
    have hnil : keys = [] := hrun
    rw [hnil] at hi
    simp at hi
  | cons env rest ih =>
    intro w keys hids hrun i j a b hi hj hij hjn
    have hrun' := hrun
    obtain ⟨req, apiKey, tail, hkeys, hb, hp, hok, hk, hu, hts, hrest⟩ := hrun
    subst hkeys
    have hrows := SuccessfulRun_step hb hp hok hk hu
    cases j with
    | zero => omega
    | succ j' =>
      simp only [List.getElem?_cons_succ] at hj
      cases i with
      | zero =>
        simp only [List.getElem?_cons_zero, Option.some.injEq] at hi
        subst hi
        intro heq
        have := SuccessfulRun_first_repeats hids hrun' j' b hj heq.symm
        omega
      | succ i' =>
        simp only [List.getElem?_cons_succ] at hi
        have hids' : ((s.HandleQuery env w).1.db.api_keys.map APIKey.ID).Nodup := by
          rw [hrows, map_markUsed_ids]
          exact hids
        have hn := activeKeys_length_markUsed w.db (s.HandleQuery env w).1.db provider
          apiKey.ID env.updateNow hrows
        apply ih (s.HandleQuery env w).1 tail hids' hrest i' j' a b hi hj (by omega)
        rw [hn]
        omega

/-- Witness of C23 as amended: three requests served at instants 31, 32, 33 on
`exampleKeys`, which has two active Groq keys; they acquire the keys 1, 2, 1. -/
theorem lru_rotation_witness :
    SuccessfulRun (exampleService (.ok exampleResponse)) "groq"
        [exampleEnvAt 31 none, exampleEnvAt 32 none, exampleEnvAt 33 none] exampleWorld
        [groqKey1 10, groqKey2, groqKey1 31] ∧
      ∀ (i j : Nat) (a b : APIKey),
        [groqKey1 10, groqKey2, groqKey1 31][i]? = some a →
        [groqKey1 10, groqKey2, groqKey1 31][j]? = some b → i < j → j < i + 2 →
        a.ID ≠ b.ID :=
  have hrun : SuccessfulRun (exampleService (.ok exampleResponse)) "groq"
      [exampleEnvAt 31 none, exampleEnvAt 32 none, exampleEnvAt 33 none] exampleWorld
      [groqKey1 10, groqKey2, groqKey1 31] :=
    ⟨exampleRequest, groqKey1 10, [groqKey2, groqKey1 31], rfl, rfl, rfl, rfl, rfl, rfl,
      by decide,
      ⟨exampleRequest, groqKey2, [groqKey1 31], rfl, rfl, rfl, rfl, rfl, rfl, by decide,
        ⟨exampleRequest, groqKey1 31, [], rfl, rfl, rfl, rfl, rfl, rfl, by decide, rfl⟩⟩⟩
  ⟨hrun, lru_rotation (exampleService (.ok exampleResponse)) "groq"
    [exampleEnvAt 31 none, exampleEnvAt 32 none, exampleEnvAt 33 none] exampleWorld
    [groqKey1 10, groqKey2, groqKey1 31] (by decide) hrun⟩

/-- Counterexample to C23 as stated: `exampleKeys` has two active Groq keys; two requests
in a row are answered 200, both mark at an instant later than every `last_used` in the
store, but the database rejects the update of `last_used` (a failure `HandleQuery` only
logs), and both requests acquire the key 1. -/
theorem lru_rotation_counterexample :
    (activeKeys exampleWorld.db "groq").length = 2 ∧
      ((exampleService (.ok exampleResponse)).HandleQuery
        (exampleEnvAt 31 (some "update failed")) exampleWorld).2.status = 200 ∧
      ((exampleService (.ok exampleResponse)).HandleQuery
        (exampleEnvAt 32 (some "update failed"))
        ((exampleService (.ok exampleResponse)).HandleQuery
          (exampleEnvAt 31 (some "update failed")) exampleWorld).1).2.status = 200 ∧
      (∀ k ∈ exampleWorld.db.api_keys, k.LastUsed < 31) ∧
      (∀ k ∈ ((exampleService (.ok exampleResponse)).HandleQuery
          (exampleEnvAt 31 (some "update failed")) exampleWorld).1.db.api_keys,
        k.LastUsed < 32) ∧
      GetAPIKey exampleWorld.db none "groq" = .ok (groqKey1 10) ∧
      GetAPIKey ((exampleService (.ok exampleResponse)).HandleQuery
        (exampleEnvAt 31 (some "update failed")) exampleWorld).1.db none "groq" =
        .ok (groqKey1 10) := by
  refine ⟨rfl, rfl, rfl, by decide, by decide, rfl, rfl⟩

end llms
end Gateway
